import Mathlib

/-!
# DM motor CAN protocol (dm_motor_drv.c, dm_motor_ctrl.c)

A shallow embedding of the protocol layer of the DM-series motor driver.

Conventions of the embedding:

* `float` values are rationals (`ℚ`).  Two layers are given for the code
  that computes with them.  The functions `float_to_uint`, `uint_to_float`,
  `psi_ctrl`, `dm_motor_fbdata` evaluate every expression exactly, with `int`
  unbounded (`Int`): this idealisation serves the statements about frame
  layout and dispatch.  The functions `float_to_uint_f32`,
  `uint_to_float_f32`, `psi_ctrl_f32`, `dm_motor_fbdata_f32` compute as the
  target does: every `-`, `*`, `/`, `+` and every `(float)` conversion rounds
  to binary32 (round to nearest, ties to even, subnormals kept,
  `FLT_EVAL_METHOD` 0), and a conversion to `int` or `uint16_t` whose value
  does not fit is undefined.  Their result is an `Option`: `none` stands for
  an overflow to infinity, a division by zero or an undefined conversion.
  The statements that depend on rounding (round trip, encode and decode
  ranges, scaling, decoded feedback) are made of this second layer.
* The raw object representation of a `float` (what `(uint8_t*)&x` and the
  union `float_type_u` expose) is given by a parameter `f32_repr`.
* `(int) x` is truncation toward zero.
* `uint8_t` / `uint16_t` objects are naturals reduced `% 256` / `% 65536`
  at every assignment.
* `fdcanx_send_data` is the transport: a call is recorded as a `can_frame`
  appended to the list of frames a function returns.
* Constants that live in the headers (`MIT_MODE`, `KP_MAX`, `RID_*`,
  the enumerators of the control mode) are fields of `dm_defs`.
-/

namespace DM

/-! ## Quantity codec -/

/-- The C conversion `(int) x`: truncation toward zero, into an unbounded
integer; `c_int_cast_f32` adds the 32-bit range of `int`. -/
def c_int_cast (q : ℚ) : Int := Int.tdiv q.num q.den

/-- Function `int float_to_uint(float x_float, float x_min, float x_max, int bits)`
(dm_motor_drv.c 171-177), every expression evaluated exactly;
`float_to_uint_f32` is the computation in binary32. -/
def float_to_uint (x_float x_min x_max : ℚ) (bits : Nat) : Int :=
  let span := x_max - x_min
  let offset := x_min
  c_int_cast ((x_float - offset) * ((((1 <<< bits : Nat) : Int) - 1 : Int) : ℚ) / span)

/-- Function `float uint_to_float(int x_int, float x_min, float x_max, int bits)`
(dm_motor_drv.c 189-195), every expression evaluated exactly;
`uint_to_float_f32` is the computation in binary32. -/
def uint_to_float (x_int : Int) (x_min x_max : ℚ) (bits : Nat) : ℚ :=
  let span := x_max - x_min
  let offset := x_min
  (x_int : ℚ) * span / ((((1 <<< bits : Nat) : Int) - 1 : Int) : ℚ) + offset

/-! ## Data model -/

/-- One call of the transport `fdcanx_send_data(hcan, id, data, len)`:
arbitration id, payload buffer and length (the handle `hcan` is dropped). -/
structure can_frame where
  id : Nat
  data : List Nat
  len : Nat
  deriving DecidableEq, Repr

/-- Object representation of a `float` on the target (little-endian,
32 bits): `bits x` is the 32-bit pattern of `x` read as an unsigned integer,
`of_bits u` the `float` whose pattern is `u` (the two views of the union
`float_type_u`). -/
structure f32_repr where
  bits : ℚ → Nat
  of_bits : Nat → ℚ

/-- Constants declared in the headers `dm_motor_drv.h` / `dm_motor_ctrl.h`:
mode offsets, gain ranges, the enumerators of the control mode and the
register ids. -/
structure dm_defs where
  MIT_MODE : Nat
  POS_MODE : Nat
  SPD_MODE : Nat
  PSI_MODE : Nat
  KP_MIN : ℚ
  KP_MAX : ℚ
  KD_MIN : ℚ
  KD_MAX : ℚ
  mit_mode : Nat
  pos_mode : Nat
  spd_mode : Nat
  psi_mode : Nat
  RID_UV_VALUE : Nat
  RID_KT_VALUE : Nat
  RID_OT_VALUE : Nat
  RID_OC_VALUE : Nat
  RID_ACC : Nat
  RID_DEC : Nat
  RID_MAX_SPD : Nat
  RID_MST_ID : Nat
  RID_ESC_ID : Nat
  RID_TIMEOUT : Nat
  RID_CMODE : Nat
  RID_DAMP : Nat
  RID_INERTIA : Nat
  RID_HW_VER : Nat
  RID_SW_VER : Nat
  RID_SN : Nat
  RID_NPP : Nat
  RID_RS : Nat
  RID_LS : Nat
  RID_FLUX : Nat
  RID_GR : Nat
  RID_PMAX : Nat
  RID_VMAX : Nat
  RID_TMAX : Nat
  RID_I_BW : Nat
  RID_KP_ASR : Nat
  RID_KI_ASR : Nat
  RID_KP_APR : Nat
  RID_KI_APR : Nat
  RID_OV_VALUE : Nat
  RID_GREF : Nat
  RID_DETA : Nat
  RID_V_BW : Nat
  RID_IQ_CL : Nat
  RID_VL_CL : Nat
  RID_CAN_BR : Nat
  RID_SUB_VER : Nat
  RID_U_OFF : Nat
  RID_V_OFF : Nat
  RID_K1 : Nat
  RID_K2 : Nat
  RID_M_OFF : Nat
  RID_DIR : Nat
  RID_P_M : Nat
  RID_X_OUT : Nat

/-- The member `ctrl` of `motor_t`: control mode and targets, with the
fields the sources use (the type is declared in a header). -/
structure motor_ctrl_t where
  mode : Nat
  pos_set : ℚ
  vel_set : ℚ
  kp_set : ℚ
  kd_set : ℚ
  tor_set : ℚ
  cur_set : ℚ

/-- The member `para` of `motor_t`: decoded feedback, with the fields the
sources use.  The integer fields receive values below `2^16` and are kept
without narrowing. -/
structure motor_fbpara_t where
  id : Nat
  state : Nat
  p_int : Nat
  v_int : Nat
  t_int : Nat
  pos : ℚ
  vel : ℚ
  tor : ℚ
  Tmos : ℚ
  Tcoil : ℚ

/-- The member `tmp` of `motor_t`: read cursor and register cache; a field
assigned from `y.u_val` is an unsigned integer, one assigned from `y.f_val` a
`float`. -/
structure esc_inf_t where
  read_flag : Nat
  UV_Value : ℚ
  KT_Value : ℚ
  OT_Value : ℚ
  OC_Value : ℚ
  ACC : ℚ
  DEC : ℚ
  MAX_SPD : ℚ
  MST_ID : Nat
  ESC_ID : Nat
  TIMEOUT : Nat
  cmode : Nat
  Damp : ℚ
  Inertia : ℚ
  hw_ver : Nat
  sw_ver : Nat
  SN : Nat
  NPP : Nat
  Rs : ℚ
  Ls : ℚ
  Flux : ℚ
  Gr : ℚ
  PMAX : ℚ
  VMAX : ℚ
  TMAX : ℚ
  I_BW : ℚ
  KP_ASR : ℚ
  KI_ASR : ℚ
  KP_APR : ℚ
  KI_APR : ℚ
  OV_Value : ℚ
  GREF : ℚ
  Deta : ℚ
  V_BW : ℚ
  IQ_cl : ℚ
  VL_cl : ℚ
  can_br : Nat
  sub_ver : Nat
  u_off : ℚ
  v_off : ℚ
  k1 : ℚ
  k2 : ℚ
  m_off : ℚ
  dir : ℚ
  p_m : ℚ
  x_out : ℚ

/-- The motor record `motor_t`. -/
structure motor_t where
  id : Nat
  mst_id : Nat
  tmp : esc_inf_t
  ctrl : motor_ctrl_t
  para : motor_fbpara_t

/-- Modelled from the spec: the transport `fdcanx_send_data(hcan, id, data, len)`
(`send_frame(arbitration_id, payload, length)` of the spec) is not part of
the sources; a call is recorded as the frame handed over. -/
def fdcanx_send_data (id : Nat) (data : List Nat) (len : Nat) : List can_frame :=
  [{ id := id, data := data, len := len }]

/-- The four bytes of a `float` object as read through `uint8_t *`. -/
def f32_bytes (F : f32_repr) (x : ℚ) : List Nat :=
  [F.bits x % 256, (F.bits x >>> 8) % 256, (F.bits x >>> 16) % 256, (F.bits x >>> 24) % 256]

/-- Conversion of an `int` to `uint16_t`. -/
def to_u16 (i : Int) : Nat := (i % 65536).toNat

/-! ## dm_motor_drv.c -/

/-- Function `enable_motor_mode` (dm_motor_drv.c 207-222). -/
def enable_motor_mode (motor_id mode_id : Nat) : List can_frame :=
  let id := (motor_id + mode_id) % 65536
  fdcanx_send_data id [0xFF, 0xFF, 0xFF, 0xFF, 0xFF, 0xFF, 0xFF, 0xFC] 8

/-- Function `disable_motor_mode` (dm_motor_drv.c 233-248). -/
def disable_motor_mode (motor_id mode_id : Nat) : List can_frame :=
  let id := (motor_id + mode_id) % 65536
  fdcanx_send_data id [0xFF, 0xFF, 0xFF, 0xFF, 0xFF, 0xFF, 0xFF, 0xFD] 8

/-- Function `save_pos_zero` (dm_motor_drv.c 259-274). -/
def save_pos_zero (motor_id mode_id : Nat) : List can_frame :=
  let id := (motor_id + mode_id) % 65536
  fdcanx_send_data id [0xFF, 0xFF, 0xFF, 0xFF, 0xFF, 0xFF, 0xFF, 0xFE] 8

/-- Function `clear_err` (dm_motor_drv.c 285-300). -/
def clear_err (motor_id mode_id : Nat) : List can_frame :=
  let id := (motor_id + mode_id) % 65536
  fdcanx_send_data id [0xFF, 0xFF, 0xFF, 0xFF, 0xFF, 0xFF, 0xFF, 0xFB] 8

/-- Function `mit_ctrl` (dm_motor_drv.c 315-337). -/
def mit_ctrl (d : dm_defs) (motor : motor_t) (motor_id : Nat)
    (pos vel kp kd tor : ℚ) : List can_frame :=
  let id := (motor_id + d.MIT_MODE) % 65536
  let pos_tmp := to_u16 (float_to_uint pos (-motor.tmp.PMAX) motor.tmp.PMAX 16)
  let vel_tmp := to_u16 (float_to_uint vel (-motor.tmp.VMAX) motor.tmp.VMAX 12)
  let tor_tmp := to_u16 (float_to_uint tor (-motor.tmp.TMAX) motor.tmp.TMAX 12)
  let kp_tmp := to_u16 (float_to_uint kp d.KP_MIN d.KP_MAX 12)
  let kd_tmp := to_u16 (float_to_uint kd d.KD_MIN d.KD_MAX 12)
  fdcanx_send_data id
    [ (pos_tmp >>> 8) % 256,
      pos_tmp % 256,
      (vel_tmp >>> 4) % 256,
      (((vel_tmp &&& 0xF) <<< 4) ||| (kp_tmp >>> 8)) % 256,
      kp_tmp % 256,
      (kd_tmp >>> 4) % 256,
      (((kd_tmp &&& 0xF) <<< 4) ||| (tor_tmp >>> 8)) % 256,
      tor_tmp % 256 ] 8

/-- Function `pos_ctrl` (dm_motor_drv.c 348-369). -/
def pos_ctrl (F : f32_repr) (d : dm_defs) (motor_id : Nat) (pos vel : ℚ) : List can_frame :=
  let id := (motor_id + d.POS_MODE) % 65536
  fdcanx_send_data id (f32_bytes F pos ++ f32_bytes F vel) 8

/-- Function `spd_ctrl` (dm_motor_drv.c 380-395). -/
def spd_ctrl (F : f32_repr) (d : dm_defs) (motor_id : Nat) (vel : ℚ) : List can_frame :=
  let id := (motor_id + d.SPD_MODE) % 65536
  fdcanx_send_data id (f32_bytes F vel) 4

/-- Function `psi_ctrl` (dm_motor_drv.c 409-435), the products `vel*100` and
`cur*10000` evaluated exactly; `psi_ctrl_f32` is the computation in binary32. -/
def psi_ctrl (F : f32_repr) (d : dm_defs) (motor_id : Nat) (pos vel cur : ℚ) : List can_frame :=
  let u16_vel := to_u16 (c_int_cast (vel * 100))
  let u16_cur := to_u16 (c_int_cast (cur * 10000))
  let id := (motor_id + d.PSI_MODE) % 65536
  fdcanx_send_data id
    (f32_bytes F pos ++ [u16_vel % 256, (u16_vel >>> 8) % 256, u16_cur % 256, (u16_cur >>> 8) % 256]) 8

/-- Function `read_motor_data` (dm_motor_drv.c 445-452). -/
def read_motor_data (id rid : Nat) : List can_frame :=
  let can_id_l := (id &&& 0x0F) % 256
  let can_id_h := ((id >>> 4) &&& 0x0F) % 256
  fdcanx_send_data 0x7FF [can_id_l, can_id_h, 0x33, rid % 256] 4

/-- Function `read_motor_ctrl_fbdata` (dm_motor_drv.c 461-468). -/
def read_motor_ctrl_fbdata (id : Nat) : List can_frame :=
  let can_id_l := (id &&& 0xFF) % 256
  let can_id_h := ((id >>> 8) &&& 0x07) % 256
  fdcanx_send_data 0x7FF [can_id_l, can_id_h, 0xCC, 0x00] 4

/-- Function `write_motor_data` (dm_motor_drv.c 479-486). -/
def write_motor_data (id rid d0 d1 d2 d3 : Nat) : List can_frame :=
  let can_id_l := (id &&& 0xFF) % 256
  let can_id_h := ((id >>> 8) &&& 0x07) % 256
  fdcanx_send_data 0x7FF [can_id_l, can_id_h, 0x55, rid % 256, d0 % 256, d1 % 256, d2 % 256, d3 % 256] 8

/-- Function `save_motor_data` (dm_motor_drv.c 496-503). -/
def save_motor_data (id _rid : Nat) : List can_frame :=
  let can_id_l := (id &&& 0xFF) % 256
  let can_id_h := ((id >>> 8) &&& 0x07) % 256
  fdcanx_send_data 0x7FF [can_id_l, can_id_h, 0xAA, 0x01] 4

/-- Function `dm_motor_clear_para` (dm_motor_drv.c 100-108). -/
def dm_motor_clear_para (motor : motor_t) : motor_t :=
  { motor with ctrl := { motor.ctrl with
      kd_set := 0, kp_set := 0, pos_set := 0, vel_set := 0, tor_set := 0, cur_set := 0 } }

/-- Function `dm_motor_enable` (dm_motor_drv.c 15-32). -/
def dm_motor_enable (d : dm_defs) (motor : motor_t) : List can_frame :=
  if motor.ctrl.mode = d.mit_mode then enable_motor_mode motor.id d.MIT_MODE
  else if motor.ctrl.mode = d.pos_mode then enable_motor_mode motor.id d.POS_MODE
  else if motor.ctrl.mode = d.spd_mode then enable_motor_mode motor.id d.SPD_MODE
  else if motor.ctrl.mode = d.psi_mode then enable_motor_mode motor.id d.PSI_MODE
  else []

/-- Function `dm_motor_disable` (dm_motor_drv.c 43-61): the frames sent and the
record after the call. -/
def dm_motor_disable (d : dm_defs) (motor : motor_t) : List can_frame × motor_t :=
  let sent :=
    if motor.ctrl.mode = d.mit_mode then disable_motor_mode motor.id d.MIT_MODE
    else if motor.ctrl.mode = d.pos_mode then disable_motor_mode motor.id d.POS_MODE
    else if motor.ctrl.mode = d.spd_mode then disable_motor_mode motor.id d.SPD_MODE
    else if motor.ctrl.mode = d.psi_mode then disable_motor_mode motor.id d.PSI_MODE
    else []
  (sent, dm_motor_clear_para motor)

/-- Function `dm_motor_ctrl_send` (dm_motor_drv.c 72-89). -/
def dm_motor_ctrl_send (F : f32_repr) (d : dm_defs) (motor : motor_t) : List can_frame :=
  if motor.ctrl.mode = d.mit_mode then
    mit_ctrl d motor motor.id motor.ctrl.pos_set motor.ctrl.vel_set motor.ctrl.kp_set
      motor.ctrl.kd_set motor.ctrl.tor_set
  else if motor.ctrl.mode = d.pos_mode then
    pos_ctrl F d motor.id motor.ctrl.pos_set motor.ctrl.vel_set
  else if motor.ctrl.mode = d.spd_mode then
    spd_ctrl F d motor.id motor.ctrl.vel_set
  else if motor.ctrl.mode = d.psi_mode then
    psi_ctrl F d motor.id motor.ctrl.pos_set motor.ctrl.vel_set motor.ctrl.cur_set
  else []

/-- Function `dm_motor_clear_err` (dm_motor_drv.c 118-135). -/
def dm_motor_clear_err (d : dm_defs) (motor : motor_t) : List can_frame :=
  if motor.ctrl.mode = d.mit_mode then clear_err motor.id d.MIT_MODE
  else if motor.ctrl.mode = d.pos_mode then clear_err motor.id d.POS_MODE
  else if motor.ctrl.mode = d.spd_mode then clear_err motor.id d.SPD_MODE
  else if motor.ctrl.mode = d.psi_mode then clear_err motor.id d.PSI_MODE
  else []

/-- Function `dm_motor_fbdata` (dm_motor_drv.c 146-158), the decoding evaluated
exactly (`dm_motor_fbdata_f32` decodes in binary32); `rx_data[i]` past the end
of the received bytes reads the zero fill of the receive buffer. -/
def dm_motor_fbdata (motor : motor_t) (rx_data : List Nat) : motor_t :=
  let id := (rx_data.getD 0 0) &&& 0x0F
  let state := (rx_data.getD 0 0) >>> 4
  let p_int := ((rx_data.getD 1 0) <<< 8) ||| (rx_data.getD 2 0)
  let v_int := ((rx_data.getD 3 0) <<< 4) ||| ((rx_data.getD 4 0) >>> 4)
  let t_int := (((rx_data.getD 4 0) &&& 0xF) <<< 8) ||| (rx_data.getD 5 0)
  { motor with para := { motor.para with
      id := id, state := state, p_int := p_int, v_int := v_int, t_int := t_int,
      pos := uint_to_float p_int (-motor.tmp.PMAX) motor.tmp.PMAX 16,
      vel := uint_to_float v_int (-motor.tmp.VMAX) motor.tmp.VMAX 12,
      tor := uint_to_float t_int (-motor.tmp.TMAX) motor.tmp.TMAX 12,
      Tmos := (rx_data.getD 6 0 : ℚ),
      Tcoil := (rx_data.getD 7 0 : ℚ) } }

/-! ## dm_motor_ctrl.c -/

/-- Function `read_all_motor_data` (dm_motor_ctrl.c 52-102). -/
def read_all_motor_data (d : dm_defs) (motor : motor_t) : List can_frame :=
  if motor.tmp.read_flag = 1 then read_motor_data motor.id d.RID_UV_VALUE
  else if motor.tmp.read_flag = 2 then read_motor_data motor.id d.RID_KT_VALUE
  else if motor.tmp.read_flag = 3 then read_motor_data motor.id d.RID_OT_VALUE
  else if motor.tmp.read_flag = 4 then read_motor_data motor.id d.RID_OC_VALUE
  else if motor.tmp.read_flag = 5 then read_motor_data motor.id d.RID_ACC
  else if motor.tmp.read_flag = 6 then read_motor_data motor.id d.RID_DEC
  else if motor.tmp.read_flag = 7 then read_motor_data motor.id d.RID_MAX_SPD
  else if motor.tmp.read_flag = 8 then read_motor_data motor.id d.RID_MST_ID
  else if motor.tmp.read_flag = 9 then read_motor_data motor.id d.RID_ESC_ID
  else if motor.tmp.read_flag = 10 then read_motor_data motor.id d.RID_TIMEOUT
  else if motor.tmp.read_flag = 11 then read_motor_data motor.id d.RID_CMODE
  else if motor.tmp.read_flag = 12 then read_motor_data motor.id d.RID_DAMP
  else if motor.tmp.read_flag = 13 then read_motor_data motor.id d.RID_INERTIA
  else if motor.tmp.read_flag = 14 then read_motor_data motor.id d.RID_HW_VER
  else if motor.tmp.read_flag = 15 then read_motor_data motor.id d.RID_SW_VER
  else if motor.tmp.read_flag = 16 then read_motor_data motor.id d.RID_SN
  else if motor.tmp.read_flag = 17 then read_motor_data motor.id d.RID_NPP
  else if motor.tmp.read_flag = 18 then read_motor_data motor.id d.RID_RS
  else if motor.tmp.read_flag = 19 then read_motor_data motor.id d.RID_LS
  else if motor.tmp.read_flag = 20 then read_motor_data motor.id d.RID_FLUX
  else if motor.tmp.read_flag = 21 then read_motor_data motor.id d.RID_GR
  else if motor.tmp.read_flag = 22 then read_motor_data motor.id d.RID_PMAX
  else if motor.tmp.read_flag = 23 then read_motor_data motor.id d.RID_VMAX
  else if motor.tmp.read_flag = 24 then read_motor_data motor.id d.RID_TMAX
  else if motor.tmp.read_flag = 25 then read_motor_data motor.id d.RID_I_BW
  else if motor.tmp.read_flag = 26 then read_motor_data motor.id d.RID_KP_ASR
  else if motor.tmp.read_flag = 27 then read_motor_data motor.id d.RID_KI_ASR
  else if motor.tmp.read_flag = 28 then read_motor_data motor.id d.RID_KP_APR
  else if motor.tmp.read_flag = 29 then read_motor_data motor.id d.RID_KI_APR
  else if motor.tmp.read_flag = 30 then read_motor_data motor.id d.RID_OV_VALUE
  else if motor.tmp.read_flag = 31 then read_motor_data motor.id d.RID_GREF
  else if motor.tmp.read_flag = 32 then read_motor_data motor.id d.RID_DETA
  else if motor.tmp.read_flag = 33 then read_motor_data motor.id d.RID_V_BW
  else if motor.tmp.read_flag = 34 then read_motor_data motor.id d.RID_IQ_CL
  else if motor.tmp.read_flag = 35 then read_motor_data motor.id d.RID_VL_CL
  else if motor.tmp.read_flag = 36 then read_motor_data motor.id d.RID_CAN_BR
  else if motor.tmp.read_flag = 37 then read_motor_data motor.id d.RID_SUB_VER
  else if motor.tmp.read_flag = 38 then read_motor_data motor.id d.RID_U_OFF
  else if motor.tmp.read_flag = 39 then read_motor_data motor.id d.RID_V_OFF
  else if motor.tmp.read_flag = 40 then read_motor_data motor.id d.RID_K1
  else if motor.tmp.read_flag = 41 then read_motor_data motor.id d.RID_K2
  else if motor.tmp.read_flag = 42 then read_motor_data motor.id d.RID_M_OFF
  else if motor.tmp.read_flag = 43 then read_motor_data motor.id d.RID_DIR
  else if motor.tmp.read_flag = 44 then read_motor_data motor.id d.RID_P_M
  else if motor.tmp.read_flag = 45 then read_motor_data motor.id d.RID_X_OUT
  else []

/-- The member `u_val` of the union `float_type_u` after `b_val[0..3]` were
loaded from `data[4..7]`. -/
def y_u_val (data : List Nat) : Nat :=
  data.getD 4 0 + 256 * data.getD 5 0 + 65536 * data.getD 6 0 + 16777216 * data.getD 7 0

/-- The `switch (rid_value)` of `receive_motor_data` (dm_motor_ctrl.c 127-174). -/
def receive_switch (F : f32_repr) (d : dm_defs) (motor : motor_t)
    (rid_value : Nat) (u_val : Nat) : motor_t :=
  let f_val := F.of_bits u_val
  if rid_value = d.RID_UV_VALUE then
    { motor with tmp := { motor.tmp with UV_Value := f_val, read_flag := 2 } }
  else if rid_value = d.RID_KT_VALUE then
    { motor with tmp := { motor.tmp with KT_Value := f_val, read_flag := 3 } }
  else if rid_value = d.RID_OT_VALUE then
    { motor with tmp := { motor.tmp with OT_Value := f_val, read_flag := 4 } }
  else if rid_value = d.RID_OC_VALUE then
    { motor with tmp := { motor.tmp with OC_Value := f_val, read_flag := 5 } }
  else if rid_value = d.RID_ACC then
    { motor with tmp := { motor.tmp with ACC := f_val, read_flag := 6 } }
  else if rid_value = d.RID_DEC then
    { motor with tmp := { motor.tmp with DEC := f_val, read_flag := 7 } }
  else if rid_value = d.RID_MAX_SPD then
    { motor with tmp := { motor.tmp with MAX_SPD := f_val, read_flag := 8 } }
  else if rid_value = d.RID_MST_ID then
    { motor with tmp := { motor.tmp with MST_ID := u_val, read_flag := 9 } }
  else if rid_value = d.RID_ESC_ID then
    { motor with tmp := { motor.tmp with ESC_ID := u_val, read_flag := 10 } }
  else if rid_value = d.RID_TIMEOUT then
    { motor with tmp := { motor.tmp with TIMEOUT := u_val, read_flag := 11 } }
  else if rid_value = d.RID_CMODE then
    { motor with tmp := { motor.tmp with cmode := u_val, read_flag := 12 } }
  else if rid_value = d.RID_DAMP then
    { motor with tmp := { motor.tmp with Damp := f_val, read_flag := 13 } }
  else if rid_value = d.RID_INERTIA then
    { motor with tmp := { motor.tmp with Inertia := f_val, read_flag := 14 } }
  else if rid_value = d.RID_HW_VER then
    { motor with tmp := { motor.tmp with hw_ver := u_val, read_flag := 15 } }
  else if rid_value = d.RID_SW_VER then
    { motor with tmp := { motor.tmp with sw_ver := u_val, read_flag := 16 } }
  else if rid_value = d.RID_SN then
    { motor with tmp := { motor.tmp with SN := u_val, read_flag := 17 } }
  else if rid_value = d.RID_NPP then
    { motor with tmp := { motor.tmp with NPP := u_val, read_flag := 18 } }
  else if rid_value = d.RID_RS then
    { motor with tmp := { motor.tmp with Rs := f_val, read_flag := 19 } }
  else if rid_value = d.RID_LS then
    { motor with tmp := { motor.tmp with Ls := f_val, read_flag := 20 } }
  else if rid_value = d.RID_FLUX then
    { motor with tmp := { motor.tmp with Flux := f_val, read_flag := 21 } }
  else if rid_value = d.RID_GR then
    { motor with tmp := { motor.tmp with Gr := f_val, read_flag := 22 } }
  else if rid_value = d.RID_PMAX then
    { motor with tmp := { motor.tmp with PMAX := f_val, read_flag := 23 } }
  else if rid_value = d.RID_VMAX then
    { motor with tmp := { motor.tmp with VMAX := f_val, read_flag := 24 } }
  else if rid_value = d.RID_TMAX then
    { motor with tmp := { motor.tmp with TMAX := f_val, read_flag := 25 } }
  else if rid_value = d.RID_I_BW then
    { motor with tmp := { motor.tmp with I_BW := f_val, read_flag := 26 } }
  else if rid_value = d.RID_KP_ASR then
    { motor with tmp := { motor.tmp with KP_ASR := f_val, read_flag := 27 } }
  else if rid_value = d.RID_KI_ASR then
    { motor with tmp := { motor.tmp with KI_ASR := f_val, read_flag := 28 } }
  else if rid_value = d.RID_KP_APR then
    { motor with tmp := { motor.tmp with KP_APR := f_val, read_flag := 29 } }
  else if rid_value = d.RID_KI_APR then
    { motor with tmp := { motor.tmp with KI_APR := f_val, read_flag := 30 } }
  else if rid_value = d.RID_OV_VALUE then
    { motor with tmp := { motor.tmp with OV_Value := f_val, read_flag := 31 } }
  else if rid_value = d.RID_GREF then
    { motor with tmp := { motor.tmp with GREF := f_val, read_flag := 32 } }
  else if rid_value = d.RID_DETA then
    { motor with tmp := { motor.tmp with Deta := f_val, read_flag := 33 } }
  else if rid_value = d.RID_V_BW then
    { motor with tmp := { motor.tmp with V_BW := f_val, read_flag := 34 } }
  else if rid_value = d.RID_IQ_CL then
    { motor with tmp := { motor.tmp with IQ_cl := f_val, read_flag := 35 } }
  else if rid_value = d.RID_VL_CL then
    { motor with tmp := { motor.tmp with VL_cl := f_val, read_flag := 36 } }
  else if rid_value = d.RID_CAN_BR then
    { motor with tmp := { motor.tmp with can_br := u_val, read_flag := 37 } }
  else if rid_value = d.RID_SUB_VER then
    { motor with tmp := { motor.tmp with sub_ver := u_val, read_flag := 38 } }
  else if rid_value = d.RID_U_OFF then
    { motor with tmp := { motor.tmp with u_off := f_val, read_flag := 39 } }
  else if rid_value = d.RID_V_OFF then
    { motor with tmp := { motor.tmp with v_off := f_val, read_flag := 40 } }
  else if rid_value = d.RID_K1 then
    { motor with tmp := { motor.tmp with k1 := f_val, read_flag := 41 } }
  else if rid_value = d.RID_K2 then
    { motor with tmp := { motor.tmp with k2 := f_val, read_flag := 42 } }
  else if rid_value = d.RID_M_OFF then
    { motor with tmp := { motor.tmp with m_off := f_val, read_flag := 43 } }
  else if rid_value = d.RID_DIR then
    { motor with tmp := { motor.tmp with dir := f_val, read_flag := 44 } }
  else if rid_value = d.RID_P_M then
    { motor with tmp := { motor.tmp with p_m := f_val, read_flag := 45 } }
  else if rid_value = d.RID_X_OUT then
    { motor with tmp := { motor.tmp with x_out := f_val, read_flag := 0 } }
  else motor

/-- Function `receive_motor_data` (dm_motor_ctrl.c 112-176). -/
def receive_motor_data (F : f32_repr) (d : dm_defs) (motor : motor_t) (data : List Nat) :
    motor_t :=
  if motor.tmp.read_flag = 0 then motor
  else if data.getD 2 0 = 0x33 then
    receive_switch F d motor (data.getD 3 0) (y_u_val data)
  else motor

/-- The `case 0x00` of `fdcan1_rx_callback` (dm_motor_ctrl.c 187-196) applied
to the record of `Motor1`; frames with another `rec_id` leave it untouched. -/
def fdcan1_rx_callback (F : f32_repr) (d : dm_defs) (motor1 : motor_t)
    (rec_id : Nat) (rx_data : List Nat) : motor_t :=
  if rec_id = 0x00 then receive_motor_data F d (dm_motor_fbdata motor1 rx_data) rx_data
  else motor1

/-- A `switch` with `break` after every case, as a list of labels with
their bodies: the body of the first matching label runs, none if no label
matches. -/
def switch_chain (cases : List (Nat × (motor_t → motor_t))) (rid_value : Nat)
    (motor : motor_t) : motor_t :=
  match cases with
  | [] => motor
  | (label, body) :: rest =>
      if rid_value = label then body motor else switch_chain rest rid_value motor

/-- The cases of the `switch` of `receive_motor_data` as a table, in source
order (`receive_switch_eq_chain` shows it is the same `switch`). -/
def receive_cases (F : f32_repr) (d : dm_defs) (u_val : Nat) :
    List (Nat × (motor_t → motor_t)) :=
  let f_val := F.of_bits u_val
  [ (d.RID_UV_VALUE, fun motor =>
      { motor with tmp := { motor.tmp with UV_Value := f_val, read_flag := 2 } }),
    (d.RID_KT_VALUE, fun motor =>
      { motor with tmp := { motor.tmp with KT_Value := f_val, read_flag := 3 } }),
    (d.RID_OT_VALUE, fun motor =>
      { motor with tmp := { motor.tmp with OT_Value := f_val, read_flag := 4 } }),
    (d.RID_OC_VALUE, fun motor =>
      { motor with tmp := { motor.tmp with OC_Value := f_val, read_flag := 5 } }),
    (d.RID_ACC, fun motor =>
      { motor with tmp := { motor.tmp with ACC := f_val, read_flag := 6 } }),
    (d.RID_DEC, fun motor =>
      { motor with tmp := { motor.tmp with DEC := f_val, read_flag := 7 } }),
    (d.RID_MAX_SPD, fun motor =>
      { motor with tmp := { motor.tmp with MAX_SPD := f_val, read_flag := 8 } }),
    (d.RID_MST_ID, fun motor =>
      { motor with tmp := { motor.tmp with MST_ID := u_val, read_flag := 9 } }),
    (d.RID_ESC_ID, fun motor =>
      { motor with tmp := { motor.tmp with ESC_ID := u_val, read_flag := 10 } }),
    (d.RID_TIMEOUT, fun motor =>
      { motor with tmp := { motor.tmp with TIMEOUT := u_val, read_flag := 11 } }),
    (d.RID_CMODE, fun motor =>
      { motor with tmp := { motor.tmp with cmode := u_val, read_flag := 12 } }),
    (d.RID_DAMP, fun motor =>
      { motor with tmp := { motor.tmp with Damp := f_val, read_flag := 13 } }),
    (d.RID_INERTIA, fun motor =>
      { motor with tmp := { motor.tmp with Inertia := f_val, read_flag := 14 } }),
    (d.RID_HW_VER, fun motor =>
      { motor with tmp := { motor.tmp with hw_ver := u_val, read_flag := 15 } }),
    (d.RID_SW_VER, fun motor =>
      { motor with tmp := { motor.tmp with sw_ver := u_val, read_flag := 16 } }),
    (d.RID_SN, fun motor =>
      { motor with tmp := { motor.tmp with SN := u_val, read_flag := 17 } }),
    (d.RID_NPP, fun motor =>
      { motor with tmp := { motor.tmp with NPP := u_val, read_flag := 18 } }),
    (d.RID_RS, fun motor =>
      { motor with tmp := { motor.tmp with Rs := f_val, read_flag := 19 } }),
    (d.RID_LS, fun motor =>
      { motor with tmp := { motor.tmp with Ls := f_val, read_flag := 20 } }),
    (d.RID_FLUX, fun motor =>
      { motor with tmp := { motor.tmp with Flux := f_val, read_flag := 21 } }),
    (d.RID_GR, fun motor =>
      { motor with tmp := { motor.tmp with Gr := f_val, read_flag := 22 } }),
    (d.RID_PMAX, fun motor =>
      { motor with tmp := { motor.tmp with PMAX := f_val, read_flag := 23 } }),
    (d.RID_VMAX, fun motor =>
      { motor with tmp := { motor.tmp with VMAX := f_val, read_flag := 24 } }),
    (d.RID_TMAX, fun motor =>
      { motor with tmp := { motor.tmp with TMAX := f_val, read_flag := 25 } }),
    (d.RID_I_BW, fun motor =>
      { motor with tmp := { motor.tmp with I_BW := f_val, read_flag := 26 } }),
    (d.RID_KP_ASR, fun motor =>
      { motor with tmp := { motor.tmp with KP_ASR := f_val, read_flag := 27 } }),
    (d.RID_KI_ASR, fun motor =>
      { motor with tmp := { motor.tmp with KI_ASR := f_val, read_flag := 28 } }),
    (d.RID_KP_APR, fun motor =>
      { motor with tmp := { motor.tmp with KP_APR := f_val, read_flag := 29 } }),
    (d.RID_KI_APR, fun motor =>
      { motor with tmp := { motor.tmp with KI_APR := f_val, read_flag := 30 } }),
    (d.RID_OV_VALUE, fun motor =>
      { motor with tmp := { motor.tmp with OV_Value := f_val, read_flag := 31 } }),
    (d.RID_GREF, fun motor =>
      { motor with tmp := { motor.tmp with GREF := f_val, read_flag := 32 } }),
    (d.RID_DETA, fun motor =>
      { motor with tmp := { motor.tmp with Deta := f_val, read_flag := 33 } }),
    (d.RID_V_BW, fun motor =>
      { motor with tmp := { motor.tmp with V_BW := f_val, read_flag := 34 } }),
    (d.RID_IQ_CL, fun motor =>
      { motor with tmp := { motor.tmp with IQ_cl := f_val, read_flag := 35 } }),
    (d.RID_VL_CL, fun motor =>
      { motor with tmp := { motor.tmp with VL_cl := f_val, read_flag := 36 } }),
    (d.RID_CAN_BR, fun motor =>
      { motor with tmp := { motor.tmp with can_br := u_val, read_flag := 37 } }),
    (d.RID_SUB_VER, fun motor =>
      { motor with tmp := { motor.tmp with sub_ver := u_val, read_flag := 38 } }),
    (d.RID_U_OFF, fun motor =>
      { motor with tmp := { motor.tmp with u_off := f_val, read_flag := 39 } }),
    (d.RID_V_OFF, fun motor =>
      { motor with tmp := { motor.tmp with v_off := f_val, read_flag := 40 } }),
    (d.RID_K1, fun motor =>
      { motor with tmp := { motor.tmp with k1 := f_val, read_flag := 41 } }),
    (d.RID_K2, fun motor =>
      { motor with tmp := { motor.tmp with k2 := f_val, read_flag := 42 } }),
    (d.RID_M_OFF, fun motor =>
      { motor with tmp := { motor.tmp with m_off := f_val, read_flag := 43 } }),
    (d.RID_DIR, fun motor =>
      { motor with tmp := { motor.tmp with dir := f_val, read_flag := 44 } }),
    (d.RID_P_M, fun motor =>
      { motor with tmp := { motor.tmp with p_m := f_val, read_flag := 45 } }),
    (d.RID_X_OUT, fun motor =>
      { motor with tmp := { motor.tmp with x_out := f_val, read_flag := 0 } }) ]

/-- The register ids in the order of the `case` labels. -/
def rid_list (d : dm_defs) : List Nat :=
  [d.RID_UV_VALUE, d.RID_KT_VALUE, d.RID_OT_VALUE, d.RID_OC_VALUE, d.RID_ACC, d.RID_DEC, d.RID_MAX_SPD, d.RID_MST_ID, d.RID_ESC_ID, d.RID_TIMEOUT, d.RID_CMODE, d.RID_DAMP, d.RID_INERTIA, d.RID_HW_VER, d.RID_SW_VER, d.RID_SN, d.RID_NPP, d.RID_RS, d.RID_LS, d.RID_FLUX, d.RID_GR, d.RID_PMAX, d.RID_VMAX, d.RID_TMAX, d.RID_I_BW, d.RID_KP_ASR, d.RID_KI_ASR, d.RID_KP_APR, d.RID_KI_APR, d.RID_OV_VALUE, d.RID_GREF, d.RID_DETA, d.RID_V_BW, d.RID_IQ_CL, d.RID_VL_CL, d.RID_CAN_BR, d.RID_SUB_VER, d.RID_U_OFF, d.RID_V_OFF, d.RID_K1, d.RID_K2, d.RID_M_OFF, d.RID_DIR, d.RID_P_M, d.RID_X_OUT]

/-- Register ids are one-byte values and, being `case` labels of one
`switch`, pairwise distinct. -/
def rid_ok (d : dm_defs) : Prop :=
  (rid_list d).Nodup ∧ ∀ r ∈ rid_list d, r < 256

/-- The enumerators of the control mode are pairwise distinct. -/
def modes_ok (d : dm_defs) : Prop :=
  [d.mit_mode, d.pos_mode, d.spd_mode, d.psi_mode].Nodup

/-- Function `dm_motor_init` (dm_motor_ctrl.c 18-43): the record of `Motor1` after the
`memset` and the assignments. -/
def dm_motor_init (d : dm_defs) : motor_t :=
  { id := 0x01
    mst_id := 0x00
    tmp :=
      { read_flag := 1
        UV_Value := 0, KT_Value := 0, OT_Value := 0, OC_Value := 0, ACC := 0, DEC := 0,
        MAX_SPD := 0, MST_ID := 0, ESC_ID := 0, TIMEOUT := 0, cmode := 0, Damp := 0,
        Inertia := 0, hw_ver := 0, sw_ver := 0, SN := 0, NPP := 0, Rs := 0, Ls := 0,
        Flux := 0, Gr := 0, PMAX := 25 / 2, VMAX := 30, TMAX := 10, I_BW := 0,
        KP_ASR := 0, KI_ASR := 0, KP_APR := 0, KI_APR := 0, OV_Value := 0, GREF := 0,
        Deta := 0, V_BW := 0, IQ_cl := 0, VL_cl := 0, can_br := 0, sub_ver := 0,
        u_off := 0, v_off := 0, k1 := 0, k2 := 0, m_off := 0, dir := 0, p_m := 0,
        x_out := 0 }
    ctrl :=
      { mode := d.spd_mode
        pos_set := 0, vel_set := 1, kp_set := 0, kd_set := 0, tor_set := 0,
        cur_set := 2 / 100 }
    para :=
      { id := 0, state := 0, p_int := 0, v_int := 0, t_int := 0,
        pos := 0, vel := 0, tor := 0, Tmos := 0, Tcoil := 0 } }

/-! ## The register scan as a run of the two sequencer functions -/

/-- A frame answers the read that `read_all_motor_data` issues for the
current cursor: tag byte `0x33` and the requested register id in byte 3. -/
def answers_request (d : dm_defs) (motor : motor_t) (data : List Nat) : Prop :=
  data.getD 2 0 = 0x33 ∧
    ∃ f, read_all_motor_data d motor = [f] ∧ data.getD 3 0 = f.data.getD 3 0

/-- Feeding a sequence of inbound frames to `receive_motor_data`. -/
def feed (F : f32_repr) (d : dm_defs) : motor_t → List (List Nat) → motor_t
  | motor, [] => motor
  | motor, data :: rest => feed F d (receive_motor_data F d motor data) rest

/-- Every frame of the sequence answers the read issued for the cursor at
the time it arrives. -/
def all_answer (F : f32_repr) (d : dm_defs) : motor_t → List (List Nat) → Prop
  | _, [] => True
  | motor, data :: rest =>
      answers_request d motor data ∧ all_answer F d (receive_motor_data F d motor data) rest

/-- The register-id bytes requested while the frames of the sequence are
fed, one per frame, in order. -/
def requested_ids (F : f32_repr) (d : dm_defs) : motor_t → List (List Nat) → List Nat
  | _, [] => []
  | motor, data :: rest =>
      (read_all_motor_data d motor).map (fun f => f.data.getD 3 0)
        ++ requested_ids F d (receive_motor_data F d motor data) rest

/-- The cursor values seen while the frames of the sequence are fed, one per
frame, in order. -/
def cursor_trace (F : f32_repr) (d : dm_defs) : motor_t → List (List Nat) → List Nat
  | _, [] => []
  | motor, data :: rest =>
      motor.tmp.read_flag :: cursor_trace F d (receive_motor_data F d motor data) rest

/-- Cursor reached after the register at position `i` of the `switch` was
accepted. -/
def next_flag (i : Nat) : Nat := if i = 44 then 0 else i + 2

/-! ## Concrete instances -/

/-- Binary32 patterns of the values used in the concrete instances below
(0, 1, 10, 12.5, 30); other values are not used there. -/
def f32_table : f32_repr where
  bits := fun x =>
    if x = 1 then 0x3F800000
    else if x = 10 then 0x41200000
    else if x = 25 / 2 then 0x41480000
    else if x = 30 then 0x41F00000
    else 0
  of_bits := fun u =>
    if u = 0x3F800000 then 1
    else if u = 0x41200000 then 10
    else if u = 0x41480000 then 25 / 2
    else if u = 0x41F00000 then 30
    else 0

/-- A second record in Speed mode: same id and `vel_set` as the record of
`dm_motor_init`, other targets and limits different. -/
def motor_other (d : dm_defs) : motor_t :=
  { dm_motor_init d with
    tmp := { (dm_motor_init d).tmp with PMAX := 1, VMAX := 2, TMAX := 3 }
    ctrl :=
      { mode := d.spd_mode
        pos_set := 3, vel_set := 1, kp_set := 7, kd_set := 1 / 2, tor_set := 2,
        cur_set := 1 / 4 } }

/-- The record of `dm_motor_init` with the read cursor moved to `n`. -/
def motor_at (d : dm_defs) (n : Nat) : motor_t :=
  { dm_motor_init d with tmp := { (dm_motor_init d).tmp with read_flag := n } }

/-- The record of `dm_motor_init` with the limit PMAX set to `x`. -/
def motor_with_pmax (d : dm_defs) (x : ℚ) : motor_t :=
  { dm_motor_init d with tmp := { (dm_motor_init d).tmp with PMAX := x } }

/-- The read-response for register id `r` with a zero value. -/
def response_for (r : Nat) : List Nat := [0x01, 0x00, 0x33, r, 0, 0, 0, 0]

/-- One read-response per register of the table, in table order. -/
def scan_frames (d : dm_defs) : List (List Nat) := (rid_list d).map response_for

/-- An assignment of the header constants used for concrete instances:
mode offsets `0x000/0x100/0x200/0x300`, gains in `[0,500]` and `[0,5]`. -/
def dm_sample : dm_defs where
  MIT_MODE := 0x000
  POS_MODE := 0x100
  SPD_MODE := 0x200
  PSI_MODE := 0x300
  KP_MIN := 0
  KP_MAX := 500
  KD_MIN := 0
  KD_MAX := 5
  mit_mode := 1
  pos_mode := 2
  spd_mode := 3
  psi_mode := 4
  RID_UV_VALUE := 0
  RID_KT_VALUE := 1
  RID_OT_VALUE := 2
  RID_OC_VALUE := 3
  RID_ACC := 4
  RID_DEC := 5
  RID_MAX_SPD := 6
  RID_MST_ID := 7
  RID_ESC_ID := 8
  RID_TIMEOUT := 9
  RID_CMODE := 10
  RID_DAMP := 11
  RID_INERTIA := 12
  RID_HW_VER := 13
  RID_SW_VER := 14
  RID_SN := 15
  RID_NPP := 16
  RID_RS := 17
  RID_LS := 18
  RID_FLUX := 19
  RID_GR := 20
  RID_PMAX := 21
  RID_VMAX := 22
  RID_TMAX := 23
  RID_I_BW := 24
  RID_KP_ASR := 25
  RID_KI_ASR := 26
  RID_KP_APR := 27
  RID_KI_APR := 28
  RID_OV_VALUE := 29
  RID_GREF := 30
  RID_DETA := 31
  RID_V_BW := 32
  RID_IQ_CL := 33
  RID_VL_CL := 34
  RID_CAN_BR := 35
  RID_SUB_VER := 36
  RID_U_OFF := 50
  RID_V_OFF := 51
  RID_K1 := 52
  RID_K2 := 53
  RID_M_OFF := 54
  RID_DIR := 55
  RID_P_M := 80
  RID_X_OUT := 81

/-! ## Views of the register cache -/

/-- A cached register value: an unsigned integer or a `float`. -/
inductive reg_val where
  | u32 (n : Nat)
  | f32 (x : ℚ)

/-- The 45 cache fields of the member `tmp`, in the order of the `case`
labels of `receive_motor_data`. -/
def cache_fields (t : esc_inf_t) : List reg_val :=
  [.f32 t.UV_Value, .f32 t.KT_Value, .f32 t.OT_Value, .f32 t.OC_Value, .f32 t.ACC, .f32 t.DEC,
   .f32 t.MAX_SPD, .u32 t.MST_ID, .u32 t.ESC_ID, .u32 t.TIMEOUT, .u32 t.cmode, .f32 t.Damp,
   .f32 t.Inertia, .u32 t.hw_ver, .u32 t.sw_ver, .u32 t.SN, .u32 t.NPP, .f32 t.Rs, .f32 t.Ls,
   .f32 t.Flux, .f32 t.Gr, .f32 t.PMAX, .f32 t.VMAX, .f32 t.TMAX, .f32 t.I_BW, .f32 t.KP_ASR,
   .f32 t.KI_ASR, .f32 t.KP_APR, .f32 t.KI_APR, .f32 t.OV_Value, .f32 t.GREF, .f32 t.Deta,
   .f32 t.V_BW, .f32 t.IQ_cl, .f32 t.VL_cl, .u32 t.can_br, .u32 t.sub_ver, .f32 t.u_off,
   .f32 t.v_off, .f32 t.k1, .f32 t.k2, .f32 t.m_off, .f32 t.dir, .f32 t.p_m, .f32 t.x_out]

/-- The ids of the registers whose case assigns `y.u_val` (the integer-typed
registers MST_ID, ESC_ID, TIMEOUT, cmode, hw_ver, sw_ver, SN, NPP, can_br,
sub_ver). -/
def int_typed (d : dm_defs) : List Nat :=
  [d.RID_MST_ID, d.RID_ESC_ID, d.RID_TIMEOUT, d.RID_CMODE, d.RID_HW_VER, d.RID_SW_VER, d.RID_SN, d.RID_NPP, d.RID_CAN_BR, d.RID_SUB_VER]

/-- Positions of the integer-typed registers in the table. -/
def int_positions : List Nat :=
  [7, 8, 9, 10, 13, 14, 15, 16, 35, 36]

/-- The value a read-response stores: `y.u_val` for an integer-typed
register, `y.f_val` for the others. -/
def stored_val (F : f32_repr) (d : dm_defs) (data : List Nat) : reg_val :=
  if data.getD 3 0 ∈ int_typed d then .u32 (y_u_val data)
  else .f32 (F.of_bits (y_u_val data))

/-- A record as `memset(&motor[i], 0, sizeof(motor[i]))` leaves it
(dm_motor_ctrl.c 21-26). -/
def motor_zero : motor_t :=
  { id := 0
    mst_id := 0
    tmp :=
      { read_flag := 0
        UV_Value := 0, KT_Value := 0, OT_Value := 0, OC_Value := 0, ACC := 0, DEC := 0,
        MAX_SPD := 0, MST_ID := 0, ESC_ID := 0, TIMEOUT := 0, cmode := 0, Damp := 0,
        Inertia := 0, hw_ver := 0, sw_ver := 0, SN := 0, NPP := 0, Rs := 0, Ls := 0,
        Flux := 0, Gr := 0, PMAX := 0, VMAX := 0, TMAX := 0, I_BW := 0,
        KP_ASR := 0, KI_ASR := 0, KP_APR := 0, KI_APR := 0, OV_Value := 0, GREF := 0,
        Deta := 0, V_BW := 0, IQ_cl := 0, VL_cl := 0, can_br := 0, sub_ver := 0,
        u_off := 0, v_off := 0, k1 := 0, k2 := 0, m_off := 0, dir := 0, p_m := 0,
        x_out := 0 }
    ctrl :=
      { mode := 0
        pos_set := 0, vel_set := 0, kp_set := 0, kd_set := 0, tor_set := 0, cur_set := 0 }
    para :=
      { id := 0, state := 0, p_int := 0, v_int := 0, t_int := 0,
        pos := 0, vel := 0, tor := 0, Tmos := 0, Tcoil := 0 } }

/-- The zero-filled record with the control mode set to `k`. -/
def motor_with_mode (k : Nat) : motor_t :=
  { motor_zero with ctrl := { motor_zero.ctrl with mode := k } }

/-! ## Binary32 arithmetic -/

/-- Rounding to the nearest integer, ties to the even one. -/
def round_half_even (r : ℚ) : Int :=
  if r - ⌊r⌋ < 1 / 2 then ⌊r⌋
  else if 1 / 2 < r - ⌊r⌋ then ⌊r⌋ + 1
  else if ⌊r⌋ % 2 = 0 then ⌊r⌋ else ⌊r⌋ + 1

/-- Exponent of the binade a binary32 result falls in, subnormals included. -/
def f32_exp (q : ℚ) : Int := max (Int.log 2 |q|) (-126)

/-- Rounding of a real result to binary32 (round to nearest, ties to even),
before the overflow test. -/
def f32_round (q : ℚ) : ℚ :=
  (round_half_even (q / (2 : ℚ) ^ (f32_exp q - 23)) : ℚ) * (2 : ℚ) ^ (f32_exp q - 23)

/-- Largest finite binary32 value. -/
def f32_max : ℚ := (2 ^ 24 - 1) * 2 ^ 104

/-- A finite binary32 value: a 24-bit integer times a power of two in the
binary32 exponent range. -/
def is_f32 (q : ℚ) : Prop :=
  ∃ k E : Int, |k| < 2 ^ 24 ∧ -149 ≤ E ∧ E ≤ 104 ∧ q = (k : ℚ) * (2 : ℚ) ^ E

/-- The binary32 result of an operation whose exact result is `q`: the
rounded value, `none` when it overflows (the code would hold an infinity). -/
def f32_of (q : ℚ) : Option ℚ :=
  if |f32_round q| ≤ f32_max then some (f32_round q) else none

/-- Binary32 `a + b`. -/
def f32_add (a b : ℚ) : Option ℚ := f32_of (a + b)

/-- Binary32 `a - b`. -/
def f32_sub (a b : ℚ) : Option ℚ := f32_of (a - b)

/-- Binary32 `a * b`. -/
def f32_mul (a b : ℚ) : Option ℚ := f32_of (a * b)

/-- Binary32 `a / b`; division by zero gives no finite value. -/
def f32_div (a b : ℚ) : Option ℚ := if b = 0 then none else f32_of (a / b)

/-- The conversion `(float) n` of an integer. -/
def int_to_f32 (n : Int) : Option ℚ := f32_of (n : ℚ)

/-- The conversion `(int) x` of a finite `float` to a 32-bit `int`:
truncation toward zero, undefined (`none`) when the truncated value does not
fit. -/
def c_int_cast_f32 (q : ℚ) : Option Int :=
  if -(2 : ℚ) ^ 31 - 1 < q ∧ q < (2 : ℚ) ^ 31 then some (c_int_cast q) else none

/-- The conversion of a finite `float` to `uint16_t`: truncation toward zero,
undefined (`none`) when the truncated value is not in `0..65535`. -/
def c_u16_cast_f32 (q : ℚ) : Option Nat :=
  if -1 < q ∧ q < 65536 then some (c_int_cast q).toNat else none

/-- Function `float_to_uint` (dm_motor_drv.c 171-177) in binary32 arithmetic:
every `-`, `*`, `/` rounds to binary32. -/
def float_to_uint_f32 (x_float x_min x_max : ℚ) (bits : Nat) : Option Int :=
  (f32_sub x_max x_min).bind fun span =>
  let offset := x_min
  (f32_sub x_float offset).bind fun d =>
  (int_to_f32 (((1 <<< bits : Nat) : Int) - 1)).bind fun lv =>
  (f32_mul d lv).bind fun p =>
  (f32_div p span).bind fun q =>
  c_int_cast_f32 q

/-- Function `uint_to_float` (dm_motor_drv.c 189-195) in binary32 arithmetic. -/
def uint_to_float_f32 (x_int : Int) (x_min x_max : ℚ) (bits : Nat) : Option ℚ :=
  (f32_sub x_max x_min).bind fun span =>
  let offset := x_min
  (int_to_f32 x_int).bind fun xi =>
  (f32_mul xi span).bind fun m =>
  (int_to_f32 (((1 <<< bits : Nat) : Int) - 1)).bind fun lv =>
  (f32_div m lv).bind fun r =>
  f32_add r offset

/-- The binary32 value that `float_to_uint` truncates: the scaled value with
its four roundings (`2^bits - 1` is exact in binary32 for `bits ≤ 24`). -/
def enc_scaled_f32 (x x_min x_max : ℚ) (bits : Nat) : ℚ :=
  f32_round (f32_round (f32_round (x - x_min) * ((2 : ℚ) ^ bits - 1)) / f32_round (x_max - x_min))

/-- The binary32 value that `uint_to_float` returns for a small integer, with
its four roundings. -/
def dec_value_f32 (n : Int) (x_min x_max : ℚ) (bits : Nat) : ℚ :=
  f32_round (f32_round (f32_round ((n : ℚ) * f32_round (x_max - x_min)) / ((2 : ℚ) ^ bits - 1))
    + x_min)

/-- Function `psi_ctrl` (dm_motor_drv.c 409-435) in binary32 arithmetic: the
products `vel*100` and `cur*10000` are rounded to binary32 before the
conversion to `uint16_t`; `none` when a product overflows or a conversion is
undefined. -/
def psi_ctrl_f32 (F : f32_repr) (d : dm_defs) (motor_id : Nat) (pos vel cur : ℚ) :
    Option (List can_frame) :=
  ((f32_mul vel 100).bind c_u16_cast_f32).bind fun u16_vel =>
  ((f32_mul cur 10000).bind c_u16_cast_f32).bind fun u16_cur =>
  let id := (motor_id + d.PSI_MODE) % 65536
  some (fdcanx_send_data id
    (f32_bytes F pos ++ [u16_vel % 256, (u16_vel >>> 8) % 256, u16_cur % 256, (u16_cur >>> 8) % 256]) 8)

/-- Function `dm_motor_fbdata` (dm_motor_drv.c 146-158) in binary32 arithmetic:
the three quantities are decoded by `uint_to_float_f32`; `none` when a
decoded value is not a finite number. -/
def dm_motor_fbdata_f32 (motor : motor_t) (rx_data : List Nat) : Option motor_t :=
  let id := (rx_data.getD 0 0) &&& 0x0F
  let state := (rx_data.getD 0 0) >>> 4
  let p_int := ((rx_data.getD 1 0) <<< 8) ||| (rx_data.getD 2 0)
  let v_int := ((rx_data.getD 3 0) <<< 4) ||| ((rx_data.getD 4 0) >>> 4)
  let t_int := (((rx_data.getD 4 0) &&& 0xF) <<< 8) ||| (rx_data.getD 5 0)
  (uint_to_float_f32 p_int (-motor.tmp.PMAX) motor.tmp.PMAX 16).bind fun pos =>
  (uint_to_float_f32 v_int (-motor.tmp.VMAX) motor.tmp.VMAX 12).bind fun vel =>
  (uint_to_float_f32 t_int (-motor.tmp.TMAX) motor.tmp.TMAX 12).bind fun tor =>
  some { motor with para := { motor.para with
      id := id, state := state, p_int := p_int, v_int := v_int, t_int := t_int,
      pos := pos, vel := vel, tor := tor,
      Tmos := (rx_data.getD 6 0 : ℚ),
      Tcoil := (rx_data.getD 7 0 : ℚ) } }

/-! ## Codec lemmas -/

theorem c_int_cast_of_nonneg {q : ℚ} (hq : 0 ≤ q) : c_int_cast q = ⌊q⌋ := by
  unfold c_int_cast
  rw [Rat.floor_def]
  exact Int.tdiv_eq_ediv (Rat.num_nonneg.mpr hq) (by exact_mod_cast Nat.zero_le _)

theorem levels_cast (bits : Nat) :
    ((((1 <<< bits : Nat) : Int) - 1 : Int) : ℚ) = (2 : ℚ) ^ bits - 1 := by
  simp [Nat.shiftLeft_eq]

theorem levels_pos {bits : Nat} (hb : 1 ≤ bits) : (0 : ℚ) < (2 : ℚ) ^ bits - 1 := by
  have h : (2 : ℚ) ^ 1 ≤ (2 : ℚ) ^ bits := pow_le_pow_right₀ (by norm_num) hb
  norm_num at h
  linarith

/-- Evaluation rule for `float_to_uint`: a non-negative integer `n` is the
result as soon as the scaled value lies in `[n, n+1)`. -/
theorem float_to_uint_eq_of_bounds {x x_min x_max : ℚ} {bits : Nat} {n : Int}
    (hn : 0 ≤ n)
    (hlo : (n : ℚ) ≤ (x - x_min) * ((2 : ℚ) ^ bits - 1) / (x_max - x_min))
    (hhi : (x - x_min) * ((2 : ℚ) ^ bits - 1) / (x_max - x_min) < (n : ℚ) + 1) :
    float_to_uint x x_min x_max bits = n := by
  unfold float_to_uint
  simp only [levels_cast]
  have h0 : (0 : ℚ) ≤ (x - x_min) * ((2 : ℚ) ^ bits - 1) / (x_max - x_min) :=
    le_trans (by exact_mod_cast hn) hlo
  rw [c_int_cast_of_nonneg h0, Int.floor_eq_iff]
  exact ⟨hlo, hhi⟩

theorem uint_to_float_eq (n : Int) (x_min x_max : ℚ) (bits : Nat) :
    uint_to_float n x_min x_max bits
      = (n : ℚ) * (x_max - x_min) / ((2 : ℚ) ^ bits - 1) + x_min := by
  unfold uint_to_float
  simp only [levels_cast]

/-! ## Bit-packing lemmas -/

theorem or_shl (a b i : Nat) (h : b < 2 ^ i) : (a <<< i) ||| b = a * 2 ^ i + b := by
  rw [Nat.shiftLeft_eq, Nat.mul_comm, ← Nat.mul_add_lt_is_or h]

theorem and_0xF (x : Nat) : x &&& 0xF = x % 16 :=
  Nat.and_pow_two_sub_one_eq_mod x 4

theorem and_0x0F (x : Nat) : x &&& 0x0F = x % 16 :=
  Nat.and_pow_two_sub_one_eq_mod x 4

/-- C7 (encode example, as the code computes it): `float_to_uint(6.28, -12.5,
12.5, 16)` is 49229, the truncation of `(6.28 + 12.5) * 65535 / 25`. -/
theorem C7_encode_example_value :
    float_to_uint (628 / 100) (-(25 / 2)) (25 / 2) 16 = 49229
      ∧ ⌊((628 / 100 : ℚ) - -(25 / 2)) * 65535 / 25⌋ = 49229 := by
  constructor
  · apply float_to_uint_eq_of_bounds <;> norm_num
  · rw [Int.floor_eq_iff]; norm_num

/-- C7 as written fails: the encoding of 6.28 over [-12.5, 12.5] with 16 bits
is not 41536. -/
theorem C7_encode_example_counterexample :
    float_to_uint (628 / 100) (-(25 / 2)) (25 / 2) 16 ≠ 41536 := by
  have h : float_to_uint (628 / 100) (-(25 / 2)) (25 / 2) 16 = 49229 := by
    apply float_to_uint_eq_of_bounds <;> norm_num
  rw [h]; decide

/-! ## Claims about the frame encoders and the feedback decoder -/

/-- C4 (register read frame), evaluated at motor id `0x123`, register `0x0C`:
`read_motor_data` addresses the frame with the two nibbles `[0x03, 0x02]` of
the low byte, while `write_motor_data` and `save_motor_data` emit the low
byte and the high bits `[0x23, 0x01]` of the same id. -/
theorem C4_read_frame_addressing_at_0x123 :
    read_motor_data 0x123 0x0C
        = [{ id := 0x7FF, data := [0x03, 0x02, 0x33, 0x0C], len := 4 }]
      ∧ write_motor_data 0x123 0x0C 0 0 0 0
        = [{ id := 0x7FF, data := [0x23, 0x01, 0x55, 0x0C, 0, 0, 0, 0], len := 8 }]
      ∧ save_motor_data 0x123 0x0C
        = [{ id := 0x7FF, data := [0x23, 0x01, 0xAA, 0x01], len := 4 }]
      ∧ (0x123 &&& 0xFF = 0x23 ∧ 0x123 >>> 8 = 0x01) := by
  decide

/-- C8 (feedback field extraction): for an 8-byte frame `b0..b7`,
`dm_motor_fbdata` stores the id echo `b0 & 0x0F`, the state `b0 >> 4`, the
raw position `(b1<<8)|b2 < 2^16`, raw velocity `(b3<<4)|(b4>>4) < 2^12`, raw
torque `((b4&0xF)<<8)|b5 < 2^12`, their decodings over the motor's limits
with 16/12/12 bits, and the temperatures `b6`, `b7` unscaled. -/
theorem C8_feedback_extraction (motor : motor_t) (b0 b1 b2 b3 b4 b5 b6 b7 : Nat)
    (_h0 : b0 < 256) (h1 : b1 < 256) (h2 : b2 < 256) (h3 : b3 < 256) (h4 : b4 < 256)
    (h5 : b5 < 256) (_h6 : b6 < 256) (_h7 : b7 < 256) :
    (dm_motor_fbdata motor [b0, b1, b2, b3, b4, b5, b6, b7]).para.id = b0 &&& 0x0F
      ∧ (dm_motor_fbdata motor [b0, b1, b2, b3, b4, b5, b6, b7]).para.state = b0 >>> 4
      ∧ (dm_motor_fbdata motor [b0, b1, b2, b3, b4, b5, b6, b7]).para.p_int
          = ((b1 <<< 8) ||| b2)
      ∧ ((b1 <<< 8) ||| b2) < 2 ^ 16
      ∧ (dm_motor_fbdata motor [b0, b1, b2, b3, b4, b5, b6, b7]).para.v_int
          = ((b3 <<< 4) ||| (b4 >>> 4))
      ∧ ((b3 <<< 4) ||| (b4 >>> 4)) < 2 ^ 12
      ∧ (dm_motor_fbdata motor [b0, b1, b2, b3, b4, b5, b6, b7]).para.t_int
          = (((b4 &&& 0xF) <<< 8) ||| b5)
      ∧ (((b4 &&& 0xF) <<< 8) ||| b5) < 2 ^ 12
      ∧ (dm_motor_fbdata motor [b0, b1, b2, b3, b4, b5, b6, b7]).para.pos
          = uint_to_float (((b1 <<< 8) ||| b2 : Nat) : Int)
              (-motor.tmp.PMAX) motor.tmp.PMAX 16
      ∧ (dm_motor_fbdata motor [b0, b1, b2, b3, b4, b5, b6, b7]).para.vel
          = uint_to_float (((b3 <<< 4) ||| (b4 >>> 4) : Nat) : Int)
              (-motor.tmp.VMAX) motor.tmp.VMAX 12
      ∧ (dm_motor_fbdata motor [b0, b1, b2, b3, b4, b5, b6, b7]).para.tor
          = uint_to_float ((((b4 &&& 0xF) <<< 8) ||| b5 : Nat) : Int)
              (-motor.tmp.TMAX) motor.tmp.TMAX 12
      ∧ (dm_motor_fbdata motor [b0, b1, b2, b3, b4, b5, b6, b7]).para.Tmos = (b6 : ℚ)
      ∧ (dm_motor_fbdata motor [b0, b1, b2, b3, b4, b5, b6, b7]).para.Tcoil = (b7 : ℚ) := by
  have hb4 : b4 >>> 4 < 2 ^ 4 := by rw [Nat.shiftRight_eq_div_pow]; omega
  refine ⟨rfl, rfl, rfl, ?_, rfl, ?_, rfl, ?_, rfl, rfl, rfl, rfl, rfl⟩
  · rw [or_shl _ _ 8 (by omega)]; omega
  · rw [or_shl _ _ 4 hb4]
    simp only [Nat.shiftRight_eq_div_pow] at hb4 ⊢
    omega
  · rw [and_0xF, or_shl _ _ 8 (by omega)]; omega

theorem C8_feedback_extraction_witness :
    (dm_motor_fbdata (dm_motor_init dm_sample) [0x11, 0x80, 0x00, 0x7F, 0xF7, 0xFF, 40, 35]).para.id
        = 0x11 &&& 0x0F
      ∧ (dm_motor_fbdata (dm_motor_init dm_sample)
          [0x11, 0x80, 0x00, 0x7F, 0xF7, 0xFF, 40, 35]).para.state = 0x11 >>> 4
      ∧ (dm_motor_fbdata (dm_motor_init dm_sample)
          [0x11, 0x80, 0x00, 0x7F, 0xF7, 0xFF, 40, 35]).para.p_int = ((0x80 <<< 8) ||| 0x00)
      ∧ ((0x80 <<< 8) ||| 0x00) < 2 ^ 16
      ∧ (dm_motor_fbdata (dm_motor_init dm_sample)
          [0x11, 0x80, 0x00, 0x7F, 0xF7, 0xFF, 40, 35]).para.v_int
          = ((0x7F <<< 4) ||| (0xF7 >>> 4))
      ∧ ((0x7F <<< 4) ||| (0xF7 >>> 4)) < 2 ^ 12
      ∧ (dm_motor_fbdata (dm_motor_init dm_sample)
          [0x11, 0x80, 0x00, 0x7F, 0xF7, 0xFF, 40, 35]).para.t_int
          = (((0xF7 &&& 0xF) <<< 8) ||| 0xFF)
      ∧ (((0xF7 &&& 0xF) <<< 8) ||| 0xFF) < 2 ^ 12
      ∧ (dm_motor_fbdata (dm_motor_init dm_sample)
          [0x11, 0x80, 0x00, 0x7F, 0xF7, 0xFF, 40, 35]).para.pos
          = uint_to_float (((0x80 <<< 8) ||| 0x00 : Nat) : Int)
              (-(dm_motor_init dm_sample).tmp.PMAX) (dm_motor_init dm_sample).tmp.PMAX 16
      ∧ (dm_motor_fbdata (dm_motor_init dm_sample)
          [0x11, 0x80, 0x00, 0x7F, 0xF7, 0xFF, 40, 35]).para.vel
          = uint_to_float (((0x7F <<< 4) ||| (0xF7 >>> 4) : Nat) : Int)
              (-(dm_motor_init dm_sample).tmp.VMAX) (dm_motor_init dm_sample).tmp.VMAX 12
      ∧ (dm_motor_fbdata (dm_motor_init dm_sample)
          [0x11, 0x80, 0x00, 0x7F, 0xF7, 0xFF, 40, 35]).para.tor
          = uint_to_float ((((0xF7 &&& 0xF) <<< 8) ||| 0xFF : Nat) : Int)
              (-(dm_motor_init dm_sample).tmp.TMAX) (dm_motor_init dm_sample).tmp.TMAX 12
      ∧ (dm_motor_fbdata (dm_motor_init dm_sample)
          [0x11, 0x80, 0x00, 0x7F, 0xF7, 0xFF, 40, 35]).para.Tmos = ((40 : Nat) : ℚ)
      ∧ (dm_motor_fbdata (dm_motor_init dm_sample)
          [0x11, 0x80, 0x00, 0x7F, 0xF7, 0xFF, 40, 35]).para.Tcoil = ((35 : Nat) : ℚ) :=
  C8_feedback_extraction (dm_motor_init dm_sample) 0x11 0x80 0x00 0x7F 0xF7 0xFF 40 35
    (by decide) (by decide) (by decide) (by decide) (by decide) (by decide) (by decide)
    (by decide)

/-- C9 (disable clears targets): after `dm_motor_disable`, in every control
mode, the six targets are zero and the id, master id, control mode, the
`tmp` member (limits, register cache, read cursor) and the feedback are
unchanged. -/
theorem C9_disable_clears_targets (d : dm_defs) (motor : motor_t) :
    (dm_motor_disable d motor).2.ctrl.pos_set = 0
      ∧ (dm_motor_disable d motor).2.ctrl.vel_set = 0
      ∧ (dm_motor_disable d motor).2.ctrl.kp_set = 0
      ∧ (dm_motor_disable d motor).2.ctrl.kd_set = 0
      ∧ (dm_motor_disable d motor).2.ctrl.tor_set = 0
      ∧ (dm_motor_disable d motor).2.ctrl.cur_set = 0
      ∧ (dm_motor_disable d motor).2.id = motor.id
      ∧ (dm_motor_disable d motor).2.mst_id = motor.mst_id
      ∧ (dm_motor_disable d motor).2.ctrl.mode = motor.ctrl.mode
      ∧ (dm_motor_disable d motor).2.tmp = motor.tmp
      ∧ (dm_motor_disable d motor).2.para = motor.para :=
  ⟨rfl, rfl, rfl, rfl, rfl, rfl, rfl, rfl, rfl, rfl, rfl⟩

/-- C10 (speed-mode isolation): two records in Speed mode that agree on id
and `vel_set` make `dm_motor_ctrl_send` emit the same single frame, whatever
their other targets and limits: arbitration id `id + SPD_MODE` (a `uint16_t`
sum), length 4, payload the four little-endian bytes of the 32-bit
representation of `vel_set`. -/
theorem C10_speed_mode_isolation (F : f32_repr) (d : dm_defs) (m1 m2 : motor_t)
    (hd : modes_ok d)
    (h1 : m1.ctrl.mode = d.spd_mode) (h2 : m2.ctrl.mode = d.spd_mode)
    (hid : m1.id = m2.id) (hv : m1.ctrl.vel_set = m2.ctrl.vel_set) :
    dm_motor_ctrl_send F d m1 = dm_motor_ctrl_send F d m2
      ∧ dm_motor_ctrl_send F d m1
          = [{ id := (m1.id + d.SPD_MODE) % 65536,
               data := [F.bits m1.ctrl.vel_set % 256,
                        F.bits m1.ctrl.vel_set / 256 % 256,
                        F.bits m1.ctrl.vel_set / 65536 % 256,
                        F.bits m1.ctrl.vel_set / 16777216 % 256],
               len := 4 }] := by
  have hne : d.spd_mode ≠ d.mit_mode ∧ d.spd_mode ≠ d.pos_mode := by
    unfold modes_ok at hd
    simp only [List.nodup_cons, List.mem_cons, List.mem_singleton, not_or] at hd
    exact ⟨fun h => hd.1.2.1 h.symm, fun h => hd.2.1.1 h.symm⟩
  have key : ∀ m : motor_t, m.ctrl.mode = d.spd_mode →
      dm_motor_ctrl_send F d m
        = [{ id := (m.id + d.SPD_MODE) % 65536,
             data := [F.bits m.ctrl.vel_set % 256,
                      F.bits m.ctrl.vel_set / 256 % 256,
                      F.bits m.ctrl.vel_set / 65536 % 256,
                      F.bits m.ctrl.vel_set / 16777216 % 256],
             len := 4 }] := by
    intro m hm
    simp only [dm_motor_ctrl_send, hm, if_neg hne.1, if_neg hne.2, if_true, spd_ctrl,
      fdcanx_send_data, f32_bytes, Nat.shiftRight_eq_div_pow]
  rw [key m1 h1, key m2 h2, hid, hv]
  exact ⟨rfl, rfl⟩

theorem C10_speed_mode_isolation_witness :
    dm_motor_ctrl_send f32_table dm_sample (dm_motor_init dm_sample)
        = dm_motor_ctrl_send f32_table dm_sample (motor_other dm_sample)
      ∧ dm_motor_ctrl_send f32_table dm_sample (dm_motor_init dm_sample)
          = [{ id := ((dm_motor_init dm_sample).id + dm_sample.SPD_MODE) % 65536,
               data := [f32_table.bits (dm_motor_init dm_sample).ctrl.vel_set % 256,
                        f32_table.bits (dm_motor_init dm_sample).ctrl.vel_set / 256 % 256,
                        f32_table.bits (dm_motor_init dm_sample).ctrl.vel_set / 65536 % 256,
                        f32_table.bits (dm_motor_init dm_sample).ctrl.vel_set / 16777216
                          % 256],
               len := 4 }] :=
  C10_speed_mode_isolation f32_table dm_sample (dm_motor_init dm_sample)
    (motor_other dm_sample) (by simp [modes_ok, dm_sample]) rfl rfl rfl rfl

/-! ## The register sequencer -/

theorem receive_switch_eq_chain (F : f32_repr) (d : dm_defs) (m : motor_t) (rid u : Nat) :
    receive_switch F d m rid u = switch_chain (receive_cases F d u) rid m := rfl

theorem receive_cases_labels (F : f32_repr) (d : dm_defs) (u : Nat) :
    (receive_cases F d u).map Prod.fst = rid_list d := rfl

theorem switch_chain_miss (cases : List (Nat × (motor_t → motor_t))) (rid : Nat)
    (m : motor_t) (h : rid ∉ cases.map Prod.fst) : switch_chain cases rid m = m := by
  induction cases with
  | nil => rfl
  | cons c rest ih =>
    obtain ⟨label, body⟩ := c
    simp only [List.map_cons, List.mem_cons, not_or] at h
    simp only [switch_chain, if_neg h.1]
    exact ih h.2

theorem switch_chain_hit (cases : List (Nat × (motor_t → motor_t))) (m : motor_t)
    (hn : (cases.map Prod.fst).Nodup) (i : Nat) (hi : i < cases.length) :
    switch_chain cases ((cases.map Prod.fst).getD i 0) m = (cases.getD i (0, id)).2 m := by
  induction cases generalizing i with
  | nil => simp at hi
  | cons c rest ih =>
    obtain ⟨label, body⟩ := c
    simp only [List.map_cons, List.nodup_cons] at hn
    cases i with
    | zero => simp [switch_chain]
    | succ j =>
      have hj : j < rest.length := by simpa using hi
      have hmem : (rest.map Prod.fst).getD j 0 ∈ rest.map Prod.fst := by
        rw [List.getD_eq_getElem _ _ (by simpa using hj)]
        exact List.getElem_mem _
      have hne : (rest.map Prod.fst).getD j 0 ≠ label := fun h => hn.1 (h ▸ hmem)
      simp only [List.map_cons, List.getD_cons_succ, switch_chain, if_neg hne]
      exact ih hn.2 j hj

theorem rid_list_length (d : dm_defs) : (rid_list d).length = 45 := rfl

theorem receive_cases_length (F : f32_repr) (d : dm_defs) (u : Nat) :
    (receive_cases F d u).length = 45 := rfl

/-- Every case of the `switch` sets the cursor to the successor of its own
position (0 after the last). -/
theorem receive_cases_flag (F : f32_repr) (d : dm_defs) (u : Nat) (m : motor_t)
    (i : Nat) (hi : i < 45) :
    (((receive_cases F d u).getD i (0, id)).2 m).tmp.read_flag = next_flag i := by
  interval_cases i <;> rfl

/-- In state `n` of 1..45 `read_all_motor_data` issues the read of the
register at position `n - 1` of the table. -/
theorem read_all_at (d : dm_defs) (m : motor_t) (n : Nat) (h1 : 1 ≤ n) (h45 : n ≤ 45)
    (hn : m.tmp.read_flag = n) :
    read_all_motor_data d m = read_motor_data m.id ((rid_list d).getD (n - 1) 0) := by
  interval_cases n <;> simp [read_all_motor_data, hn, rid_list]

theorem read_all_idle (d : dm_defs) (m : motor_t)
    (hn : m.tmp.read_flag = 0 ∨ 45 < m.tmp.read_flag) :
    read_all_motor_data d m = [] := by
  unfold read_all_motor_data
  repeat' rw [if_neg (by omega)]

theorem rid_getD_mem (d : dm_defs) (i : Nat) (hi : i < 45) :
    (rid_list d).getD i 0 ∈ rid_list d := by
  rw [List.getD_eq_getElem _ _ (by rw [rid_list_length]; exact hi)]
  exact List.getElem_mem _

/-- The register-id byte of the read issued in state `n`. -/
theorem requested_byte (d : dm_defs) (hok : rid_ok d) (m : motor_t) (n : Nat)
    (h1 : 1 ≤ n) (h45 : n ≤ 45) (hn : m.tmp.read_flag = n) :
    (read_all_motor_data d m).map (fun f => f.data.getD 3 0)
      = [(rid_list d).getD (n - 1) 0] := by
  rw [read_all_at d m n h1 h45 hn]
  have hlt := hok.2 _ (rid_getD_mem d (n - 1) (by omega))
  simp only [read_motor_data, fdcanx_send_data, List.map_cons, List.map_nil,
    List.getD_cons_succ, List.getD_cons_zero, Nat.mod_eq_of_lt hlt]

/-- A read-response carrying the register id at position `i` of the table
runs the case at position `i`. -/
theorem receive_hit (F : f32_repr) (d : dm_defs) (hok : rid_ok d) (m : motor_t)
    (data : List Nat) (i : Nat) (hi : i < 45) (hflag : m.tmp.read_flag ≠ 0)
    (htag : data.getD 2 0 = 0x33) (hrid : data.getD 3 0 = (rid_list d).getD i 0) :
    receive_motor_data F d m data
      = ((receive_cases F d (y_u_val data)).getD i (0, id)).2 m := by
  unfold receive_motor_data
  rw [if_neg hflag, if_pos htag, receive_switch_eq_chain, hrid,
    ← receive_cases_labels F d (y_u_val data)]
  exact switch_chain_hit _ m (by rw [receive_cases_labels]; exact hok.1) i
    (by rw [receive_cases_length]; exact hi)

/-- A frame that is no read-response, or carries a register id outside the
table, leaves the record as it is. -/
theorem receive_miss (F : f32_repr) (d : dm_defs) (m : motor_t) (data : List Nat)
    (h : data.getD 2 0 ≠ 0x33 ∨ data.getD 3 0 ∉ rid_list d) :
    receive_motor_data F d m data = m := by
  unfold receive_motor_data
  split_ifs with h0 h1
  · rfl
  · rcases h with h | h
    · exact absurd h1 h
    · rw [receive_switch_eq_chain]
      exact switch_chain_miss _ _ m (by rw [receive_cases_labels]; exact h)
  · rfl

/-- One step of the scan: the answer to the read of state `n` moves the
cursor to `n + 1`, and to 0 from state 45. -/
theorem scan_step (F : f32_repr) (d : dm_defs) (hok : rid_ok d) (m : motor_t)
    (data : List Nat) (h1 : 1 ≤ m.tmp.read_flag) (h45 : m.tmp.read_flag ≤ 45)
    (ha : answers_request d m data) :
    (receive_motor_data F d m data).tmp.read_flag = next_flag (m.tmp.read_flag - 1) := by
  obtain ⟨htag, f, hf, hrid⟩ := ha
  have hreq := requested_byte d hok m _ h1 h45 rfl
  rw [hf] at hreq
  simp only [List.map_cons, List.map_nil, List.cons.injEq, and_true] at hreq
  rw [receive_hit F d hok m data (m.tmp.read_flag - 1) (by omega) (by omega) htag
    (hrid.trans hreq)]
  exact receive_cases_flag F d _ m _ (by omega)

/-- The scan from any state `n` of 1..46 to the end, `46 - n` answers long. -/
theorem scan_from (F : f32_repr) (d : dm_defs) (hok : rid_ok d) (frames : List (List Nat)) :
    ∀ m : motor_t, 1 ≤ m.tmp.read_flag → m.tmp.read_flag + frames.length = 46 →
      all_answer F d m frames →
      cursor_trace F d m frames = List.range' m.tmp.read_flag frames.length
        ∧ (frames ≠ [] → (feed F d m frames).tmp.read_flag = 0)
        ∧ requested_ids F d m frames = (rid_list d).drop (m.tmp.read_flag - 1) := by
  induction frames with
  | nil =>
    intro m _ hlen _
    simp only [List.length_nil, Nat.add_zero] at hlen
    refine ⟨rfl, fun h => absurd rfl h, ?_⟩
    rw [hlen]
    rfl
  | cons data rest ih =>
    intro m h1 hlen hall
    simp only [List.length_cons] at hlen
    obtain ⟨ha, hrest⟩ := hall
    have h45 : m.tmp.read_flag ≤ 45 := by omega
    have hstep := scan_step F d hok m data h1 h45 ha
    have hreq := requested_byte d hok m _ h1 h45 rfl
    have hdrop : (rid_list d).drop (m.tmp.read_flag - 1)
        = (rid_list d).getD (m.tmp.read_flag - 1) 0 :: (rid_list d).drop m.tmp.read_flag := by
      have hlt : m.tmp.read_flag - 1 < (rid_list d).length := by
        rw [rid_list_length]; omega
      rw [List.getD_eq_getElem _ _ hlt, List.drop_eq_getElem_cons hlt]
      congr 2
      omega
    by_cases hlast : m.tmp.read_flag = 45
    · have hrl : rest = [] := List.eq_nil_of_length_eq_zero (by omega)
      subst hrl
      have h0 : (receive_motor_data F d m data).tmp.read_flag = 0 := by
        rw [hstep, hlast]; rfl
      refine ⟨?_, fun _ => h0, ?_⟩
      · simp [cursor_trace, List.range']
      · simp only [requested_ids, List.append_nil]
        rw [hreq, hdrop, hlast]
        rfl
    · have hnext : (receive_motor_data F d m data).tmp.read_flag = m.tmp.read_flag + 1 := by
        rw [hstep]
        unfold next_flag
        rw [if_neg (by omega)]
        omega
      obtain ⟨ic, ifl, irq⟩ := ih (receive_motor_data F d m data) (by omega)
        (by omega) hrest
      have hne : rest ≠ [] := by
        intro h
        rw [h] at hlen
        simp only [List.length_nil] at hlen
        omega
      refine ⟨?_, fun _ => ifl hne, ?_⟩
      · simp only [cursor_trace, List.length_cons, List.range'_succ]
        rw [ic, hnext]
      · simp only [requested_ids]
        rw [hreq, irq, hnext, hdrop]
        simp

/-- The table-ordered responses answer the scan from any state on. -/
theorem all_answer_of_table (F : f32_repr) (d : dm_defs) (hok : rid_ok d) (k : Nat) :
    ∀ m : motor_t, 1 ≤ m.tmp.read_flag → m.tmp.read_flag + k = 46 →
      all_answer F d m (((rid_list d).drop (m.tmp.read_flag - 1)).map response_for) := by
  induction k with
  | zero =>
    intro m _ hk
    have h46 : m.tmp.read_flag = 46 := by omega
    rw [h46]
    trivial
  | succ j ih =>
    intro m h1 hk
    have h45 : m.tmp.read_flag ≤ 45 := by omega
    have hlt : m.tmp.read_flag - 1 < (rid_list d).length := by
      rw [rid_list_length]; omega
    have hdrop : (rid_list d).drop (m.tmp.read_flag - 1)
        = (rid_list d).getD (m.tmp.read_flag - 1) 0 :: (rid_list d).drop m.tmp.read_flag := by
      rw [List.getD_eq_getElem _ _ hlt, List.drop_eq_getElem_cons hlt]
      congr 2
      omega
    have hreq := requested_byte d hok m _ h1 h45 rfl
    have hans : answers_request d m
        (response_for ((rid_list d).getD (m.tmp.read_flag - 1) 0)) := by
      refine ⟨rfl, ?_⟩
      rw [read_all_at d m _ h1 h45 rfl] at hreq ⊢
      exact ⟨_, rfl, by
        simp only [read_motor_data, fdcanx_send_data, List.map_cons, List.map_nil,
          List.cons.injEq, and_true] at hreq
        exact hreq.symm⟩
    rw [hdrop, List.map_cons]
    refine ⟨hans, ?_⟩
    have hstep := scan_step F d hok m _ h1 h45 hans
    by_cases hlast : m.tmp.read_flag = 45
    · have : (rid_list d).drop m.tmp.read_flag = [] := by
        rw [hlast]; rfl
      rw [this]
      trivial
    · have hnext : (receive_motor_data F d m
          (response_for ((rid_list d).getD (m.tmp.read_flag - 1) 0))).tmp.read_flag
            = m.tmp.read_flag + 1 := by
        rw [hstep]
        unfold next_flag
        rw [if_neg (by omega)]
        omega
      have := ih _ (by omega : 1 ≤ (receive_motor_data F d m
          (response_for ((rid_list d).getD (m.tmp.read_flag - 1) 0))).tmp.read_flag)
        (by omega)
      rw [hnext] at this
      simpa using this

theorem rid_ok_sample : rid_ok dm_sample := by
  constructor <;> decide

/-! ## Claims about the register sequencer -/

/-- C2 (a mismatched read-response, as the code treats it): for a motor
whose read cursor is `n` in 1..45 and a read-response whose byte 3 differs
from the register id requested in state `n`, the frame is handled by its own
register id alone.  If byte 3 is none of the 45 known ids the record (cursor
and register cache) is unchanged; if it is the id at position `i` of the
table (`i ≠ n - 1`), the case of that register runs: its cache field is
overwritten and the cursor becomes `i + 2` (0 for the last register). -/
theorem C2_mismatched_response (F : f32_repr) (d : dm_defs) (hok : rid_ok d)
    (m : motor_t) (data : List Nat) (n : Nat) (h1 : 1 ≤ n) (h45 : n ≤ 45)
    (hn : m.tmp.read_flag = n) (htag : data.getD 2 0 = 0x33)
    (hmis : ∀ f ∈ read_all_motor_data d m, data.getD 3 0 ≠ f.data.getD 3 0) :
    (rid_list d).indexOf (data.getD 3 0) ≠ n - 1
      ∧ receive_motor_data F d m data
          = (if data.getD 3 0 ∈ rid_list d then
              ((receive_cases F d (y_u_val data)).getD
                ((rid_list d).indexOf (data.getD 3 0)) (0, id)).2 m
             else m)
      ∧ (receive_motor_data F d m data).tmp.read_flag
          = (if data.getD 3 0 ∈ rid_list d then
              next_flag ((rid_list d).indexOf (data.getD 3 0))
             else n) := by
  have hidx : ∀ hmem : data.getD 3 0 ∈ rid_list d,
      (rid_list d).indexOf (data.getD 3 0) < 45
        ∧ data.getD 3 0 = (rid_list d).getD ((rid_list d).indexOf (data.getD 3 0)) 0 := by
    intro hmem
    have hlt := List.indexOf_lt_length.mpr hmem
    refine ⟨by rw [rid_list_length] at hlt; exact hlt, ?_⟩
    rw [List.getD_eq_getElem _ _ hlt, List.getElem_indexOf hlt]
  refine ⟨?_, ?_, ?_⟩
  · intro hi
    have hreq := requested_byte d hok m n h1 h45 hn
    have hlt : (rid_list d).indexOf (data.getD 3 0) < (rid_list d).length := by
      rw [rid_list_length, hi]; omega
    have hmem := List.indexOf_lt_length.mp hlt
    have hb := (hidx hmem).2
    rw [hi] at hb
    rw [read_all_at d m n h1 h45 hn] at hreq hmis
    simp only [read_motor_data, fdcanx_send_data, List.map_cons, List.map_nil,
      List.cons.injEq, and_true] at hreq
    exact hmis _ (List.mem_singleton.mpr rfl) (hb.trans hreq.symm)
  · split_ifs with hmem
    · exact receive_hit F d hok m data _ (hidx hmem).1 (by omega) htag (hidx hmem).2
    · exact receive_miss F d m data (Or.inr hmem)
  · split_ifs with hmem
    · rw [receive_hit F d hok m data _ (hidx hmem).1 (by omega) htag (hidx hmem).2]
      exact receive_cases_flag F d _ m _ (hidx hmem).1
    · rw [receive_miss F d m data (Or.inr hmem)]
      exact hn

theorem C2_mismatched_response_witness :
    (rid_list dm_sample).indexOf ((response_for 0).getD 3 0) ≠ 5 - 1
      ∧ receive_motor_data f32_table dm_sample (motor_at dm_sample 5) (response_for 0)
          = (if (response_for 0).getD 3 0 ∈ rid_list dm_sample then
              ((receive_cases f32_table dm_sample (y_u_val (response_for 0))).getD
                ((rid_list dm_sample).indexOf ((response_for 0).getD 3 0)) (0, id)).2
                (motor_at dm_sample 5)
             else motor_at dm_sample 5)
      ∧ (receive_motor_data f32_table dm_sample (motor_at dm_sample 5)
            (response_for 0)).tmp.read_flag
          = (if (response_for 0).getD 3 0 ∈ rid_list dm_sample then
              next_flag ((rid_list dm_sample).indexOf ((response_for 0).getD 3 0))
             else 5) :=
  C2_mismatched_response f32_table dm_sample rid_ok_sample (motor_at dm_sample 5)
    (response_for 0) 5 (by decide) (by decide) rfl rfl (by decide)

/-- C2 as written fails: with the cursor at 5 (the read of register id 4,
`RID_ACC`, is outstanding) a read-response carrying register id 0
(`RID_UV_VALUE`) and the value pattern `0x3F800000` moves the cursor to 2 and
overwrites the cached `UV_Value`; and no table of pairwise distinct one-byte
register ids makes a mismatched read-response leave the `tmp` member
untouched. -/
theorem C2_stall_counterexample :
    (motor_at dm_sample 5).tmp.read_flag = 5
      ∧ (read_all_motor_data dm_sample (motor_at dm_sample 5)).map
          (fun f => f.data.getD 3 0) = [4]
      ∧ (receive_motor_data f32_table dm_sample (motor_at dm_sample 5)
          [0x01, 0x00, 0x33, 0x00, 0x00, 0x00, 0x80, 0x3F]).tmp.read_flag = 2
      ∧ (motor_at dm_sample 5).tmp.UV_Value = 0
      ∧ (receive_motor_data f32_table dm_sample (motor_at dm_sample 5)
          [0x01, 0x00, 0x33, 0x00, 0x00, 0x00, 0x80, 0x3F]).tmp.UV_Value = 1
      ∧ ¬ ∃ (F : f32_repr) (d : dm_defs), rid_ok d ∧
          ∀ (m : motor_t) (data : List Nat) (n : Nat), 1 ≤ n → n ≤ 45 →
            m.tmp.read_flag = n → data.getD 2 0 = 0x33 →
            (∀ f ∈ read_all_motor_data d m, data.getD 3 0 ≠ f.data.getD 3 0) →
            (receive_motor_data F d m data).tmp = m.tmp := by
  refine ⟨rfl, by decide, by decide, rfl, ?_, ?_⟩
  · simp [receive_motor_data, receive_switch, motor_at, dm_motor_init, dm_sample, y_u_val,
      f32_table]
  · rintro ⟨F, d, hok, h⟩
    have hne : (rid_list d).getD 0 0 ≠ (rid_list d).getD 4 0 := by
      have h0 : 0 < (rid_list d).length := by rw [rid_list_length]; decide
      have h4 : 4 < (rid_list d).length := by rw [rid_list_length]; decide
      rw [List.getD_eq_getElem _ _ h0, List.getD_eq_getElem _ _ h4]
      intro he
      exact absurd ((hok.1.getElem_inj_iff).mp he) (by decide)
    have hlt := hok.2 _ (rid_getD_mem d 4 (by decide))
    have hfix := h (motor_at d 5) (response_for ((rid_list d).getD 0 0)) 5 (by decide)
      (by decide) rfl rfl (by
        intro f hf
        rw [read_all_at d (motor_at d 5) 5 (by decide) (by decide) rfl] at hf
        simp only [read_motor_data, fdcanx_send_data, List.mem_singleton] at hf
        rw [hf]
        simp only [response_for, List.getD_cons_succ, List.getD_cons_zero]
        rw [Nat.mod_eq_of_lt hlt]
        exact hne)
    have hflag : (receive_motor_data F d (motor_at d 5)
        (response_for ((rid_list d).getD 0 0))).tmp.read_flag = 5 :=
      congrArg esc_inf_t.read_flag hfix
    have h5 : (motor_at d 5).tmp.read_flag ≠ 0 := by
      show (5 : Nat) ≠ 0
      decide
    rw [receive_hit F d hok (motor_at d 5) (response_for ((rid_list d).getD 0 0)) 0
        (by decide) h5 rfl rfl,
      receive_cases_flag F d _ _ 0 (by decide)] at hflag
    revert hflag
    decide

/-- C3 (full scan): from cursor 1, fed 45 read-responses each carrying the
register id that `read_all_motor_data` requests for the cursor at that time,
the cursor takes the values 1, 2, ..., 45 in order and is 0 after the 45th
response; the ids requested on the way are exactly the 45 register ids of
the table, in order and without repetition. -/
theorem C3_full_scan (F : f32_repr) (d : dm_defs) (hok : rid_ok d) (m : motor_t)
    (frames : List (List Nat)) (h1 : m.tmp.read_flag = 1) (hlen : frames.length = 45)
    (hall : all_answer F d m frames) :
    cursor_trace F d m frames = List.range' 1 45
      ∧ (feed F d m frames).tmp.read_flag = 0
      ∧ requested_ids F d m frames = rid_list d
      ∧ (requested_ids F d m frames).Nodup := by
  obtain ⟨hc, hf, hr⟩ := scan_from F d hok frames m (by omega) (by omega) hall
  have hne : frames ≠ [] := by
    intro h
    rw [h] at hlen
    simp at hlen
  rw [h1] at hc hr
  rw [hlen] at hc
  have hr2 : requested_ids F d m frames = rid_list d := by
    rw [hr]; rfl
  exact ⟨hc, hf hne, hr2, hr2 ▸ hok.1⟩

theorem C3_full_scan_witness :
    cursor_trace f32_table dm_sample (dm_motor_init dm_sample) (scan_frames dm_sample)
        = List.range' 1 45
      ∧ (feed f32_table dm_sample (dm_motor_init dm_sample)
          (scan_frames dm_sample)).tmp.read_flag = 0
      ∧ requested_ids f32_table dm_sample (dm_motor_init dm_sample) (scan_frames dm_sample)
          = rid_list dm_sample
      ∧ (requested_ids f32_table dm_sample (dm_motor_init dm_sample)
          (scan_frames dm_sample)).Nodup :=
  C3_full_scan f32_table dm_sample rid_ok_sample (dm_motor_init dm_sample)
    (scan_frames dm_sample) rfl rfl
    (all_answer_of_table f32_table dm_sample rid_ok_sample 45 (dm_motor_init dm_sample)
      (by decide) rfl)

/-! ## Claims about the command and register frames -/

/-- C11 (mode-command sentinels): `enable_motor_mode`, `disable_motor_mode`,
`save_pos_zero` and `clear_err` each send exactly one 8-byte frame to
`(motor_id + mode_id) mod 2^16` with seven bytes `0xFF` followed by `0xFC`,
`0xFD`, `0xFE` and `0xFB` respectively. -/
theorem C11_mode_command_sentinels (motor_id mode_id : Nat) :
    enable_motor_mode motor_id mode_id
        = [{ id := (motor_id + mode_id) % 2 ^ 16,
             data := [0xFF, 0xFF, 0xFF, 0xFF, 0xFF, 0xFF, 0xFF, 0xFC], len := 8 }]
      ∧ disable_motor_mode motor_id mode_id
        = [{ id := (motor_id + mode_id) % 2 ^ 16,
             data := [0xFF, 0xFF, 0xFF, 0xFF, 0xFF, 0xFF, 0xFF, 0xFD], len := 8 }]
      ∧ save_pos_zero motor_id mode_id
        = [{ id := (motor_id + mode_id) % 2 ^ 16,
             data := [0xFF, 0xFF, 0xFF, 0xFF, 0xFF, 0xFF, 0xFF, 0xFE], len := 8 }]
      ∧ clear_err motor_id mode_id
        = [{ id := (motor_id + mode_id) % 2 ^ 16,
             data := [0xFF, 0xFF, 0xFF, 0xFF, 0xFF, 0xFF, 0xFF, 0xFB], len := 8 }] :=
  ⟨rfl, rfl, rfl, rfl⟩

/-- C12 (register write frame): for a motor CAN id `≤ 0x7FF`, a register id
and four data bytes, `write_motor_data` sends exactly one frame of length 8
to arbitration id `0x7FF` with payload
`[id & 0xFF, id >> 8, 0x55, rid, d0, d1, d2, d3]`. -/
theorem C12_write_frame (id rid d0 d1 d2 d3 : Nat) (hid : id ≤ 0x7FF)
    (hrid : rid < 256) (h0 : d0 < 256) (h1 : d1 < 256) (h2 : d2 < 256) (h3 : d3 < 256) :
    write_motor_data id rid d0 d1 d2 d3
      = [{ id := 0x7FF,
           data := [id &&& 0xFF, id >>> 8, 0x55, rid, d0, d1, d2, d3],
           len := 8 }] := by
  have hl : (id &&& 0xFF) % 256 = id &&& 0xFF := by
    rw [show (0xFF : Nat) = 2 ^ 8 - 1 from rfl, Nat.and_pow_two_sub_one_eq_mod]
    omega
  have hh : ((id >>> 8) &&& 0x07) % 256 = id >>> 8 := by
    rw [show (0x07 : Nat) = 2 ^ 3 - 1 from rfl, Nat.and_pow_two_sub_one_eq_mod,
      Nat.shiftRight_eq_div_pow]
    omega
  simp only [write_motor_data, fdcanx_send_data, hl, hh, Nat.mod_eq_of_lt hrid,
    Nat.mod_eq_of_lt h0, Nat.mod_eq_of_lt h1, Nat.mod_eq_of_lt h2, Nat.mod_eq_of_lt h3]

theorem C12_write_frame_witness :
    write_motor_data 0x123 10 3 0 0 0
      = [{ id := 0x7FF,
           data := [0x123 &&& 0xFF, 0x123 >>> 8, 0x55, 10, 3, 0, 0, 0],
           len := 8 }] :=
  C12_write_frame 0x123 10 3 0 0 0 (by decide) (by decide) (by decide) (by decide)
    (by decide) (by decide)

theorem f32_bytes_div (F : f32_repr) (x : ℚ) :
    f32_bytes F x
      = [F.bits x % 256, F.bits x / 256 % 256, F.bits x / 65536 % 256,
         F.bits x / 16777216 % 256] := by
  simp only [f32_bytes, Nat.shiftRight_eq_div_pow]

/-- C16 (unrecognised register frames are ignored): a frame whose byte 2 is
not `0x33`, or whose byte 2 is `0x33` but whose byte 3 is none of the 45
known register ids, leaves the whole motor record unchanged. -/
theorem C16_unrecognised_ignored (F : f32_repr) (d : dm_defs) (m : motor_t)
    (data : List Nat)
    (h : data.getD 2 0 ≠ 0x33 ∨ (data.getD 2 0 = 0x33 ∧ data.getD 3 0 ∉ rid_list d)) :
    receive_motor_data F d m data = m := by
  rcases h with h | h
  · exact receive_miss F d m data (Or.inl h)
  · exact receive_miss F d m data (Or.inr h.2)

theorem C16_unrecognised_ignored_witness :
    receive_motor_data f32_table dm_sample (dm_motor_init dm_sample)
        [0x01, 0x00, 0x33, 200, 1, 2, 3, 4]
      = dm_motor_init dm_sample :=
  C16_unrecognised_ignored f32_table dm_sample (dm_motor_init dm_sample)
    [0x01, 0x00, 0x33, 200, 1, 2, 3, 4] (Or.inr ⟨rfl, by decide⟩)

/-- C18 (position-mode frame): with `P` and `V` the 32-bit patterns of pos
and vel, `pos_ctrl` sends one 8-byte frame to `motor_id + POS_MODE` (a
`uint16_t` sum) whose bytes 0..3 are the little-endian bytes of `P` and bytes
4..7 those of `V`; reassembled little-endian they give back `P` and `V`. -/
theorem C18_pos_frame (F : f32_repr) (d : dm_defs) (motor_id : Nat) (pos vel : ℚ)
    (hP : F.bits pos < 2 ^ 32) (hV : F.bits vel < 2 ^ 32) :
    ∃ b0 b1 b2 b3 b4 b5 b6 b7 : Nat,
      pos_ctrl F d motor_id pos vel
          = [{ id := (motor_id + d.POS_MODE) % 65536,
               data := [b0, b1, b2, b3, b4, b5, b6, b7], len := 8 }]
        ∧ [b0, b1, b2, b3]
            = [F.bits pos % 256, F.bits pos / 256 % 256, F.bits pos / 65536 % 256,
               F.bits pos / 16777216 % 256]
        ∧ [b4, b5, b6, b7]
            = [F.bits vel % 256, F.bits vel / 256 % 256, F.bits vel / 65536 % 256,
               F.bits vel / 16777216 % 256]
        ∧ b0 + 256 * b1 + 65536 * b2 + 16777216 * b3 = F.bits pos
        ∧ b4 + 256 * b5 + 65536 * b6 + 16777216 * b7 = F.bits vel := by
  refine ⟨_, _, _, _, _, _, _, _, ?_, rfl, rfl, ?_, ?_⟩
  · simp only [pos_ctrl, fdcanx_send_data, f32_bytes_div]
    rfl
  · norm_num at hP; omega
  · norm_num at hV; omega

theorem C18_pos_frame_witness :
    ∃ b0 b1 b2 b3 b4 b5 b6 b7 : Nat,
      pos_ctrl f32_table dm_sample 1 (25 / 2) 10
          = [{ id := (1 + dm_sample.POS_MODE) % 65536,
               data := [b0, b1, b2, b3, b4, b5, b6, b7], len := 8 }]
        ∧ [b0, b1, b2, b3]
            = [f32_table.bits (25 / 2) % 256, f32_table.bits (25 / 2) / 256 % 256,
               f32_table.bits (25 / 2) / 65536 % 256,
               f32_table.bits (25 / 2) / 16777216 % 256]
        ∧ [b4, b5, b6, b7]
            = [f32_table.bits 10 % 256, f32_table.bits 10 / 256 % 256,
               f32_table.bits 10 / 65536 % 256, f32_table.bits 10 / 16777216 % 256]
        ∧ b0 + 256 * b1 + 65536 * b2 + 16777216 * b3 = f32_table.bits (25 / 2)
        ∧ b4 + 256 * b5 + 65536 * b6 + 16777216 * b7 = f32_table.bits 10 :=
  C18_pos_frame f32_table dm_sample 1 (25 / 2) 10
    (by norm_num [f32_table]) (by norm_num [f32_table])

/-! ## Lemmas on the cases of the response switch -/

/-- A `switch` either runs no case, on every record, or the same case on
every record. -/
theorem switch_chain_cases (cases : List (Nat × (motor_t → motor_t))) (rid : Nat) :
    (∀ m, switch_chain cases rid m = m)
      ∨ ∃ i, i < cases.length ∧ ∀ m, switch_chain cases rid m = (cases.getD i (0, id)).2 m := by
  induction cases with
  | nil => exact Or.inl (fun _ => rfl)
  | cons c rest ih =>
    obtain ⟨label, body⟩ := c
    by_cases h : rid = label
    · refine Or.inr ⟨0, by simp, fun m => ?_⟩
      simp [switch_chain, h]
    · rcases ih with ih | ⟨i, hi, ih⟩
      · refine Or.inl (fun m => ?_)
        simp only [switch_chain, if_neg h]
        exact ih m
      · refine Or.inr ⟨i + 1, by simpa using hi, fun m => ?_⟩
        simp only [switch_chain, if_neg h, List.getD_cons_succ]
        exact ih m

/-- No case touches anything but the member `tmp`. -/
theorem receive_cases_frame (F : f32_repr) (d : dm_defs) (u : Nat) (m : motor_t)
    (i : Nat) (hi : i < 45) :
    (((receive_cases F d u).getD i (0, id)).2 m).id = m.id
      ∧ (((receive_cases F d u).getD i (0, id)).2 m).mst_id = m.mst_id
      ∧ (((receive_cases F d u).getD i (0, id)).2 m).ctrl = m.ctrl
      ∧ (((receive_cases F d u).getD i (0, id)).2 m).para = m.para := by
  interval_cases i <;> exact ⟨rfl, rfl, rfl, rfl⟩

/-- What a case makes of `tmp` depends on `tmp` only. -/
theorem receive_cases_tmp (F : f32_repr) (d : dm_defs) (u : Nat) (a b : motor_t)
    (h : a.tmp = b.tmp) (i : Nat) (hi : i < 45) :
    (((receive_cases F d u).getD i (0, id)).2 a).tmp
      = (((receive_cases F d u).getD i (0, id)).2 b).tmp := by
  interval_cases i <;>
    simp only [receive_cases, List.getD_cons_succ, List.getD_cons_zero, h]

/-- The register decoder touches nothing but the member `tmp`. -/
theorem receive_frame (F : f32_repr) (d : dm_defs) (m : motor_t) (data : List Nat) :
    (receive_motor_data F d m data).id = m.id
      ∧ (receive_motor_data F d m data).mst_id = m.mst_id
      ∧ (receive_motor_data F d m data).ctrl = m.ctrl
      ∧ (receive_motor_data F d m data).para = m.para := by
  unfold receive_motor_data
  split_ifs
  · exact ⟨rfl, rfl, rfl, rfl⟩
  · rw [receive_switch_eq_chain]
    rcases switch_chain_cases (receive_cases F d (y_u_val data)) (data.getD 3 0) with h | ⟨i, hi, h⟩
    · rw [h]
      exact ⟨rfl, rfl, rfl, rfl⟩
    · rw [h]
      exact receive_cases_frame F d _ m i (by rw [receive_cases_length] at hi; exact hi)
  · exact ⟨rfl, rfl, rfl, rfl⟩

/-- What the register decoder makes of `tmp` depends on `tmp` only. -/
theorem receive_tmp_congr (F : f32_repr) (d : dm_defs) (a b : motor_t) (data : List Nat)
    (h : a.tmp = b.tmp) :
    (receive_motor_data F d a data).tmp = (receive_motor_data F d b data).tmp := by
  unfold receive_motor_data
  rw [h]
  split_ifs
  · exact h
  · rw [receive_switch_eq_chain, receive_switch_eq_chain]
    rcases switch_chain_cases (receive_cases F d (y_u_val data)) (data.getD 3 0) with k | ⟨i, hi, k⟩
    · rw [k, k]
      exact h
    · rw [k, k]
      exact receive_cases_tmp F d _ a b h i (by rw [receive_cases_length] at hi; exact hi)
  · exact h

theorem rid_getD_inj (d : dm_defs) (hok : rid_ok d) (i j : Nat) (hi : i < 45) (hj : j < 45) :
    (rid_list d).getD i 0 = (rid_list d).getD j 0 ↔ i = j := by
  have hi2 : i < (rid_list d).length := by rw [rid_list_length]; exact hi
  have hj2 : j < (rid_list d).length := by rw [rid_list_length]; exact hj
  rw [List.getD_eq_getElem _ _ hi2, List.getD_eq_getElem _ _ hj2]
  exact hok.1.getElem_inj_iff

/-- A known register id sits at one position of the table. -/
theorem rid_position (d : dm_defs) (rid : Nat) (hmem : rid ∈ rid_list d) :
    (rid_list d).indexOf rid < 45
      ∧ rid = (rid_list d).getD ((rid_list d).indexOf rid) 0 := by
  have hlt := List.indexOf_lt_length.mpr hmem
  refine ⟨by rw [rid_list_length] at hlt; exact hlt, ?_⟩
  rw [List.getD_eq_getElem _ _ hlt, List.getElem_indexOf hlt]

/-- The register decoder in closed form: an accepted read-response runs the
case at the position of its register id, every other frame does nothing. -/
theorem receive_at_index (F : f32_repr) (d : dm_defs) (hok : rid_ok d) (m : motor_t)
    (data : List Nat) :
    receive_motor_data F d m data
      = (if m.tmp.read_flag ≠ 0 ∧ data.getD 2 0 = 0x33 ∧ data.getD 3 0 ∈ rid_list d then
          ((receive_cases F d (y_u_val data)).getD
            ((rid_list d).indexOf (data.getD 3 0)) (0, id)).2 m
         else m) := by
  split_ifs with h
  · obtain ⟨hflag, htag, hmem⟩ := h
    exact receive_hit F d hok m data _ (rid_position d _ hmem).1 hflag htag
      (rid_position d _ hmem).2
  · by_cases hflag : m.tmp.read_flag = 0
    · unfold receive_motor_data
      rw [if_pos hflag]
    · apply receive_miss
      by_cases htag : data.getD 2 0 = 0x33
      · exact Or.inr (fun hmem => h ⟨hflag, htag, hmem⟩)
      · exact Or.inl htag

/-- Only the cases at positions 21, 22, 23 assign a limit. -/
theorem receive_cases_limits (F : f32_repr) (d : dm_defs) (u : Nat) (m : motor_t)
    (i : Nat) (hi : i < 45) :
    (((receive_cases F d u).getD i (0, id)).2 m).tmp.PMAX
        = (if i = 21 then F.of_bits u else m.tmp.PMAX)
      ∧ (((receive_cases F d u).getD i (0, id)).2 m).tmp.VMAX
        = (if i = 22 then F.of_bits u else m.tmp.VMAX)
      ∧ (((receive_cases F d u).getD i (0, id)).2 m).tmp.TMAX
        = (if i = 23 then F.of_bits u else m.tmp.TMAX) := by
  interval_cases i <;> exact ⟨rfl, rfl, rfl⟩

/-- The case at position `i` assigns the cache field at position `i` and no
other. -/
theorem receive_cases_cache (F : f32_repr) (d : dm_defs) (u : Nat) (m : motor_t)
    (i : Nat) (hi : i < 45) :
    cache_fields (((receive_cases F d u).getD i (0, id)).2 m).tmp
      = (cache_fields m.tmp).set i
          (if i ∈ int_positions then .u32 u else .f32 (F.of_bits u)) := by
  interval_cases i <;> rfl

theorem int_typed_eq (d : dm_defs) :
    int_typed d = int_positions.map (fun j => (rid_list d).getD j 0) := rfl

theorem int_typed_iff (d : dm_defs) (hok : rid_ok d) (i : Nat) (hi : i < 45) :
    (rid_list d).getD i 0 ∈ int_typed d ↔ i ∈ int_positions := by
  rw [int_typed_eq, List.mem_map]
  constructor
  · rintro ⟨j, hj, he⟩
    have hj45 : j < 45 := by
      revert hj
      unfold int_positions
      simp only [List.mem_cons, List.mem_singleton, List.not_mem_nil, or_false]
      omega
    rw [← (rid_getD_inj d hok j i hj45 hi).mp he]
    exact hj
  · intro h
    exact ⟨i, h, rfl⟩

/-- The receive callback on arbitration id 0: the feedback decoder decides
`para`, the register decoder decides `tmp`, nothing else changes. -/
theorem rx_callback_split (F : f32_repr) (d : dm_defs) (m : motor_t) (data : List Nat) :
    (fdcan1_rx_callback F d m 0 data).para = (dm_motor_fbdata m data).para
      ∧ (fdcan1_rx_callback F d m 0 data).tmp = (receive_motor_data F d m data).tmp
      ∧ (fdcan1_rx_callback F d m 0 data).id = m.id
      ∧ (fdcan1_rx_callback F d m 0 data).mst_id = m.mst_id
      ∧ (fdcan1_rx_callback F d m 0 data).ctrl = m.ctrl := by
  have hc : fdcan1_rx_callback F d m 0 data
      = receive_motor_data F d (dm_motor_fbdata m data) data := by
    simp [fdcan1_rx_callback]
  obtain ⟨h1, h2, h3, h4⟩ := receive_frame F d (dm_motor_fbdata m data) data
  rw [hc]
  exact ⟨h4, receive_tmp_congr F d _ m data rfl, h1, h2, h3⟩

/-- The limit at table position `p` after a frame on arbitration id 0. -/
theorem rx_limit_cond (d : dm_defs) (hok : rid_ok d) (m : motor_t) (data : List Nat)
    (p : Nat) (hp : p < 45)
    (h : m.tmp.read_flag ≠ 0 ∧ data.getD 2 0 = 0x33 ∧ data.getD 3 0 ∈ rid_list d) :
    (rid_list d).indexOf (data.getD 3 0) = p ↔ data.getD 3 0 = (rid_list d).getD p 0 := by
  obtain ⟨hlt, he⟩ := rid_position d _ h.2.2
  constructor
  · intro hi
    rw [← hi]
    exact he
  · intro hd
    exact (rid_getD_inj d hok _ p hlt hp).mp (he.symm.trans hd)

theorem rx_limits (F : f32_repr) (d : dm_defs) (hok : rid_ok d) (m : motor_t)
    (data : List Nat) :
    (fdcan1_rx_callback F d m 0 data).tmp.PMAX
        = (if m.tmp.read_flag ≠ 0 ∧ data.getD 2 0 = 0x33 ∧ data.getD 3 0 = d.RID_PMAX then
            F.of_bits (y_u_val data) else m.tmp.PMAX)
      ∧ (fdcan1_rx_callback F d m 0 data).tmp.VMAX
        = (if m.tmp.read_flag ≠ 0 ∧ data.getD 2 0 = 0x33 ∧ data.getD 3 0 = d.RID_VMAX then
            F.of_bits (y_u_val data) else m.tmp.VMAX)
      ∧ (fdcan1_rx_callback F d m 0 data).tmp.TMAX
        = (if m.tmp.read_flag ≠ 0 ∧ data.getD 2 0 = 0x33 ∧ data.getD 3 0 = d.RID_TMAX then
            F.of_bits (y_u_val data) else m.tmp.TMAX) := by
  rw [(rx_callback_split F d m data).2.1, receive_at_index F d hok m data]
  by_cases h : m.tmp.read_flag ≠ 0 ∧ data.getD 2 0 = 0x33 ∧ data.getD 3 0 ∈ rid_list d
  · rw [if_pos h]
    obtain ⟨hP, hV, hT⟩ := receive_cases_limits F d (y_u_val data) m _
      (rid_position d _ h.2.2).1
    rw [hP, hV, hT]
    have cP := rx_limit_cond d hok m data 21 (by decide) h
    have cV := rx_limit_cond d hok m data 22 (by decide) h
    have cT := rx_limit_cond d hok m data 23 (by decide) h
    have eP : (rid_list d).getD 21 0 = d.RID_PMAX := rfl
    have eV : (rid_list d).getD 22 0 = d.RID_VMAX := rfl
    have eT : (rid_list d).getD 23 0 = d.RID_TMAX := rfl
    rw [eP] at cP
    rw [eV] at cV
    rw [eT] at cT
    refine ⟨?_, ?_, ?_⟩
    · exact if_congr ⟨fun hi => ⟨h.1, h.2.1, cP.mp hi⟩, fun hc => cP.mpr hc.2.2⟩ rfl rfl
    · exact if_congr ⟨fun hi => ⟨h.1, h.2.1, cV.mp hi⟩, fun hc => cV.mpr hc.2.2⟩ rfl rfl
    · exact if_congr ⟨fun hi => ⟨h.1, h.2.1, cT.mp hi⟩, fun hc => cT.mpr hc.2.2⟩ rfl rfl
  · rw [if_neg h]
    have mP : d.RID_PMAX ∈ rid_list d := rid_getD_mem d 21 (by decide)
    have mV : d.RID_VMAX ∈ rid_list d := rid_getD_mem d 22 (by decide)
    have mT : d.RID_TMAX ∈ rid_list d := rid_getD_mem d 23 (by decide)
    refine ⟨?_, ?_, ?_⟩
    · have hn : ¬ (m.tmp.read_flag ≠ 0 ∧ data.getD 2 0 = 0x33
          ∧ data.getD 3 0 = d.RID_PMAX) := fun hc => h ⟨hc.1, hc.2.1, hc.2.2 ▸ mP⟩
      rw [if_neg hn]
    · have hn : ¬ (m.tmp.read_flag ≠ 0 ∧ data.getD 2 0 = 0x33
          ∧ data.getD 3 0 = d.RID_VMAX) := fun hc => h ⟨hc.1, hc.2.1, hc.2.2 ▸ mV⟩
      rw [if_neg hn]
    · have hn : ¬ (m.tmp.read_flag ≠ 0 ∧ data.getD 2 0 = 0x33
          ∧ data.getD 3 0 = d.RID_TMAX) := fun hc => h ⟨hc.1, hc.2.1, hc.2.2 ▸ mT⟩
      rw [if_neg hn]

/-! ## Claims about the register decoder and the receive callback -/

/-- C13 (register response decoding): for a non-zero read cursor and a frame
with byte 2 = `0x33` whose byte 3 is one of the 45 known register ids,
`receive_motor_data` stores the 32-bit little-endian value of bytes 4..7
(`b4 + 2^8*b5 + 2^16*b6 + 2^24*b7`) into the cache field of that register, as
an unsigned integer for the integer-typed registers and as the `float` with
that bit pattern for the others, and changes no other cache field. -/
theorem C13_response_store (F : f32_repr) (d : dm_defs) (hok : rid_ok d) (m : motor_t)
    (data : List Nat) (hflag : m.tmp.read_flag ≠ 0) (htag : data.getD 2 0 = 0x33)
    (hmem : data.getD 3 0 ∈ rid_list d) :
    cache_fields (receive_motor_data F d m data).tmp
        = (cache_fields m.tmp).set ((rid_list d).indexOf (data.getD 3 0))
            (stored_val F d data)
      ∧ (rid_list d).getD ((rid_list d).indexOf (data.getD 3 0)) 0 = data.getD 3 0
      ∧ stored_val F d data
          = (if data.getD 3 0 ∈ int_typed d then
              reg_val.u32 (data.getD 4 0 + 2 ^ 8 * data.getD 5 0 + 2 ^ 16 * data.getD 6 0
                + 2 ^ 24 * data.getD 7 0)
             else
              reg_val.f32 (F.of_bits (data.getD 4 0 + 2 ^ 8 * data.getD 5 0
                + 2 ^ 16 * data.getD 6 0 + 2 ^ 24 * data.getD 7 0))) := by
  obtain ⟨hlt, he⟩ := rid_position d _ hmem
  refine ⟨?_, he.symm, rfl⟩
  rw [receive_hit F d hok m data _ hlt hflag htag he, receive_cases_cache F d _ m _ hlt]
  unfold stored_val
  congr 1
  have hiff := int_typed_iff d hok _ hlt
  rw [← he] at hiff
  exact if_congr hiff.symm rfl rfl

theorem C13_response_store_witness :
    cache_fields (receive_motor_data f32_table dm_sample (motor_at dm_sample 5)
          [0x01, 0x00, 0x33, 7, 0x34, 0x12, 0x00, 0x00]).tmp
        = (cache_fields (motor_at dm_sample 5).tmp).set
            ((rid_list dm_sample).indexOf
              ([0x01, 0x00, 0x33, 7, 0x34, 0x12, 0x00, 0x00].getD 3 0))
            (stored_val f32_table dm_sample [0x01, 0x00, 0x33, 7, 0x34, 0x12, 0x00, 0x00])
      ∧ (rid_list dm_sample).getD ((rid_list dm_sample).indexOf
            ([0x01, 0x00, 0x33, 7, 0x34, 0x12, 0x00, 0x00].getD 3 0)) 0
          = [0x01, 0x00, 0x33, 7, 0x34, 0x12, 0x00, 0x00].getD 3 0
      ∧ stored_val f32_table dm_sample [0x01, 0x00, 0x33, 7, 0x34, 0x12, 0x00, 0x00]
          = (if [0x01, 0x00, 0x33, 7, 0x34, 0x12, 0x00, 0x00].getD 3 0 ∈ int_typed dm_sample
              then
              reg_val.u32 ([0x01, 0x00, 0x33, 7, 0x34, 0x12, 0x00, 0x00].getD 4 0
                + 2 ^ 8 * [0x01, 0x00, 0x33, 7, 0x34, 0x12, 0x00, 0x00].getD 5 0
                + 2 ^ 16 * [0x01, 0x00, 0x33, 7, 0x34, 0x12, 0x00, 0x00].getD 6 0
                + 2 ^ 24 * [0x01, 0x00, 0x33, 7, 0x34, 0x12, 0x00, 0x00].getD 7 0)
             else
              reg_val.f32 (f32_table.of_bits
                ([0x01, 0x00, 0x33, 7, 0x34, 0x12, 0x00, 0x00].getD 4 0
                + 2 ^ 8 * [0x01, 0x00, 0x33, 7, 0x34, 0x12, 0x00, 0x00].getD 5 0
                + 2 ^ 16 * [0x01, 0x00, 0x33, 7, 0x34, 0x12, 0x00, 0x00].getD 6 0
                + 2 ^ 24 * [0x01, 0x00, 0x33, 7, 0x34, 0x12, 0x00, 0x00].getD 7 0))) :=
  C13_response_store f32_table dm_sample rid_ok_sample (motor_at dm_sample 5)
    [0x01, 0x00, 0x33, 7, 0x34, 0x12, 0x00, 0x00] (by decide) rfl (by decide)

/-- C14 (limits after an inbound frame, as the code treats them): after
`dm_motor_fbdata` followed by `receive_motor_data` each of PMAX, VMAX, TMAX
keeps its value, except that an accepted read-response (read cursor
non-zero, byte 2 = `0x33`) carrying the register id `RID_PMAX`, `RID_VMAX` or
`RID_TMAX` overwrites that limit with the `float` of the frame's value. -/
theorem C14_limits_after_frame (F : f32_repr) (d : dm_defs) (hok : rid_ok d) (m : motor_t)
    (data : List Nat) :
    (fdcan1_rx_callback F d m 0 data).tmp.PMAX
        = (if m.tmp.read_flag ≠ 0 ∧ data.getD 2 0 = 0x33 ∧ data.getD 3 0 = d.RID_PMAX then
            F.of_bits (y_u_val data) else m.tmp.PMAX)
      ∧ (fdcan1_rx_callback F d m 0 data).tmp.VMAX
        = (if m.tmp.read_flag ≠ 0 ∧ data.getD 2 0 = 0x33 ∧ data.getD 3 0 = d.RID_VMAX then
            F.of_bits (y_u_val data) else m.tmp.VMAX)
      ∧ (fdcan1_rx_callback F d m 0 data).tmp.TMAX
        = (if m.tmp.read_flag ≠ 0 ∧ data.getD 2 0 = 0x33 ∧ data.getD 3 0 = d.RID_TMAX then
            F.of_bits (y_u_val data) else m.tmp.TMAX) :=
  rx_limits F d hok m data

theorem C14_limits_after_frame_witness :
    (fdcan1_rx_callback f32_table dm_sample (dm_motor_init dm_sample) 0
          [0x11, 0x80, 0x00, 0x7F, 0xF7, 0xFF, 40, 35]).tmp.PMAX
        = (if (dm_motor_init dm_sample).tmp.read_flag ≠ 0
              ∧ [0x11, 0x80, 0x00, 0x7F, 0xF7, 0xFF, 40, 35].getD 2 0 = 0x33
              ∧ [0x11, 0x80, 0x00, 0x7F, 0xF7, 0xFF, 40, 35].getD 3 0 = dm_sample.RID_PMAX
            then f32_table.of_bits (y_u_val [0x11, 0x80, 0x00, 0x7F, 0xF7, 0xFF, 40, 35])
            else (dm_motor_init dm_sample).tmp.PMAX)
      ∧ (fdcan1_rx_callback f32_table dm_sample (dm_motor_init dm_sample) 0
          [0x11, 0x80, 0x00, 0x7F, 0xF7, 0xFF, 40, 35]).tmp.VMAX
        = (if (dm_motor_init dm_sample).tmp.read_flag ≠ 0
              ∧ [0x11, 0x80, 0x00, 0x7F, 0xF7, 0xFF, 40, 35].getD 2 0 = 0x33
              ∧ [0x11, 0x80, 0x00, 0x7F, 0xF7, 0xFF, 40, 35].getD 3 0 = dm_sample.RID_VMAX
            then f32_table.of_bits (y_u_val [0x11, 0x80, 0x00, 0x7F, 0xF7, 0xFF, 40, 35])
            else (dm_motor_init dm_sample).tmp.VMAX)
      ∧ (fdcan1_rx_callback f32_table dm_sample (dm_motor_init dm_sample) 0
          [0x11, 0x80, 0x00, 0x7F, 0xF7, 0xFF, 40, 35]).tmp.TMAX
        = (if (dm_motor_init dm_sample).tmp.read_flag ≠ 0
              ∧ [0x11, 0x80, 0x00, 0x7F, 0xF7, 0xFF, 40, 35].getD 2 0 = 0x33
              ∧ [0x11, 0x80, 0x00, 0x7F, 0xF7, 0xFF, 40, 35].getD 3 0 = dm_sample.RID_TMAX
            then f32_table.of_bits (y_u_val [0x11, 0x80, 0x00, 0x7F, 0xF7, 0xFF, 40, 35])
            else (dm_motor_init dm_sample).tmp.TMAX) :=
  C14_limits_after_frame f32_table dm_sample rid_ok_sample (dm_motor_init dm_sample)
    [0x11, 0x80, 0x00, 0x7F, 0xF7, 0xFF, 40, 35]

/-- C14 as written fails: from the record of `dm_motor_init` (cursor 1,
PMAX = 12.5) the read-response for register id 21 (`RID_PMAX`) with the value
pattern `0x41200000` leaves PMAX = 10; and for no table of pairwise distinct
one-byte register ids is PMAX the same after every inbound frame. -/
theorem C14_limits_constant_counterexample :
    (dm_motor_init dm_sample).tmp.PMAX = 25 / 2
      ∧ (fdcan1_rx_callback f32_table dm_sample (dm_motor_init dm_sample) 0
          [0x01, 0x00, 0x33, 21, 0x00, 0x00, 0x20, 0x41]).tmp.PMAX = 10
      ∧ ¬ ∃ (F : f32_repr) (d : dm_defs), rid_ok d ∧
          ∀ (m : motor_t) (data : List Nat),
            (fdcan1_rx_callback F d m 0 data).tmp.PMAX = m.tmp.PMAX := by
  refine ⟨rfl, ?_, ?_⟩
  · rw [(rx_limits f32_table dm_sample rid_ok_sample (dm_motor_init dm_sample) _).1]
    simp [dm_motor_init, dm_sample, y_u_val, f32_table]
  · rintro ⟨F, d, hok, h⟩
    have hm := h (motor_with_pmax d (F.of_bits 0 + 1)) (response_for d.RID_PMAX)
    rw [(rx_limits F d hok _ _).1] at hm
    have hc : (motor_with_pmax d (F.of_bits 0 + 1)).tmp.read_flag ≠ 0
        ∧ (response_for d.RID_PMAX).getD 2 0 = 0x33
        ∧ (response_for d.RID_PMAX).getD 3 0 = d.RID_PMAX :=
      ⟨by show (1 : Nat) ≠ 0; decide, rfl, rfl⟩
    rw [if_pos hc] at hm
    have hm2 : F.of_bits 0 = F.of_bits 0 + 1 := hm
    linarith

/-- C15 (inbound routing, as the code does it): on arbitration id 0
`fdcan1_rx_callback` runs both decoders on every frame, the feedback decoder
first.  The feedback fields are always overwritten from the frame bytes, also
for a register read-response; the register cache and the read cursor change
exactly as `receive_motor_data` alone changes them, that is, only for an
accepted read-response (cursor non-zero, byte 2 = `0x33`, known register id);
id, master id and control state are never touched, and a frame with another
arbitration id changes nothing. -/
theorem C15_both_decoders_run (F : f32_repr) (d : dm_defs) (m : motor_t) (rec_id : Nat)
    (data : List Nat) :
    fdcan1_rx_callback F d m rec_id data
        = (if rec_id = 0 then receive_motor_data F d (dm_motor_fbdata m data) data else m)
      ∧ (fdcan1_rx_callback F d m 0 data).para = (dm_motor_fbdata m data).para
      ∧ (fdcan1_rx_callback F d m 0 data).tmp = (receive_motor_data F d m data).tmp
      ∧ (fdcan1_rx_callback F d m 0 data).tmp
          = (if m.tmp.read_flag ≠ 0 ∧ data.getD 2 0 = 0x33 ∧ data.getD 3 0 ∈ rid_list d then
              (receive_motor_data F d m data).tmp else m.tmp)
      ∧ (fdcan1_rx_callback F d m 0 data).id = m.id
      ∧ (fdcan1_rx_callback F d m 0 data).mst_id = m.mst_id
      ∧ (fdcan1_rx_callback F d m 0 data).ctrl = m.ctrl := by
  obtain ⟨h1, h2, h3, h4, h5⟩ := rx_callback_split F d m data
  refine ⟨rfl, h1, h2, ?_, h3, h4, h5⟩
  rw [h2]
  split_ifs with h
  · rfl
  · by_cases hflag : m.tmp.read_flag = 0
    · unfold receive_motor_data
      rw [if_pos hflag]
    · rw [receive_miss F d m data]
      by_cases htag : data.getD 2 0 = 0x33
      · exact Or.inr (fun hmem => h ⟨hflag, htag, hmem⟩)
      · exact Or.inl htag

/-- C15 as written fails: the read-response for register id 0 (byte 2 =
`0x33`, a known id) delivered on arbitration id 0 to the record of
`dm_motor_init` changes the feedback fields (raw position 0 becomes `0x0033`,
id echo 0 becomes 1) and also the register cursor (1 becomes 2), so both
decoders act on it; and for no assignment of the register ids does every
read-response with a known id leave the feedback fields unchanged. -/
theorem C15_routing_counterexample :
    [0x01, 0x00, 0x33, 0x00, 0x00, 0x00, 0x80, 0x3F].getD 2 0 = 0x33
      ∧ [0x01, 0x00, 0x33, 0x00, 0x00, 0x00, 0x80, 0x3F].getD 3 0 ∈ rid_list dm_sample
      ∧ (dm_motor_init dm_sample).para.p_int = 0
      ∧ (dm_motor_init dm_sample).para.id = 0
      ∧ (dm_motor_init dm_sample).tmp.read_flag = 1
      ∧ (fdcan1_rx_callback f32_table dm_sample (dm_motor_init dm_sample) 0
          [0x01, 0x00, 0x33, 0x00, 0x00, 0x00, 0x80, 0x3F]).para.p_int = 0x0033
      ∧ (fdcan1_rx_callback f32_table dm_sample (dm_motor_init dm_sample) 0
          [0x01, 0x00, 0x33, 0x00, 0x00, 0x00, 0x80, 0x3F]).para.id = 1
      ∧ (fdcan1_rx_callback f32_table dm_sample (dm_motor_init dm_sample) 0
          [0x01, 0x00, 0x33, 0x00, 0x00, 0x00, 0x80, 0x3F]).tmp.read_flag = 2
      ∧ ¬ ∃ (F : f32_repr) (d : dm_defs),
          ∀ (m : motor_t) (data : List Nat), data.getD 2 0 = 0x33 →
            data.getD 3 0 ∈ rid_list d →
            (fdcan1_rx_callback F d m 0 data).para = m.para := by
  refine ⟨rfl, by decide, rfl, rfl, rfl, ?_, ?_, by decide, ?_⟩
  · rw [(rx_callback_split _ _ _ _).1]
    rfl
  · rw [(rx_callback_split _ _ _ _).1]
    rfl
  · rintro ⟨F, d, h⟩
    have hm := h motor_zero (response_for d.RID_UV_VALUE) rfl
      (rid_getD_mem d 0 (by decide))
    rw [(rx_callback_split _ _ _ _).1] at hm
    have hid := congrArg motor_fbpara_t.id hm
    revert hid
    show ¬ ((0x01 &&& 0x0F : Nat) = 0)
    decide

/-! ## Claims about the control dispatch -/

/-- C17 (control dispatch, as the code does it): a record whose control
mode is one of the four enumerators makes `dm_motor_ctrl_send` emit exactly
the frame of that mode's encoder (`mit_ctrl`, `pos_ctrl`, `spd_ctrl`,
`psi_ctrl`) applied to the record's id, targets and limits, and each encoder
emits exactly one frame addressed to id + that mode's offset (a `uint16_t`
sum); a record whose mode is none of the four enumerators (the `switch` has
no default case) emits no frame.  The record itself is only read. -/
theorem C17_control_dispatch (F : f32_repr) (d : dm_defs) (m : motor_t) (hd : modes_ok d) :
    (m.ctrl.mode = d.mit_mode →
        dm_motor_ctrl_send F d m
          = mit_ctrl d m m.id m.ctrl.pos_set m.ctrl.vel_set m.ctrl.kp_set m.ctrl.kd_set
              m.ctrl.tor_set)
      ∧ (m.ctrl.mode = d.pos_mode →
        dm_motor_ctrl_send F d m = pos_ctrl F d m.id m.ctrl.pos_set m.ctrl.vel_set)
      ∧ (m.ctrl.mode = d.spd_mode →
        dm_motor_ctrl_send F d m = spd_ctrl F d m.id m.ctrl.vel_set)
      ∧ (m.ctrl.mode = d.psi_mode →
        dm_motor_ctrl_send F d m
          = psi_ctrl F d m.id m.ctrl.pos_set m.ctrl.vel_set m.ctrl.cur_set)
      ∧ (m.ctrl.mode ∉ [d.mit_mode, d.pos_mode, d.spd_mode, d.psi_mode] →
        dm_motor_ctrl_send F d m = [])
      ∧ (∃ data, mit_ctrl d m m.id m.ctrl.pos_set m.ctrl.vel_set m.ctrl.kp_set m.ctrl.kd_set
            m.ctrl.tor_set
          = [{ id := (m.id + d.MIT_MODE) % 65536, data := data, len := 8 }])
      ∧ (∃ data, pos_ctrl F d m.id m.ctrl.pos_set m.ctrl.vel_set
          = [{ id := (m.id + d.POS_MODE) % 65536, data := data, len := 8 }])
      ∧ (∃ data, spd_ctrl F d m.id m.ctrl.vel_set
          = [{ id := (m.id + d.SPD_MODE) % 65536, data := data, len := 4 }])
      ∧ (∃ data, psi_ctrl F d m.id m.ctrl.pos_set m.ctrl.vel_set m.ctrl.cur_set
          = [{ id := (m.id + d.PSI_MODE) % 65536, data := data, len := 8 }]) := by
  unfold modes_ok at hd
  simp only [List.nodup_cons, List.mem_cons, List.mem_singleton, List.not_mem_nil,
    or_false, not_or, List.nodup_nil, and_true] at hd
  obtain ⟨⟨h12, h13, h14⟩, ⟨h23, h24⟩, h34, _⟩ := hd
  refine ⟨?_, ?_, ?_, ?_, ?_, ⟨_, rfl⟩, ⟨_, rfl⟩, ⟨_, rfl⟩, ⟨_, rfl⟩⟩
  · intro h
    simp only [dm_motor_ctrl_send, h, if_true]
  · intro h
    simp only [dm_motor_ctrl_send, h, if_neg (Ne.symm h12), if_true]
  · intro h
    simp only [dm_motor_ctrl_send, h, if_neg (Ne.symm h13), if_neg (Ne.symm h23), if_true]
  · intro h
    simp only [dm_motor_ctrl_send, h, if_neg (Ne.symm h14), if_neg (Ne.symm h24),
      if_neg (Ne.symm h34), if_true]
  · intro h
    simp only [List.mem_cons, List.mem_singleton, List.not_mem_nil, or_false, not_or] at h
    simp only [dm_motor_ctrl_send, if_neg h.1, if_neg h.2.1, if_neg h.2.2.1, if_neg h.2.2.2]

theorem C17_control_dispatch_witness :
    ((dm_motor_init dm_sample).ctrl.mode = dm_sample.mit_mode →
        dm_motor_ctrl_send f32_table dm_sample (dm_motor_init dm_sample)
          = mit_ctrl dm_sample (dm_motor_init dm_sample) (dm_motor_init dm_sample).id
              (dm_motor_init dm_sample).ctrl.pos_set (dm_motor_init dm_sample).ctrl.vel_set
              (dm_motor_init dm_sample).ctrl.kp_set (dm_motor_init dm_sample).ctrl.kd_set
              (dm_motor_init dm_sample).ctrl.tor_set)
      ∧ ((dm_motor_init dm_sample).ctrl.mode = dm_sample.pos_mode →
        dm_motor_ctrl_send f32_table dm_sample (dm_motor_init dm_sample)
          = pos_ctrl f32_table dm_sample (dm_motor_init dm_sample).id
              (dm_motor_init dm_sample).ctrl.pos_set (dm_motor_init dm_sample).ctrl.vel_set)
      ∧ ((dm_motor_init dm_sample).ctrl.mode = dm_sample.spd_mode →
        dm_motor_ctrl_send f32_table dm_sample (dm_motor_init dm_sample)
          = spd_ctrl f32_table dm_sample (dm_motor_init dm_sample).id
              (dm_motor_init dm_sample).ctrl.vel_set)
      ∧ ((dm_motor_init dm_sample).ctrl.mode = dm_sample.psi_mode →
        dm_motor_ctrl_send f32_table dm_sample (dm_motor_init dm_sample)
          = psi_ctrl f32_table dm_sample (dm_motor_init dm_sample).id
              (dm_motor_init dm_sample).ctrl.pos_set (dm_motor_init dm_sample).ctrl.vel_set
              (dm_motor_init dm_sample).ctrl.cur_set)
      ∧ ((dm_motor_init dm_sample).ctrl.mode
            ∉ [dm_sample.mit_mode, dm_sample.pos_mode, dm_sample.spd_mode,
               dm_sample.psi_mode] →
        dm_motor_ctrl_send f32_table dm_sample (dm_motor_init dm_sample) = [])
      ∧ (∃ data, mit_ctrl dm_sample (dm_motor_init dm_sample) (dm_motor_init dm_sample).id
            (dm_motor_init dm_sample).ctrl.pos_set (dm_motor_init dm_sample).ctrl.vel_set
            (dm_motor_init dm_sample).ctrl.kp_set (dm_motor_init dm_sample).ctrl.kd_set
            (dm_motor_init dm_sample).ctrl.tor_set
          = [{ id := ((dm_motor_init dm_sample).id + dm_sample.MIT_MODE) % 65536,
               data := data, len := 8 }])
      ∧ (∃ data, pos_ctrl f32_table dm_sample (dm_motor_init dm_sample).id
            (dm_motor_init dm_sample).ctrl.pos_set (dm_motor_init dm_sample).ctrl.vel_set
          = [{ id := ((dm_motor_init dm_sample).id + dm_sample.POS_MODE) % 65536,
               data := data, len := 8 }])
      ∧ (∃ data, spd_ctrl f32_table dm_sample (dm_motor_init dm_sample).id
            (dm_motor_init dm_sample).ctrl.vel_set
          = [{ id := ((dm_motor_init dm_sample).id + dm_sample.SPD_MODE) % 65536,
               data := data, len := 4 }])
      ∧ (∃ data, psi_ctrl f32_table dm_sample (dm_motor_init dm_sample).id
            (dm_motor_init dm_sample).ctrl.pos_set (dm_motor_init dm_sample).ctrl.vel_set
            (dm_motor_init dm_sample).ctrl.cur_set
          = [{ id := ((dm_motor_init dm_sample).id + dm_sample.PSI_MODE) % 65536,
               data := data, len := 8 }]) :=
  C17_control_dispatch f32_table dm_sample (dm_motor_init dm_sample)
    (by simp [modes_ok, dm_sample])

/-- C17 as written fails: the zero-filled record that `dm_motor_init` leaves
in the slots it does not configure has control mode 0; with the enumerators
1..4 `dm_motor_ctrl_send` emits no frame for it.  And whatever the
enumerators are, some record makes `dm_motor_ctrl_send` emit no frame. -/
theorem C17_dispatch_counterexample :
    motor_zero.ctrl.mode = 0
      ∧ [dm_sample.mit_mode, dm_sample.pos_mode, dm_sample.spd_mode, dm_sample.psi_mode]
          = [1, 2, 3, 4]
      ∧ dm_motor_ctrl_send f32_table dm_sample motor_zero = []
      ∧ ¬ ∃ (F : f32_repr) (d : dm_defs),
          ∀ m : motor_t, ∃ f, dm_motor_ctrl_send F d m = [f] := by
  refine ⟨rfl, rfl, by decide, ?_⟩
  rintro ⟨F, d, h⟩
  obtain ⟨f, hf⟩ :=
    h (motor_with_mode (d.mit_mode + d.pos_mode + d.spd_mode + d.psi_mode + 1))
  have e : (motor_with_mode (d.mit_mode + d.pos_mode + d.spd_mode + d.psi_mode + 1)).ctrl.mode
      = d.mit_mode + d.pos_mode + d.spd_mode + d.psi_mode + 1 := rfl
  simp only [dm_motor_ctrl_send, e] at hf
  rw [if_neg (by omega), if_neg (by omega), if_neg (by omega), if_neg (by omega)] at hf
  exact absurd hf (by simp)

/-! ## Further codec lemmas -/

theorem c_int_cast_neg (q : ℚ) : c_int_cast (-q) = -c_int_cast q := by
  unfold c_int_cast
  rw [Rat.neg_num, Rat.neg_den, Int.neg_tdiv]

theorem c_int_cast_of_nonpos {q : ℚ} (hq : q ≤ 0) : c_int_cast q = ⌈q⌉ := by
  have h := c_int_cast_neg (-q)
  rw [neg_neg] at h
  rw [h, c_int_cast_of_nonneg (by linarith : (0 : ℚ) ≤ -q), Int.floor_neg, neg_neg]

/-- The scaled value `(x - x_min) * (2^bits - 1) / (x_max - x_min)` against an
integer bound, in terms of `x`. -/
theorem scaled_le_iff {x x_min x_max : ℚ} {bits : Nat} (hb : 1 ≤ bits)
    (hmm : x_min < x_max) (z : ℚ) :
    (x - x_min) * ((2 : ℚ) ^ bits - 1) / (x_max - x_min) ≤ z
      ↔ x ≤ x_min + z * ((x_max - x_min) / ((2 : ℚ) ^ bits - 1)) := by
  have hN := levels_pos hb
  have hs : (0 : ℚ) < x_max - x_min := by linarith
  rw [div_le_iff₀ hs, ← sub_le_iff_le_add', ← le_div_iff₀ hN]
  constructor <;> intro h <;> convert h using 1 <;> field_simp

theorem le_scaled_iff {x x_min x_max : ℚ} {bits : Nat} (hb : 1 ≤ bits)
    (hmm : x_min < x_max) (z : ℚ) :
    z ≤ (x - x_min) * ((2 : ℚ) ^ bits - 1) / (x_max - x_min)
      ↔ x_min + z * ((x_max - x_min) / ((2 : ℚ) ^ bits - 1)) ≤ x := by
  have hN := levels_pos hb
  have hs : (0 : ℚ) < x_max - x_min := by linarith
  rw [le_div_iff₀ hs, ← le_sub_iff_add_le', ← div_le_iff₀ hN]
  constructor <;> intro h <;> convert h using 1 <;> field_simp

/-- A value strictly between -1 and 1 truncates to 0. -/
theorem c_int_cast_small {q : ℚ} (h1 : -1 < q) (h2 : q < 1) : c_int_cast q = 0 := by
  by_cases hq : 0 ≤ q
  · rw [c_int_cast_of_nonneg hq, Int.floor_eq_iff]
    exact ⟨by exact_mod_cast hq, by simpa using h2⟩
  · rw [c_int_cast_of_nonpos (by linarith), Int.ceil_eq_iff]
    exact ⟨by simpa using h1, by norm_num; linarith⟩

/-! ## Raw fields of a feedback frame -/

/-- The raw fields of a feedback frame fit their widths. -/
theorem fb_raw_bounds (b1 b2 b3 b4 b5 : Nat) (h1 : b1 < 256) (h2 : b2 < 256)
    (h3 : b3 < 256) (h4 : b4 < 256) (h5 : b5 < 256) :
    ((b1 <<< 8) ||| b2) < 65536
      ∧ ((b3 <<< 4) ||| (b4 >>> 4)) < 4096
      ∧ (((b4 &&& 0xF) <<< 8) ||| b5) < 4096 := by
  have hb4 : b4 >>> 4 < 2 ^ 4 := by rw [Nat.shiftRight_eq_div_pow]; omega
  refine ⟨?_, ?_, ?_⟩
  · rw [or_shl _ _ 8 (by omega)]; omega
  · rw [or_shl _ _ 4 hb4]
    simp only [Nat.shiftRight_eq_div_pow] at hb4 ⊢
    omega
  · rw [and_0xF, or_shl _ _ 8 (by omega)]; omega

/-! ## Claims about the sequencer states -/

/-- The register decoder keeps the cursor in 0..45. -/
theorem receive_flag_le (F : f32_repr) (d : dm_defs) (m : motor_t) (data : List Nat)
    (h : m.tmp.read_flag ≤ 45) : (receive_motor_data F d m data).tmp.read_flag ≤ 45 := by
  unfold receive_motor_data
  split_ifs
  · exact h
  · rw [receive_switch_eq_chain]
    rcases switch_chain_cases (receive_cases F d (y_u_val data)) (data.getD 3 0) with k | ⟨i, hi, k⟩
    · rw [k]
      exact h
    · rw [receive_cases_length] at hi
      rw [k, receive_cases_flag F d _ m i hi]
      unfold next_flag
      split_ifs <;> omega
  · exact h

theorem feed_flag_le (F : f32_repr) (d : dm_defs) (frames : List (List Nat)) :
    ∀ m : motor_t, m.tmp.read_flag ≤ 45 → (feed F d m frames).tmp.read_flag ≤ 45 := by
  induction frames with
  | nil => exact fun _ h => h
  | cons data rest ih => exact fun m h => ih _ (receive_flag_le F d m data h)

/-- C23 (read issuing): `read_all_motor_data` sends exactly one register-read
frame when the read cursor is in 1..45, the read of the register assigned to
that cursor value issued by `read_motor_data` with the motor's id (length 4,
arbitration id `0x7FF`, tag `0x33`, the register id in byte 3), and sends
nothing when the cursor is 0 or above 45; the record is only read. -/
theorem C23_read_issuing (d : dm_defs) (m : motor_t) :
    read_all_motor_data d m
        = (if 1 ≤ m.tmp.read_flag ∧ m.tmp.read_flag ≤ 45 then
            read_motor_data m.id ((rid_list d).getD (m.tmp.read_flag - 1) 0)
           else [])
      ∧ read_motor_data m.id ((rid_list d).getD (m.tmp.read_flag - 1) 0)
        = [{ id := 0x7FF,
             data := [(m.id &&& 0x0F) % 256, ((m.id >>> 4) &&& 0x0F) % 256, 0x33,
                      (rid_list d).getD (m.tmp.read_flag - 1) 0 % 256],
             len := 4 }] := by
  refine ⟨?_, rfl⟩
  split_ifs with h
  · exact read_all_at d m _ h.1 h.2 rfl
  · exact read_all_idle d m (by omega)

/-- C24 (idle is absorbing for inbound frames): with the read cursor at 0,
`receive_motor_data` leaves the whole record unchanged, the cursor at 0, for
every frame, a well-formed read-response included. -/
theorem C24_idle_absorbing (F : f32_repr) (d : dm_defs) (m : motor_t) (data : List Nat)
    (h : m.tmp.read_flag = 0) :
    receive_motor_data F d m data = m
      ∧ (receive_motor_data F d m data).tmp.read_flag = 0 := by
  have e : receive_motor_data F d m data = m := by
    unfold receive_motor_data
    rw [if_pos h]
  rw [e]
  exact ⟨rfl, h⟩

theorem C24_idle_absorbing_witness :
    receive_motor_data f32_table dm_sample (motor_at dm_sample 0)
          [0x01, 0x00, 0x33, 21, 0x00, 0x00, 0x20, 0x41]
        = motor_at dm_sample 0
      ∧ (receive_motor_data f32_table dm_sample (motor_at dm_sample 0)
          [0x01, 0x00, 0x33, 21, 0x00, 0x00, 0x20, 0x41]).tmp.read_flag = 0 :=
  C24_idle_absorbing f32_table dm_sample (motor_at dm_sample 0)
    [0x01, 0x00, 0x33, 21, 0x00, 0x00, 0x20, 0x41] rfl

/-- C25 (cursor range invariant): a read cursor in 0..45 is still in 0..45
after `receive_motor_data` on any frame and after any sequence of frames; the
record of `dm_motor_init` has cursor 1, so from it the cursor is in 0..45
after any sequence of inbound frames. -/
theorem C25_cursor_range (F : f32_repr) (d : dm_defs) (m : motor_t) (data : List Nat)
    (frames : List (List Nat)) (h : m.tmp.read_flag ≤ 45) :
    (receive_motor_data F d m data).tmp.read_flag ≤ 45
      ∧ (feed F d m frames).tmp.read_flag ≤ 45
      ∧ (dm_motor_init d).tmp.read_flag = 1
      ∧ (feed F d (dm_motor_init d) frames).tmp.read_flag ≤ 45 :=
  ⟨receive_flag_le F d m data h, feed_flag_le F d frames m h, rfl,
    feed_flag_le F d frames (dm_motor_init d) (by show (1 : Nat) ≤ 45; decide)⟩

theorem C25_cursor_range_witness :
    (receive_motor_data f32_table dm_sample (motor_at dm_sample 45)
          (response_for 81)).tmp.read_flag ≤ 45
      ∧ (feed f32_table dm_sample (motor_at dm_sample 45)
          [response_for 81, response_for 0, response_for 200]).tmp.read_flag ≤ 45
      ∧ (dm_motor_init dm_sample).tmp.read_flag = 1
      ∧ (feed f32_table dm_sample (dm_motor_init dm_sample)
          [response_for 81, response_for 0, response_for 200]).tmp.read_flag ≤ 45 :=
  C25_cursor_range f32_table dm_sample (motor_at dm_sample 45) (response_for 81)
    [response_for 81, response_for 0, response_for 200] (by decide)

/-! ## Claim about a gain above its range -/

/-- The lower end of a range encodes to 0. -/
theorem float_to_uint_at_min (lo hi : ℚ) (bits : Nat) : float_to_uint lo lo hi bits = 0 := by
  simp [float_to_uint, c_int_cast]

/-- A gain twice the range width above `KP_MIN` encodes to `2 * 4095`. -/
theorem float_to_uint_double {lo hi : ℚ} (h : lo < hi) :
    float_to_uint (lo + 2 * (hi - lo)) lo hi 12 = 8190 := by
  have hs : hi - lo ≠ 0 := by
    intro h0
    linarith
  have hv : (lo + 2 * (hi - lo) - lo) * ((2 : ℚ) ^ 12 - 1) / (hi - lo) = 8190 := by
    field_simp
    ring
  apply float_to_uint_eq_of_bounds (by norm_num) <;> rw [hv] <;> norm_num

/-- C27 (gain overflow corrupts a neighbouring field): for positive limits
and non-empty gain ranges there are in-range pos, vel, kd, tor and a kp above
`KP_MAX`, with 12-bit encoding at least 4096, for which the velocity field
read back from the MIT payload, `(b2<<4)|(b3>>4)`, differs from the 12-bit
encoding of vel: byte 3 is `((vel_tmp & 0xF) << 4) | (kp_tmp >> 8)` with
`kp_tmp >> 8` at least 16, so its bit 4 lands in the velocity nibble. -/
theorem C27_gain_overflow (d : dm_defs) (motor : motor_t) (motor_id : Nat)
    (hP : 0 < motor.tmp.PMAX) (hV : 0 < motor.tmp.VMAX) (hT : 0 < motor.tmp.TMAX)
    (hKP : d.KP_MIN < d.KP_MAX) (hKD : d.KD_MIN < d.KD_MAX) :
    ∃ pos vel kp kd tor : ℚ,
      (-motor.tmp.PMAX ≤ pos ∧ pos ≤ motor.tmp.PMAX)
        ∧ (-motor.tmp.VMAX ≤ vel ∧ vel ≤ motor.tmp.VMAX)
        ∧ (d.KD_MIN ≤ kd ∧ kd ≤ d.KD_MAX)
        ∧ (-motor.tmp.TMAX ≤ tor ∧ tor ≤ motor.tmp.TMAX)
        ∧ d.KP_MAX < kp
        ∧ 4096 ≤ float_to_uint kp d.KP_MIN d.KP_MAX 12
        ∧ ∃ b0 b1 b2 b3 b4 b5 b6 b7 : Nat,
            mit_ctrl d motor motor_id pos vel kp kd tor
                = [{ id := (motor_id + d.MIT_MODE) % 65536,
                     data := [b0, b1, b2, b3, b4, b5, b6, b7], len := 8 }]
              ∧ (((b2 <<< 4) ||| (b3 >>> 4) : Nat) : Int)
                  ≠ float_to_uint vel (-motor.tmp.VMAX) motor.tmp.VMAX 12
              ∧ b3 = (((to_u16 (float_to_uint vel (-motor.tmp.VMAX) motor.tmp.VMAX 12)
                          &&& 0xF) <<< 4)
                        ||| (to_u16 (float_to_uint kp d.KP_MIN d.KP_MAX 12) >>> 8)) % 256
              ∧ 16 ≤ to_u16 (float_to_uint kp d.KP_MIN d.KP_MAX 12) >>> 8 := by
  have ev := float_to_uint_at_min (-motor.tmp.VMAX) motor.tmp.VMAX 12
  have ek := float_to_uint_double hKP
  refine ⟨0, -motor.tmp.VMAX, d.KP_MIN + 2 * (d.KP_MAX - d.KP_MIN), d.KD_MIN, 0,
    ⟨by linarith, by linarith⟩, ⟨le_refl _, by linarith⟩, ⟨le_refl _, le_of_lt hKD⟩,
    ⟨by linarith, by linarith⟩, by linarith, by rw [ek]; norm_num,
    _, _, _, _, _, _, _, _, rfl, ?_, rfl, ?_⟩
  · rw [ev, ek]
    decide
  · rw [ek]
    decide

theorem C27_gain_overflow_witness :
    ∃ pos vel kp kd tor : ℚ,
      (-(dm_motor_init dm_sample).tmp.PMAX ≤ pos ∧ pos ≤ (dm_motor_init dm_sample).tmp.PMAX)
        ∧ (-(dm_motor_init dm_sample).tmp.VMAX ≤ vel
            ∧ vel ≤ (dm_motor_init dm_sample).tmp.VMAX)
        ∧ (dm_sample.KD_MIN ≤ kd ∧ kd ≤ dm_sample.KD_MAX)
        ∧ (-(dm_motor_init dm_sample).tmp.TMAX ≤ tor
            ∧ tor ≤ (dm_motor_init dm_sample).tmp.TMAX)
        ∧ dm_sample.KP_MAX < kp
        ∧ 4096 ≤ float_to_uint kp dm_sample.KP_MIN dm_sample.KP_MAX 12
        ∧ ∃ b0 b1 b2 b3 b4 b5 b6 b7 : Nat,
            mit_ctrl dm_sample (dm_motor_init dm_sample) 1 pos vel kp kd tor
                = [{ id := (1 + dm_sample.MIT_MODE) % 65536,
                     data := [b0, b1, b2, b3, b4, b5, b6, b7], len := 8 }]
              ∧ (((b2 <<< 4) ||| (b3 >>> 4) : Nat) : Int)
                  ≠ float_to_uint vel (-(dm_motor_init dm_sample).tmp.VMAX)
                      (dm_motor_init dm_sample).tmp.VMAX 12
              ∧ b3 = (((to_u16 (float_to_uint vel (-(dm_motor_init dm_sample).tmp.VMAX)
                            (dm_motor_init dm_sample).tmp.VMAX 12) &&& 0xF) <<< 4)
                        ||| (to_u16 (float_to_uint kp dm_sample.KP_MIN dm_sample.KP_MAX 12)
                              >>> 8)) % 256
              ∧ 16 ≤ to_u16 (float_to_uint kp dm_sample.KP_MIN dm_sample.KP_MAX 12) >>> 8 :=
  C27_gain_overflow dm_sample (dm_motor_init dm_sample) 1
    (by norm_num [dm_motor_init]) (by norm_num [dm_motor_init]) (by norm_num [dm_motor_init])
    (by norm_num [dm_sample]) (by norm_num [dm_sample])

/-! ## Binary32 rounding -/

theorem rhe_int (n : Int) : round_half_even (n : ℚ) = n := by
  unfold round_half_even
  simp

theorem rhe_err (r : ℚ) : |(round_half_even r : ℚ) - r| ≤ 1 / 2 := by
  have h1 := Int.floor_le r
  have h2 := Int.lt_floor_add_one r
  unfold round_half_even
  rw [abs_le]
  split_ifs with ha hb hc
  · constructor <;> linarith
  · push_cast; constructor <;> linarith
  · push_neg at ha hb
    constructor <;> linarith
  · push_neg at ha hb
    push_cast; constructor <;> linarith

theorem rhe_mono {r s : ℚ} (h : r ≤ s) : round_half_even r ≤ round_half_even s := by
  have rhe_le_floor_succ : ∀ (r : ℚ),
      round_half_even r ≤ ⌊r⌋ + 1 := by
    intro r
    unfold round_half_even
    split_ifs <;> omega
  have rhe_floor_le : ∀ (r : ℚ),
      ⌊r⌋ ≤ round_half_even r := by
    intro r
    unfold round_half_even
    split_ifs <;> omega
  have hf : ⌊r⌋ ≤ ⌊s⌋ := Int.floor_mono h
  rcases lt_or_eq_of_le hf with hlt | heq
  · exact le_trans (rhe_le_floor_succ r) (le_trans (by omega) (rhe_floor_le s))
  · unfold round_half_even
    rw [← heq]
    have hfr : r - ⌊r⌋ ≤ s - ⌊r⌋ := by linarith
    split_ifs <;> first | omega | (exfalso; linarith)

/-! ### The exponent -/

theorem two_zpow_pos (n : Int) : (0 : ℚ) < (2 : ℚ) ^ n := zpow_pos (by norm_num) n

theorem f32_exp_ge (q : ℚ) : -126 ≤ f32_exp q := le_max_right _ _

theorem f32_exp_lt (q : ℚ) : |q| < (2 : ℚ) ^ (f32_exp q + 1) := by
  have h := Int.lt_zpow_succ_log_self (R := ℚ) (b := 2) (by norm_num) |q|
  have h2 : ((2 : ℕ) : ℚ) ^ (Int.log 2 |q| + 1) ≤ (2 : ℚ) ^ (f32_exp q + 1) := by
    push_cast
    apply zpow_le_zpow_right₀ (by norm_num)
    have : Int.log 2 |q| ≤ f32_exp q := le_max_left _ _
    omega
  exact lt_of_lt_of_le h h2

theorem f32_exp_le {q : ℚ} (h : (2 : ℚ) ^ (-126 : Int) ≤ |q|) : (2 : ℚ) ^ f32_exp q ≤ |q| := by
  have hpos : 0 < |q| := lt_of_lt_of_le (two_zpow_pos _) h
  have h1 : (-126 : Int) ≤ Int.log 2 |q| := by
    rw [← Int.zpow_le_iff_le_log (by norm_num) hpos]
    exact_mod_cast h
  have he : f32_exp q = Int.log 2 |q| := max_eq_left h1
  rw [he]
  have := Int.zpow_log_le_self (R := ℚ) (b := 2) (by norm_num) hpos
  exact_mod_cast this

theorem f32_exp_eq {q : ℚ} {e : Int} (h1 : (2 : ℚ) ^ e ≤ |q|) (h2 : |q| < (2 : ℚ) ^ (e + 1))
    (h3 : -126 ≤ e) : f32_exp q = e := by
  have hpos : 0 < |q| := lt_of_lt_of_le (two_zpow_pos _) h1
  have a : e ≤ Int.log 2 |q| := by
    rw [← Int.zpow_le_iff_le_log (by norm_num) hpos]
    exact_mod_cast h1
  have b : Int.log 2 |q| < e + 1 := by
    rw [← Int.lt_zpow_iff_log_lt (by norm_num) hpos]
    exact_mod_cast h2
  unfold f32_exp
  rw [max_eq_left (by omega)]
  omega

theorem f32_exp_sub {q : ℚ} (hq : q ≠ 0) (h : |q| < (2 : ℚ) ^ (-126 : Int)) :
    f32_exp q = -126 := by
  have hpos : 0 < |q| := abs_pos.mpr hq
  have b : Int.log 2 |q| < -126 := by
    rw [← Int.lt_zpow_iff_log_lt (by norm_num) hpos]
    exact_mod_cast h
  unfold f32_exp
  exact max_eq_right (by omega)

/-! ### Rounding -/

theorem f32_round_zero : f32_round 0 = 0 := by
  simp [f32_round, round_half_even]

/-- The rounding error is at most half a unit in the last place. -/
theorem f32_round_err (q : ℚ) :
    |f32_round q - q| ≤ (2 : ℚ) ^ (f32_exp q - 23) / 2 := by
  have hu := two_zpow_pos (f32_exp q - 23)
  have h := rhe_err (q / (2 : ℚ) ^ (f32_exp q - 23))
  unfold f32_round
  have e : (round_half_even (q / (2 : ℚ) ^ (f32_exp q - 23)) : ℚ) * (2 : ℚ) ^ (f32_exp q - 23) - q
      = ((round_half_even (q / (2 : ℚ) ^ (f32_exp q - 23)) : ℚ)
          - q / (2 : ℚ) ^ (f32_exp q - 23)) * (2 : ℚ) ^ (f32_exp q - 23) := by
    field_simp
  rw [e, abs_mul, abs_of_pos hu]
  calc _ ≤ 1 / 2 * (2 : ℚ) ^ (f32_exp q - 23) := mul_le_mul_of_nonneg_right h (le_of_lt hu)
    _ = (2 : ℚ) ^ (f32_exp q - 23) / 2 := by ring

/-- In the normal range the rounding error is at most `2^-24` relative. -/
theorem f32_round_rel {q : ℚ} (h : (2 : ℚ) ^ (-126 : Int) ≤ |q|) :
    |f32_round q - q| ≤ (2 : ℚ) ^ (-24 : Int) * |q| := by
  have h1 := f32_round_err q
  have h2 := f32_exp_le h
  have e : (2 : ℚ) ^ (f32_exp q - 23) / 2 = (2 : ℚ) ^ (-24 : Int) * (2 : ℚ) ^ f32_exp q := by
    rw [show f32_exp q - 23 = f32_exp q + (-23) by ring, zpow_add₀ (by norm_num)]
    norm_num
    ring
  rw [e] at h1
  calc _ ≤ (2 : ℚ) ^ (-24 : Int) * (2 : ℚ) ^ f32_exp q := h1
    _ ≤ (2 : ℚ) ^ (-24 : Int) * |q| := mul_le_mul_of_nonneg_left h2 (le_of_lt (two_zpow_pos _))

/-- A value `k * 2^E` with a 24-bit `k` and `E ≥ -149` is a fixed point of the
rounding. -/
theorem f32_round_fix {q : ℚ} {k E : Int} (hk : |k| < 2 ^ 24) (hE : -149 ≤ E)
    (hq : q = (k : ℚ) * (2 : ℚ) ^ E) : f32_round q = q := by
  by_cases h0 : q = 0
  · rw [h0, f32_round_zero]
  have hpos : 0 < |q| := abs_pos.mpr h0
  have hlt : |q| < (2 : ℚ) ^ (E + 24) := by
    rw [hq, abs_mul, abs_of_pos (two_zpow_pos E), zpow_add₀ (by norm_num), mul_comm]
    apply mul_lt_mul_of_pos_left _ (two_zpow_pos E)
    have : |(k : ℚ)| < ((2 ^ 24 : Int) : ℚ) := by
      rw [← Int.cast_abs]; exact_mod_cast hk
    have h24 : (2 : ℚ) ^ (24 : Int) = ((2 ^ 24 : Int) : ℚ) := by norm_num
    rw [h24]
    exact this
  have hlog : Int.log 2 |q| < E + 24 := by
    rw [← Int.lt_zpow_iff_log_lt (by norm_num) hpos]
    exact_mod_cast hlt
  have he : f32_exp q ≤ E + 23 := by
    unfold f32_exp
    exact max_le (by omega) (by omega)
  obtain ⟨m, hm⟩ : ∃ m : ℕ, E = f32_exp q - 23 + (m : Int) :=
    ⟨(E - (f32_exp q - 23)).toNat, by omega⟩
  have hdiv : q / (2 : ℚ) ^ (f32_exp q - 23) = ((k * 2 ^ m : Int) : ℚ) := by
    have hu := two_zpow_pos (f32_exp q - 23)
    generalize f32_exp q = e at hm hu ⊢
    rw [hq, hm, zpow_add₀ (by norm_num), zpow_natCast]
    field_simp
    ring
  unfold f32_round
  rw [hdiv, rhe_int, ← hdiv]
  have := two_zpow_pos (f32_exp q - 23)
  field_simp

theorem ulp_mul_24 (e : Int) : (2 : ℚ) ^ (24 : Int) * (2 : ℚ) ^ (e - 23) = (2 : ℚ) ^ (e + 1) := by
  rw [← zpow_add₀ (by norm_num)]
  congr 1
  ring

theorem ulp_mul_23 (e : Int) : (2 : ℚ) ^ (23 : Int) * (2 : ℚ) ^ (e - 23) = (2 : ℚ) ^ e := by
  rw [← zpow_add₀ (by norm_num)]
  congr 1
  ring

theorem f32_round_nonneg {q : ℚ} (h : 0 ≤ q) : 0 ≤ f32_round q := by
  have hu := two_zpow_pos (f32_exp q - 23)
  have hq : ((0 : Int) : ℚ) ≤ q / (2 : ℚ) ^ (f32_exp q - 23) := by
    simpa using div_nonneg h (le_of_lt hu)
  have hr := rhe_mono hq
  rw [rhe_int] at hr
  unfold f32_round
  exact mul_nonneg (by exact_mod_cast hr) (le_of_lt hu)

/-- Rounding is monotone. -/
theorem f32_round_mono {q r : ℚ} (h : q ≤ r) : f32_round q ≤ f32_round r := by
  -- Among non-zero values the exponent grows with the magnitude.
  have f32_exp_mono : ∀ {q r : ℚ} (hq : q ≠ 0) (h : |q| ≤ |r|),
      f32_exp q ≤ f32_exp r := by
    intro q r hq h
    have hpos : 0 < |q| := abs_pos.mpr hq
    unfold f32_exp
    exact max_le_max (Int.log_mono_right hpos h) (le_refl _)
  have f32_exp_le_of_gt : ∀ {q : ℚ} (h0 : q ≠ 0) (h : -126 < f32_exp q),
      (2 : ℚ) ^ f32_exp q ≤ |q| := by
    intro q h0 h
    apply f32_exp_le
    by_contra hc
    push_neg at hc
    rw [f32_exp_sub h0 hc] at h
    omega
  have f32_round_le_pow : ∀ (q : ℚ),
      f32_round q ≤ (2 : ℚ) ^ (f32_exp q + 1) := by
    intro q
    have hu := two_zpow_pos (f32_exp q - 23)
    have hlt := f32_exp_lt q
    have hq : q / (2 : ℚ) ^ (f32_exp q - 23) ≤ (((2 : Int) ^ 24 : Int) : ℚ) := by
      rw [div_le_iff₀ hu]
      have := ulp_mul_24 (f32_exp q)
      have h24 : (((2 : Int) ^ 24 : Int) : ℚ) = (2 : ℚ) ^ (24 : Int) := by norm_num
      rw [h24, this]
      exact le_of_lt (lt_of_le_of_lt (le_abs_self q) hlt)
    have hr := rhe_mono hq
    rw [rhe_int] at hr
    unfold f32_round
    have hr' : (round_half_even (q / (2 : ℚ) ^ (f32_exp q - 23)) : ℚ) ≤ (2 : ℚ) ^ (24 : Int) := by
      have : (round_half_even (q / (2 : ℚ) ^ (f32_exp q - 23)) : ℚ) ≤ (((2 : Int) ^ 24 : Int) : ℚ) := by
        exact_mod_cast hr
      have h24 : (((2 : Int) ^ 24 : Int) : ℚ) = (2 : ℚ) ^ (24 : Int) := by norm_num
      rw [← h24]
      exact this
    calc _ ≤ (2 : ℚ) ^ (24 : Int) * (2 : ℚ) ^ (f32_exp q - 23) :=
          mul_le_mul_of_nonneg_right hr' (le_of_lt hu)
      _ = _ := ulp_mul_24 _
  have f32_round_ge_neg_pow : ∀ (q : ℚ),
      -(2 : ℚ) ^ (f32_exp q + 1) ≤ f32_round q := by
    intro q
    have hu := two_zpow_pos (f32_exp q - 23)
    have hlt := f32_exp_lt q
    have hq : ((-(2 : Int) ^ 24 : Int) : ℚ) ≤ q / (2 : ℚ) ^ (f32_exp q - 23) := by
      rw [le_div_iff₀ hu]
      have := ulp_mul_24 (f32_exp q)
      have h24 : ((-(2 : Int) ^ 24 : Int) : ℚ) = -(2 : ℚ) ^ (24 : Int) := by norm_num
      rw [h24, neg_mul, this]
      have := neg_abs_le q
      linarith
    have hr := rhe_mono hq
    rw [rhe_int] at hr
    unfold f32_round
    have hr' : -(2 : ℚ) ^ (24 : Int) ≤ (round_half_even (q / (2 : ℚ) ^ (f32_exp q - 23)) : ℚ) := by
      have : ((-(2 : Int) ^ 24 : Int) : ℚ) ≤ (round_half_even (q / (2 : ℚ) ^ (f32_exp q - 23)) : ℚ) := by
        exact_mod_cast hr
      have h24 : ((-(2 : Int) ^ 24 : Int) : ℚ) = -(2 : ℚ) ^ (24 : Int) := by norm_num
      rw [← h24]
      exact this
    calc -(2 : ℚ) ^ (f32_exp q + 1) = -(2 : ℚ) ^ (24 : Int) * (2 : ℚ) ^ (f32_exp q - 23) := by
          rw [neg_mul, ulp_mul_24]
      _ ≤ _ := mul_le_mul_of_nonneg_right hr' (le_of_lt hu)
  have f32_round_ge_pow : ∀ {q : ℚ} (h : (2 : ℚ) ^ f32_exp q ≤ q),
      (2 : ℚ) ^ f32_exp q ≤ f32_round q := by
    intro q h
    have hu := two_zpow_pos (f32_exp q - 23)
    have hq : (((2 : Int) ^ 23 : Int) : ℚ) ≤ q / (2 : ℚ) ^ (f32_exp q - 23) := by
      rw [le_div_iff₀ hu]
      have h23 : (((2 : Int) ^ 23 : Int) : ℚ) = (2 : ℚ) ^ (23 : Int) := by norm_num
      rw [h23, ulp_mul_23]
      exact h
    have hr := rhe_mono hq
    rw [rhe_int] at hr
    unfold f32_round
    have hr' : (2 : ℚ) ^ (23 : Int) ≤ (round_half_even (q / (2 : ℚ) ^ (f32_exp q - 23)) : ℚ) := by
      have : (((2 : Int) ^ 23 : Int) : ℚ) ≤ (round_half_even (q / (2 : ℚ) ^ (f32_exp q - 23)) : ℚ) := by
        exact_mod_cast hr
      have h23 : (((2 : Int) ^ 23 : Int) : ℚ) = (2 : ℚ) ^ (23 : Int) := by norm_num
      rw [← h23]
      exact this
    calc (2 : ℚ) ^ f32_exp q = (2 : ℚ) ^ (23 : Int) * (2 : ℚ) ^ (f32_exp q - 23) :=
          (ulp_mul_23 _).symm
      _ ≤ _ := mul_le_mul_of_nonneg_right hr' (le_of_lt hu)
  have f32_round_le_neg_pow : ∀ {q : ℚ} (h : q ≤ -(2 : ℚ) ^ f32_exp q),
      f32_round q ≤ -(2 : ℚ) ^ f32_exp q := by
    intro q h
    have hu := two_zpow_pos (f32_exp q - 23)
    have hq : q / (2 : ℚ) ^ (f32_exp q - 23) ≤ ((-(2 : Int) ^ 23 : Int) : ℚ) := by
      rw [div_le_iff₀ hu]
      have h23 : ((-(2 : Int) ^ 23 : Int) : ℚ) = -(2 : ℚ) ^ (23 : Int) := by norm_num
      rw [h23, neg_mul, ulp_mul_23]
      exact h
    have hr := rhe_mono hq
    rw [rhe_int] at hr
    unfold f32_round
    have hr' : (round_half_even (q / (2 : ℚ) ^ (f32_exp q - 23)) : ℚ) ≤ -(2 : ℚ) ^ (23 : Int) := by
      have : (round_half_even (q / (2 : ℚ) ^ (f32_exp q - 23)) : ℚ) ≤ ((-(2 : Int) ^ 23 : Int) : ℚ) := by
        exact_mod_cast hr
      have h23 : ((-(2 : Int) ^ 23 : Int) : ℚ) = -(2 : ℚ) ^ (23 : Int) := by norm_num
      rw [← h23]
      exact this
    calc _ ≤ -(2 : ℚ) ^ (23 : Int) * (2 : ℚ) ^ (f32_exp q - 23) :=
          mul_le_mul_of_nonneg_right hr' (le_of_lt hu)
      _ = _ := by rw [neg_mul, ulp_mul_23]
  have f32_round_nonpos : ∀ {q : ℚ} (h : q ≤ 0),
      f32_round q ≤ 0 := by
    intro q h
    have hu := two_zpow_pos (f32_exp q - 23)
    have hq : q / (2 : ℚ) ^ (f32_exp q - 23) ≤ ((0 : Int) : ℚ) := by
      simpa using div_nonpos_of_nonpos_of_nonneg h (le_of_lt hu)
    have hr := rhe_mono hq
    rw [rhe_int] at hr
    unfold f32_round
    exact mul_nonpos_of_nonpos_of_nonneg (by exact_mod_cast hr) (le_of_lt hu)
  rcases lt_trichotomy q 0 with hq | hq | hq
  · rcases lt_or_le r 0 with hr | hr
    · -- both negative
      have habs : |r| ≤ |q| := by
        rw [abs_of_neg hr, abs_of_neg hq]; linarith
      have hexp := f32_exp_mono (ne_of_lt hr) habs
      rcases lt_or_eq_of_le hexp with hlt | heq
      · have h1 : -126 < f32_exp q := lt_of_le_of_lt (f32_exp_ge r) hlt
        have h2 := f32_exp_le_of_gt (ne_of_lt hq) h1
        rw [abs_of_neg hq] at h2
        have h3 := f32_round_le_neg_pow (q := q) (by linarith)
        have h4 := f32_round_ge_neg_pow r
        have h5 : (2 : ℚ) ^ (f32_exp r + 1) ≤ (2 : ℚ) ^ f32_exp q :=
          zpow_le_zpow_right₀ (by norm_num) (by omega)
        linarith
      · unfold f32_round
        rw [heq]
        have hu := two_zpow_pos (f32_exp q - 23)
        apply mul_le_mul_of_nonneg_right _ (le_of_lt hu)
        have := rhe_mono (div_le_div_of_nonneg_right h (le_of_lt hu))
        exact_mod_cast this
    · exact le_trans (f32_round_nonpos (le_of_lt hq)) (f32_round_nonneg hr)
  · rw [hq, f32_round_zero]
    exact f32_round_nonneg (by linarith)
  · have hr : 0 < r := lt_of_lt_of_le hq h
    have habs : |q| ≤ |r| := by
      rw [abs_of_pos hr, abs_of_pos hq]; exact h
    have hexp := f32_exp_mono (ne_of_gt hq) habs
    rcases lt_or_eq_of_le hexp with hlt | heq
    · have h1 : -126 < f32_exp r := lt_of_le_of_lt (f32_exp_ge q) hlt
      have h2 := f32_exp_le_of_gt (ne_of_gt hr) h1
      rw [abs_of_pos hr] at h2
      have h3 := f32_round_ge_pow h2
      have h4 := f32_round_le_pow q
      have h5 : (2 : ℚ) ^ (f32_exp q + 1) ≤ (2 : ℚ) ^ f32_exp r :=
        zpow_le_zpow_right₀ (by norm_num) (by omega)
      linarith
    · unfold f32_round
      rw [heq]
      have hu := two_zpow_pos (f32_exp r - 23)
      apply mul_le_mul_of_nonneg_right _ (le_of_lt hu)
      have := rhe_mono (div_le_div_of_nonneg_right h (le_of_lt hu))
      exact_mod_cast this

/-! ### Finite binary32 values -/

theorem is_f32_fix {q : ℚ} (h : is_f32 q) : f32_round q = q := by
  obtain ⟨k, E, hk, hE, _, hq⟩ := h
  exact f32_round_fix hk hE hq

theorem f32_of_f32 {q : ℚ} (h : is_f32 q) : f32_of q = some q := by
  have is_f32_le_max : ∀ {q : ℚ} (h : is_f32 q),
      |q| ≤ f32_max := by
    intro q h
    obtain ⟨k, E, hk, _, hE, hq⟩ := h
    have hk' : |(k : ℚ)| ≤ 2 ^ 24 - 1 := by
      have : |k| ≤ 2 ^ 24 - 1 := by omega
      have h2 : ((|k| : Int) : ℚ) ≤ ((2 ^ 24 - 1 : Int) : ℚ) := by exact_mod_cast this
      rw [Int.cast_abs] at h2
      have e : ((2 ^ 24 - 1 : Int) : ℚ) = 2 ^ 24 - 1 := by norm_num
      rw [e] at h2
      exact h2
    have hp : (2 : ℚ) ^ E ≤ (2 : ℚ) ^ (104 : Int) := zpow_le_zpow_right₀ (by norm_num) hE
    rw [hq, abs_mul, abs_of_pos (two_zpow_pos E)]
    unfold f32_max
    have h104 : (2 : ℚ) ^ (104 : Int) = 2 ^ 104 := by norm_num
    rw [h104] at hp
    exact mul_le_mul hk' hp (le_of_lt (two_zpow_pos E)) (by norm_num)
  unfold f32_of
  rw [is_f32_fix h, if_pos (is_f32_le_max h)]

theorem is_f32_neg {q : ℚ} (h : is_f32 q) : is_f32 (-q) := by
  obtain ⟨k, E, hk, h1, h2, hq⟩ := h
  exact ⟨-k, E, by rwa [abs_neg], h1, h2, by rw [hq]; push_cast; ring⟩

theorem is_f32_int {n : Int} (h : |n| < 2 ^ 24) : is_f32 (n : ℚ) :=
  ⟨n, 0, h, by norm_num, by norm_num, by simp⟩

/-- A finite binary32 value is a multiple of `2^-149`. -/
theorem is_f32_grid {q : ℚ} (h : is_f32 q) : ∃ j : Int, q = (j : ℚ) * (2 : ℚ) ^ (-149 : Int) := by
  obtain ⟨k, E, _, h1, _, hq⟩ := h
  obtain ⟨m, hm⟩ : ∃ m : ℕ, E = -149 + (m : Int) := ⟨(E + 149).toNat, by omega⟩
  refine ⟨k * 2 ^ m, ?_⟩
  rw [hq, hm, zpow_add₀ (by norm_num), zpow_natCast]
  push_cast
  ring

/-- Every rounded value is a multiple of `2^-149`. -/
theorem f32_round_grid (q : ℚ) : ∃ j : Int, f32_round q = (j : ℚ) * (2 : ℚ) ^ (-149 : Int) := by
  obtain ⟨m, hm⟩ : ∃ m : ℕ, f32_exp q - 23 = -149 + (m : Int) :=
    ⟨(f32_exp q - 23 + 149).toNat, by have := f32_exp_ge q; omega⟩
  refine ⟨round_half_even (q / (2 : ℚ) ^ (f32_exp q - 23)) * 2 ^ m, ?_⟩
  unfold f32_round
  generalize round_half_even (q / (2 : ℚ) ^ (f32_exp q - 23)) = R
  rw [hm, zpow_add₀ (by norm_num), zpow_natCast]
  push_cast
  ring

/-- On the grid of multiples of `2^-149` (sums, differences and integer
multiples of binary32 values) the rounding error is at most `2^-24` relative:
a result in the subnormal range is exact. -/
theorem f32_round_grid_rel {q : ℚ} (h : ∃ j : Int, q = (j : ℚ) * (2 : ℚ) ^ (-149 : Int)) :
    |f32_round q - q| ≤ (2 : ℚ) ^ (-24 : Int) * |q| := by
  by_cases hn : (2 : ℚ) ^ (-126 : Int) ≤ |q|
  · exact f32_round_rel hn
  · push_neg at hn
    obtain ⟨j, hj⟩ := h
    have hj' : |j| < 2 ^ 24 := by
      rw [hj, abs_mul, abs_of_pos (two_zpow_pos _)] at hn
      have h1 : |(j : ℚ)| < (2 : ℚ) ^ (23 : Int) := by
        have e : (2 : ℚ) ^ (-126 : Int) = (2 : ℚ) ^ (23 : Int) * (2 : ℚ) ^ (-149 : Int) := by
          rw [← zpow_add₀ (by norm_num)]; norm_num
        rw [e] at hn
        exact lt_of_mul_lt_mul_right hn (le_of_lt (two_zpow_pos _))
      have h2 : ((|j| : Int) : ℚ) < ((2 ^ 23 : Int) : ℚ) := by
        rw [Int.cast_abs]
        have h23 : ((2 ^ 23 : Int) : ℚ) = (2 : ℚ) ^ (23 : Int) := by norm_num
        rw [h23]
        exact h1
      have h3 : |j| < 2 ^ 23 := by exact_mod_cast h2
      omega
    rw [f32_round_fix hj' (by norm_num) hj, sub_self, abs_zero]
    exact mul_nonneg (le_of_lt (two_zpow_pos _)) (abs_nonneg _)

/-! ### Evaluating the rounding at a given value -/

theorem f32_round_eval {q : ℚ} {e k : Int} (h1 : (2 : ℚ) ^ e ≤ |q|)
    (h2 : |q| < (2 : ℚ) ^ (e + 1)) (h3 : -126 ≤ e)
    (hk : |q / (2 : ℚ) ^ (e - 23) - k| < 1 / 2) :
    f32_round q = (k : ℚ) * (2 : ℚ) ^ (e - 23) := by
  have rhe_eq_of_near : ∀ {r : ℚ} {k : Int} (h : |r - k| < 1 / 2),
      round_half_even r = k := by
    intro r k h
    rw [abs_lt] at h
    have e1 := rhe_err r
    rw [abs_le] at e1
    have : ((round_half_even r : Int) : ℚ) < (k : ℚ) + 1 := by linarith
    have h2 : ((k : Int) : ℚ) - 1 < (round_half_even r : ℚ) := by linarith
    have a : round_half_even r < k + 1 := by exact_mod_cast this
    have b : k - 1 < round_half_even r := by exact_mod_cast h2
    omega
  unfold f32_round
  rw [f32_exp_eq h1 h2 h3, rhe_eq_of_near hk]

theorem f32_round_eval_tie {q : ℚ} {e k : Int} (h1 : (2 : ℚ) ^ e ≤ |q|)
    (h2 : |q| < (2 : ℚ) ^ (e + 1)) (h3 : -126 ≤ e) (hk : k % 2 = 0)
    (ht : q / (2 : ℚ) ^ (e - 23) = k - 1 / 2 ∨ q / (2 : ℚ) ^ (e - 23) = k + 1 / 2) :
    f32_round q = (k : ℚ) * (2 : ℚ) ^ (e - 23) := by
  have rhe_tie_down : ∀ {r : ℚ} {k : Int} (h : r = k + 1 / 2) (hk : k % 2 = 0),
      round_half_even r = k := by
    intro r k h hk
    have hf : ⌊r⌋ = k := by
      rw [Int.floor_eq_iff]; constructor <;> linarith
    unfold round_half_even
    rw [hf, h]
    have h1 : ¬ ((k : ℚ) + 1 / 2 - (k : ℚ) < 1 / 2) := by norm_num
    have h2 : ¬ ((1 : ℚ) / 2 < (k : ℚ) + 1 / 2 - (k : ℚ)) := by norm_num
    rw [if_neg h1, if_neg h2, if_pos hk]
  have rhe_tie_up : ∀ {r : ℚ} {k : Int} (h : r = k - 1 / 2) (hk : k % 2 = 0),
      round_half_even r = k := by
    intro r k h hk
    have hf : ⌊r⌋ = k - 1 := by
      rw [Int.floor_eq_iff]; push_cast; constructor <;> linarith
    unfold round_half_even
    rw [hf]
    push_cast
    rw [h]
    have h1 : ¬ ((k : ℚ) - 1 / 2 - ((k : ℚ) - 1) < 1 / 2) := by norm_num
    have h2 : ¬ ((1 : ℚ) / 2 < (k : ℚ) - 1 / 2 - ((k : ℚ) - 1)) := by norm_num
    rw [if_neg h1, if_neg h2]
    split_ifs <;> omega
  unfold f32_round
  rw [f32_exp_eq h1 h2 h3]
  rcases ht with ht | ht
  · rw [rhe_tie_up ht hk]
  · rw [rhe_tie_down ht hk]

/-! ### Error and overflow bounds for one operation -/

/-- The rounding error of any result: `2^-24` relative, or `2^-150` absolute
in the subnormal range. -/
theorem f32_round_abs_rel (q : ℚ) :
    |f32_round q - q| ≤ (2 : ℚ) ^ (-24 : Int) * |q| + (2 : ℚ) ^ (-150 : Int) := by
  by_cases hn : (2 : ℚ) ^ (-126 : Int) ≤ |q|
  · have := f32_round_rel hn
    have := two_zpow_pos (-150)
    linarith
  · push_neg at hn
    by_cases h0 : q = 0
    · rw [h0, f32_round_zero]
      simp
      positivity
    · have h1 := f32_round_err q
      rw [f32_exp_sub h0 hn] at h1
      have e : (2 : ℚ) ^ ((-126 : Int) - 23) / 2 = (2 : ℚ) ^ (-150 : Int) := by norm_num
      rw [e] at h1
      have : 0 ≤ (2 : ℚ) ^ (-24 : Int) * |q| :=
        mul_nonneg (le_of_lt (two_zpow_pos _)) (abs_nonneg _)
      linarith

/-- A result of magnitude at most `2^127` does not overflow. -/
theorem f32_of_some {q : ℚ} (h : |q| ≤ (2 : ℚ) ^ (127 : Int)) :
    f32_of q = some (f32_round q) := by
  have two_pow_127_fix : f32_round ((2 : ℚ) ^ (127 : Int)) = (2 : ℚ) ^ (127 : Int) := by
    exact f32_round_fix (k := 1) (E := 127) (by norm_num) (by norm_num) (by simp)
  have neg_two_pow_127_fix : f32_round (-(2 : ℚ) ^ (127 : Int)) = -(2 : ℚ) ^ (127 : Int) := by
    exact f32_round_fix (k := -1) (E := 127) (by norm_num) (by norm_num) (by simp)
  rw [abs_le] at h
  have h1 := f32_round_mono h.2
  have h2 := f32_round_mono h.1
  rw [two_pow_127_fix] at h1
  rw [neg_two_pow_127_fix] at h2
  have hm : (2 : ℚ) ^ (127 : Int) ≤ f32_max := by
    unfold f32_max
    norm_num
  unfold f32_of
  rw [if_pos]
  rw [abs_le]
  constructor <;> linarith

theorem grid_sub {a b : ℚ} (ha : ∃ j : Int, a = (j : ℚ) * (2 : ℚ) ^ (-149 : Int))
    (hb : ∃ j : Int, b = (j : ℚ) * (2 : ℚ) ^ (-149 : Int)) :
    ∃ j : Int, a - b = (j : ℚ) * (2 : ℚ) ^ (-149 : Int) := by
  obtain ⟨i, hi⟩ := ha
  obtain ⟨j, hj⟩ := hb
  exact ⟨i - j, by rw [hi, hj]; push_cast; ring⟩

theorem grid_mul_int {a : ℚ} (ha : ∃ j : Int, a = (j : ℚ) * (2 : ℚ) ^ (-149 : Int)) (n : Int) :
    ∃ j : Int, a * (n : ℚ) = (j : ℚ) * (2 : ℚ) ^ (-149 : Int) := by
  obtain ⟨i, hi⟩ := ha
  exact ⟨i * n, by rw [hi]; push_cast; ring⟩

/-! ### Accuracy of the scaled value -/

theorem u24 : (2 : ℚ) ^ (-24 : Int) = 1 / 16777216 := by norm_num

theorem levels_ge_one {bits : Nat} (hb : 1 ≤ bits) : (1 : ℚ) ≤ (2 : ℚ) ^ bits - 1 := by
  have h : (2 : ℚ) ^ 1 ≤ (2 : ℚ) ^ bits := pow_le_pow_right₀ (by norm_num) hb
  norm_num at h
  linarith

theorem levels_le {bits : Nat} (hb : bits ≤ 16) : (2 : ℚ) ^ bits - 1 ≤ 65535 := by
  have h : (2 : ℚ) ^ bits ≤ (2 : ℚ) ^ 16 := pow_le_pow_right₀ (by norm_num) hb
  norm_num at h
  linarith

/-- The span `x_max - x_min` in binary32: positive and within `2^-24`
relative of the exact span. -/
theorem span_f32 {x_min x_max : ℚ}
    (hmin : ∃ j : Int, x_min = (j : ℚ) * (2 : ℚ) ^ (-149 : Int))
    (hmax : ∃ j : Int, x_max = (j : ℚ) * (2 : ℚ) ^ (-149 : Int)) (hmm : x_min < x_max) :
    0 < f32_round (x_max - x_min)
      ∧ |f32_round (x_max - x_min) - (x_max - x_min)| ≤ 1 / 16777216 * (x_max - x_min) := by
  -- A positive multiple of `2^-149` rounds to a positive value.
  have f32_round_pos_of_grid : ∀ {q : ℚ} (hq : 0 < q) (h : ∃ j : Int, q = (j : ℚ) * (2 : ℚ) ^ (-149 : Int)),
      0 < f32_round q := by
    intro q hq h
    obtain ⟨j, hj⟩ := h
    have hp := two_zpow_pos (-149)
    have hj1 : 1 ≤ j := by
      by_contra hc
      have : (j : ℚ) ≤ 0 := by exact_mod_cast (by omega : j ≤ 0)
      have := mul_nonpos_of_nonpos_of_nonneg this (le_of_lt hp)
      linarith
    have hle : (2 : ℚ) ^ (-149 : Int) ≤ q := by
      rw [hj]
      have : (1 : ℚ) ≤ (j : ℚ) := by exact_mod_cast hj1
      nlinarith
    have hfix : f32_round ((2 : ℚ) ^ (-149 : Int)) = (2 : ℚ) ^ (-149 : Int) :=
      f32_round_fix (k := 1) (E := -149) (by norm_num) (by norm_num) (by simp)
    have := f32_round_mono hle
    rw [hfix] at this
    linarith
  have hS : 0 < x_max - x_min := by linarith
  have hg := grid_sub hmax hmin
  refine ⟨f32_round_pos_of_grid hS hg, ?_⟩
  have := f32_round_grid_rel hg
  rw [u24, abs_of_pos hS] at this
  exact this

/-- The scaled value computed in binary32 against the exact scaled value
`v = (x - x_min) * (2^bits - 1) / (x_max - x_min)`: within `2^-21 * |v|` plus
`2^-150`. -/
theorem enc_scaled_err {x x_min x_max : ℚ} {bits : Nat}
    (hx : ∃ j : Int, x = (j : ℚ) * (2 : ℚ) ^ (-149 : Int))
    (hmin : ∃ j : Int, x_min = (j : ℚ) * (2 : ℚ) ^ (-149 : Int))
    (hmax : ∃ j : Int, x_max = (j : ℚ) * (2 : ℚ) ^ (-149 : Int))
    (hmm : x_min < x_max) (hb : 1 ≤ bits) :
    |enc_scaled_f32 x x_min x_max bits - (x - x_min) * ((2 : ℚ) ^ bits - 1) / (x_max - x_min)|
      ≤ 1 / 2097152 * |(x - x_min) * ((2 : ℚ) ^ bits - 1) / (x_max - x_min)|
        + (2 : ℚ) ^ (-150 : Int) := by
  have hN := levels_ge_one hb
  obtain ⟨hs0, hs⟩ := span_f32 hmin hmax hmm
  have hS : 0 < x_max - x_min := by linarith only [hmm]
  have ht := f32_round_grid_rel (grid_sub hx hmin)
  obtain ⟨lv, hlv⟩ : ∃ lv : Int, ((lv : Int) : ℚ) = (2 : ℚ) ^ bits - 1 :=
    ⟨2 ^ bits - 1, by push_cast; ring⟩
  have hp := f32_round_grid_rel (grid_mul_int (f32_round_grid (x - x_min)) lv)
  rw [hlv] at hp
  have hq := f32_round_abs_rel
    (f32_round (f32_round (x - x_min) * ((2 : ℚ) ^ bits - 1)) / f32_round (x_max - x_min))
  rw [u24] at ht hp hq
  unfold enc_scaled_f32
  generalize f32_round (f32_round (f32_round (x - x_min) * ((2 : ℚ) ^ bits - 1))
      / f32_round (x_max - x_min)) = q at hq ⊢
  generalize f32_round (f32_round (x - x_min) * ((2 : ℚ) ^ bits - 1)) = p at hp hq ⊢
  generalize f32_round (x - x_min) = t at ht hp
  generalize f32_round (x_max - x_min) = s at hs0 hs hq
  generalize x_max - x_min = S at hS hs ⊢
  generalize x - x_min = T at ht ⊢
  generalize (2 : ℚ) ^ bits - 1 = N at hN hp hq ⊢
  generalize (2 : ℚ) ^ (-150 : Int) = η at hq ⊢
  -- magnitudes
  have hN0 : 0 < N := by linarith only [hN]
  have hA : 0 ≤ |T| * N := mul_nonneg (abs_nonneg _) (le_of_lt hN0)
  have habsv : |T * N / S| = |T| * N / S := by
    rw [abs_div, abs_mul, abs_of_pos hN0, abs_of_pos hS]
  have htabs : |t| ≤ (1 + 1 / 16777216) * |T| := by
    have := abs_sub_abs_le_abs_sub t T
    linarith only [this, ht]
  have hpT : |p - T * N| ≤ (2 / 16777216 + 1 / 16777216 ^ 2) * (|T| * N) := by
    have e : p - T * N = (p - t * N) + (t - T) * N := by ring
    have h1 : |t * N| = |t| * N := by rw [abs_mul, abs_of_pos hN0]
    have h2 : |(t - T) * N| = |t - T| * N := by rw [abs_mul, abs_of_pos hN0]
    have h3 := abs_add (p - t * N) ((t - T) * N)
    rw [e]
    rw [h1] at hp
    rw [h2] at h3
    have h4 : |t| * N ≤ (1 + 1 / 16777216) * |T| * N :=
      mul_le_mul_of_nonneg_right htabs (le_of_lt hN0)
    have h5 : |t - T| * N ≤ 1 / 16777216 * |T| * N :=
      mul_le_mul_of_nonneg_right ht (le_of_lt hN0)
    linarith only [h3, hp, h4, h5]
  have hsl : (1 - 1 / 16777216) * S ≤ s := by
    rw [abs_le] at hs
    linarith only [hs.1]
  -- the quotient before its rounding
  have hws : |p / s - T * N / S| * s ≤ (3 / 16777216 + 1 / 16777216 ^ 2) * (|T| * N) := by
    have e : (p / s - T * N / S) * s = (p - T * N) + T * N * ((S - s) / S) := by
      field_simp
      ring
    have h1 : |p / s - T * N / S| * s = |(p / s - T * N / S) * s| := by
      rw [abs_mul, abs_of_pos hs0]
    rw [h1, e]
    have h2 := abs_add (p - T * N) (T * N * ((S - s) / S))
    have h3 : |T * N * ((S - s) / S)| ≤ |T| * N * (1 / 16777216) := by
      rw [abs_mul, abs_mul, abs_of_pos hN0, abs_div, abs_of_pos hS]
      apply mul_le_mul_of_nonneg_left _ hA
      rw [div_le_iff₀ hS, abs_sub_comm]
      exact hs
    linarith only [h2, hpT, h3]
  have hwv : |p / s - T * N / S| ≤ 4 / 16777216 * (|T| * N / S) := by
    have h1 : |p / s - T * N / S| * ((1 - 1 / 16777216) * S)
        ≤ (3 / 16777216 + 1 / 16777216 ^ 2) * (|T| * N) :=
      le_trans (mul_le_mul_of_nonneg_left hsl (abs_nonneg _)) hws
    rw [← mul_div_assoc, le_div_iff₀ hS]
    linarith only [h1, hA]
  have hw : |p / s| ≤ |T| * N / S + |p / s - T * N / S| := by
    have := abs_sub_abs_le_abs_sub (p / s) (T * N / S)
    rw [habsv] at this
    linarith only [this]
  have hfin : |q - T * N / S| ≤ |q - p / s| + |p / s - T * N / S| := by
    have e : q - T * N / S = (q - p / s) + (p / s - T * N / S) := by ring
    rw [e]
    exact abs_add _ _
  rw [habsv]
  have hv0 : 0 ≤ |T| * N / S := div_nonneg hA (le_of_lt hS)
  linarith only [hfin, hq, hw, hwv, hv0]

theorem f32_round_abs_le_pow {q : ℚ} {k : Int} (hk : -149 ≤ k) (h : |q| ≤ (2 : ℚ) ^ k) :
    |f32_round q| ≤ (2 : ℚ) ^ k := by
  have f1 : f32_round ((2 : ℚ) ^ k) = (2 : ℚ) ^ k :=
    f32_round_fix (k := 1) (E := k) (by norm_num) hk (by simp)
  have f2 : f32_round (-(2 : ℚ) ^ k) = -(2 : ℚ) ^ k :=
    f32_round_fix (k := -1) (E := k) (by norm_num) hk (by simp)
  rw [abs_le] at h ⊢
  have h1 := f32_round_mono h.2
  have h2 := f32_round_mono h.1
  rw [f1] at h1
  rw [f2] at h2
  exact ⟨h2, h1⟩

/-- The value `uint_to_float` computes in binary32 for `0 ≤ n ≤ 2^bits - 1`
against the exact decoding `Y = x_min + n * (x_max - x_min) / (2^bits - 1)`:
within `2^-24 * |Y| + 5 * 2^-24 * (x_max - x_min) + 2^-149`. -/
theorem dec_value_err {x_min x_max : ℚ} {bits : Nat} {n : Int}
    (hmin : ∃ j : Int, x_min = (j : ℚ) * (2 : ℚ) ^ (-149 : Int))
    (hmax : ∃ j : Int, x_max = (j : ℚ) * (2 : ℚ) ^ (-149 : Int))
    (hmm : x_min < x_max) (hb : 1 ≤ bits) (hn0 : 0 ≤ n) (hnN : (n : ℚ) ≤ (2 : ℚ) ^ bits - 1) :
    |dec_value_f32 n x_min x_max bits
        - (x_min + (n : ℚ) * (x_max - x_min) / ((2 : ℚ) ^ bits - 1))|
      ≤ 1 / 16777216 * |x_min + (n : ℚ) * (x_max - x_min) / ((2 : ℚ) ^ bits - 1)|
        + 5 / 16777216 * (x_max - x_min) + (2 : ℚ) ^ (-149 : Int) := by
  have grid_add : ∀ {a b : ℚ} (ha : ∃ j : Int, a = (j : ℚ) * (2 : ℚ) ^ (-149 : Int)) (hb : ∃ j : Int, b = (j : ℚ) * (2 : ℚ) ^ (-149 : Int)),
      ∃ j : Int, a + b = (j : ℚ) * (2 : ℚ) ^ (-149 : Int) := by
    intro a b ha hb
    obtain ⟨i, hi⟩ := ha
    obtain ⟨j, hj⟩ := hb
    exact ⟨i + j, by rw [hi, hj]; push_cast; ring⟩
  have hN := levels_ge_one hb
  obtain ⟨hs0, hs⟩ := span_f32 hmin hmax hmm
  have hS : 0 < x_max - x_min := by linarith only [hmm]
  have hm := f32_round_grid_rel (by
    have := grid_mul_int (f32_round_grid (x_max - x_min)) n
    rwa [mul_comm] at this :
      ∃ j : Int, (n : ℚ) * f32_round (x_max - x_min) = (j : ℚ) * (2 : ℚ) ^ (-149 : Int))
  have hr := f32_round_abs_rel
    (f32_round ((n : ℚ) * f32_round (x_max - x_min)) / ((2 : ℚ) ^ bits - 1))
  have hy := f32_round_grid_rel (grid_add
    (f32_round_grid (f32_round ((n : ℚ) * f32_round (x_max - x_min)) / ((2 : ℚ) ^ bits - 1)))
    hmin)
  have hη : (2 : ℚ) ^ (-149 : Int) = 2 * (2 : ℚ) ^ (-150 : Int) := by norm_num
  have hη0 := two_zpow_pos (-150)
  rw [u24] at hm hr hy
  rw [hη]
  unfold dec_value_f32
  have hnq : (0 : ℚ) ≤ (n : ℚ) := by exact_mod_cast hn0
  generalize f32_round (f32_round (f32_round ((n : ℚ) * f32_round (x_max - x_min))
      / ((2 : ℚ) ^ bits - 1)) + x_min) = y at hy ⊢
  generalize f32_round (f32_round ((n : ℚ) * f32_round (x_max - x_min))
      / ((2 : ℚ) ^ bits - 1)) = r at hr hy
  generalize f32_round ((n : ℚ) * f32_round (x_max - x_min)) = m at hm hr
  generalize f32_round (x_max - x_min) = s at hs0 hs hm
  generalize x_max - x_min = S at hS hs ⊢
  generalize (2 : ℚ) ^ bits - 1 = N at hN hnN hr ⊢
  generalize (n : ℚ) = k at hnq hnN hm ⊢
  generalize (2 : ℚ) ^ (-150 : Int) = η at hr hη0 ⊢
  have hN0 : 0 < N := by linarith only [hN]
  rw [abs_le] at hs
  have hks : |k * s| = k * s := abs_of_nonneg (mul_nonneg hnq (le_of_lt hs0))
  rw [hks] at hm
  -- m against k * S
  have hmS : |m - k * S| ≤ (2 / 16777216 + 1 / 16777216 ^ 2) * (k * S) := by
    have e : m - k * S = (m - k * s) + k * (s - S) := by ring
    rw [e]
    have h1 := abs_add (m - k * s) (k * (s - S))
    have h2 : |k * (s - S)| ≤ k * (1 / 16777216 * S) := by
      rw [abs_mul, abs_of_nonneg hnq]
      exact mul_le_mul_of_nonneg_left (abs_le.mpr hs) hnq
    have h3 : k * s ≤ k * ((1 + 1 / 16777216) * S) :=
      mul_le_mul_of_nonneg_left (by linarith only [hs.2]) hnq
    linarith only [h1, hm, h2, h3]
  have hkS : 0 ≤ k * S := mul_nonneg hnq (le_of_lt hS)
  have hkSN : k * S / N ≤ S := by
    rw [div_le_iff₀ hN0]
    linarith only [mul_le_mul_of_nonneg_right hnN (le_of_lt hS)]
  have hw : |m / N - k * S / N| ≤ (2 / 16777216 + 1 / 16777216 ^ 2) * (k * S / N) := by
    have e : m / N - k * S / N = (m - k * S) / N := by ring
    rw [e, abs_div, abs_of_pos hN0, ← mul_div_assoc]
    exact div_le_div_of_nonneg_right hmS (le_of_lt hN0)
  have hwabs : |m / N| ≤ k * S / N + |m / N - k * S / N| := by
    have := abs_sub_abs_le_abs_sub (m / N) (k * S / N)
    rw [abs_of_nonneg (div_nonneg hkS (le_of_lt hN0))] at this
    linarith only [this]
  have hrY : |r - k * S / N| ≤ 4 / 16777216 * S + η := by
    have e : r - k * S / N = (r - m / N) + (m / N - k * S / N) := by ring
    rw [e]
    have h1 := abs_add (r - m / N) (m / N - k * S / N)
    have h0 : 0 ≤ k * S / N := div_nonneg hkS (le_of_lt hN0)
    linarith only [h1, hr, hwabs, hw, hkSN, h0]
  have hrmin : |r + x_min| ≤ |x_min + k * S / N| + |r - k * S / N| := by
    have e : r + x_min = (x_min + k * S / N) + (r - k * S / N) := by ring
    rw [e]
    exact abs_add _ _
  have hfin : |y - (x_min + k * S / N)| ≤ |y - (r + x_min)| + |r - k * S / N| := by
    have e : y - (x_min + k * S / N) = (y - (r + x_min)) + (r - k * S / N) := by ring
    rw [e]
    exact abs_add _ _
  have hY0 := abs_nonneg (x_min + k * S / N)
  linarith only [hy, hrmin, hfin, hrY, hS, hη0]

/-! ## The codec in binary32: results without overflow -/

theorem f32_of_round_some {q : ℚ} (h : |f32_round q| ≤ (2 : ℚ) ^ (127 : Int)) :
    f32_of q = some (f32_round q) := by
  unfold f32_of
  rw [if_pos]
  refine le_trans h ?_
  unfold f32_max
  norm_num

theorem levels_is_f32 {bits : Nat} (hb : bits ≤ 16) : is_f32 ((2 : ℚ) ^ bits - 1) := by
  have h : (2 : Int) ^ bits ≤ 2 ^ 16 := pow_le_pow_right₀ (by norm_num) hb
  have h1 : (1 : Int) ≤ 2 ^ bits := one_le_pow₀ (by norm_num)
  have := is_f32_int (n := 2 ^ bits - 1) (by rw [abs_lt]; constructor <;> omega)
  simpa using this

theorem pow_le_127 {k : Int} (hk : k ≤ 127) : (2 : ℚ) ^ k ≤ (2 : ℚ) ^ (127 : Int) :=
  zpow_le_zpow_right₀ (by norm_num) hk

/-- Under magnitude bounds no intermediate result of `float_to_uint`
overflows: the outcome is the `(int)` conversion of the rounded quotient. -/
theorem float_to_uint_f32_eq {x x_min x_max : ℚ} {bits : Nat}
    (hx : |x| ≤ (2 : ℚ) ^ (101 : Int)) (hmin : |x_min| ≤ (2 : ℚ) ^ (100 : Int))
    (hmax : |x_max| ≤ (2 : ℚ) ^ (100 : Int))
    (hs : f32_round (x_max - x_min) ≠ 0) (hb : bits ≤ 16) :
    float_to_uint_f32 x x_min x_max bits
      = (f32_of (f32_round (f32_round (x - x_min) * ((2 : ℚ) ^ bits - 1))
            / f32_round (x_max - x_min))).bind c_int_cast_f32 := by
  have e101 : (2 : ℚ) ^ (101 : Int) = 2 * (2 : ℚ) ^ (100 : Int) := by norm_num
  have e102 : (2 : ℚ) ^ (102 : Int) = 4 * (2 : ℚ) ^ (100 : Int) := by norm_num
  have e118 : (2 : ℚ) ^ (118 : Int) = 65536 * (2 : ℚ) ^ (102 : Int) := by norm_num
  have hS : |x_max - x_min| ≤ (2 : ℚ) ^ (127 : Int) := by
    refine le_trans ?_ (pow_le_127 (k := 101) (by norm_num))
    rw [e101]
    have := abs_sub x_max x_min
    linarith
  have hT : |x - x_min| ≤ (2 : ℚ) ^ (102 : Int) := by
    rw [e102]
    have := abs_sub x x_min
    rw [e101] at hx
    linarith
  have ht := f32_round_abs_le_pow (by norm_num) hT
  have hN := levels_le hb
  have hN0 : (0 : ℚ) ≤ (2 : ℚ) ^ bits - 1 := by
    have : (1 : ℚ) ≤ (2 : ℚ) ^ bits := one_le_pow₀ (by norm_num)
    linarith
  have hP : |f32_round (x - x_min) * ((2 : ℚ) ^ bits - 1)| ≤ (2 : ℚ) ^ (127 : Int) := by
    refine le_trans ?_ (pow_le_127 (k := 118) (by norm_num))
    rw [abs_mul, abs_of_nonneg hN0, e118]
    have h0 := mul_le_mul ht hN hN0 (le_of_lt (two_zpow_pos 102))
    linarith [two_zpow_pos 102]
  unfold float_to_uint_f32 f32_sub f32_mul f32_div int_to_f32
  rw [levels_cast, f32_of_f32 (levels_is_f32 hb), f32_of_some hS]
  simp only [Option.some_bind]
  rw [f32_of_some (le_trans hT (pow_le_127 (by norm_num)))]
  simp only [Option.some_bind]
  rw [f32_of_some hP]
  simp only [Option.some_bind]
  rw [if_neg hs]

/-- Under magnitude bounds `uint_to_float` yields a finite value for every
code `0 ≤ n ≤ 2^bits - 1`. -/
theorem uint_to_float_f32_eq {x_min x_max : ℚ} {bits : Nat} {n : Int}
    (hmin : |x_min| ≤ (2 : ℚ) ^ (100 : Int)) (hmax : |x_max| ≤ (2 : ℚ) ^ (100 : Int))
    (hb1 : 1 ≤ bits) (hb : bits ≤ 16) (hn0 : 0 ≤ n) (hnN : (n : ℚ) ≤ (2 : ℚ) ^ bits - 1) :
    uint_to_float_f32 n x_min x_max bits = some (dec_value_f32 n x_min x_max bits) := by
  have e101 : (2 : ℚ) ^ (101 : Int) = 2 * (2 : ℚ) ^ (100 : Int) := by norm_num
  have e117 : (2 : ℚ) ^ (117 : Int) = 65536 * (2 : ℚ) ^ (101 : Int) := by norm_num
  have e118 : (2 : ℚ) ^ (118 : Int) = 2 * (2 : ℚ) ^ (117 : Int) := by norm_num
  have e117b : (2 : ℚ) ^ (117 : Int) = 131072 * (2 : ℚ) ^ (100 : Int) := by norm_num
  have hN := levels_le hb
  have hN1 := levels_ge_one hb1
  have hnq : (0 : ℚ) ≤ (n : ℚ) := by exact_mod_cast hn0
  have hS : |x_max - x_min| ≤ (2 : ℚ) ^ (101 : Int) := by
    rw [e101]
    have := abs_sub x_max x_min
    linarith
  have hs := f32_round_abs_le_pow (by norm_num) hS
  have hn24 : |n| < 2 ^ 24 := by
    have h1 : (n : ℚ) ≤ ((65535 : Int) : ℚ) := by
      push_cast
      linarith
    have h2 : n ≤ 65535 := by exact_mod_cast h1
    rw [abs_lt]
    constructor <;> omega
  have hM : |(n : ℚ) * f32_round (x_max - x_min)| ≤ (2 : ℚ) ^ (117 : Int) := by
    rw [abs_mul, abs_of_nonneg hnq, e117]
    have h0 := mul_le_mul (le_trans hnN hN) hs (abs_nonneg _) (by norm_num)
    linarith [two_zpow_pos 101]
  have hm := f32_round_abs_le_pow (by norm_num) hM
  have hR : |f32_round ((n : ℚ) * f32_round (x_max - x_min)) / ((2 : ℚ) ^ bits - 1)|
      ≤ (2 : ℚ) ^ (117 : Int) := by
    rw [abs_div, abs_of_pos (by linarith : (0 : ℚ) < (2 : ℚ) ^ bits - 1)]
    refine le_trans (div_le_self (abs_nonneg _) hN1) hm
  have hr := f32_round_abs_le_pow (by norm_num) hR
  have hY : |f32_round (f32_round ((n : ℚ) * f32_round (x_max - x_min)) / ((2 : ℚ) ^ bits - 1))
      + x_min| ≤ (2 : ℚ) ^ (118 : Int) := by
    refine le_trans (abs_add _ _) ?_
    rw [e118]
    rw [e117b] at hr ⊢
    have := two_zpow_pos 100
    linarith
  unfold uint_to_float_f32 dec_value_f32 f32_sub f32_mul f32_div f32_add int_to_f32
  rw [levels_cast, f32_of_f32 (levels_is_f32 hb), f32_of_f32 (is_f32_int hn24),
    f32_of_some (le_trans hS (pow_le_127 (by norm_num)))]
  simp only [Option.some_bind]
  rw [f32_of_some (le_trans hM (pow_le_127 (by norm_num)))]
  simp only [Option.some_bind]
  rw [if_neg (by linarith : ¬ ((2 : ℚ) ^ bits - 1 = 0)),
    f32_of_some (le_trans hR (pow_le_127 (by norm_num)))]
  simp only [Option.some_bind]
  rw [f32_of_some (le_trans hY (pow_le_127 (by norm_num)))]

/-! ## Claims about the codec in binary32 arithmetic -/

/-- The frame `psi_ctrl` sends in binary32 arithmetic when both scaled values
are in `[0, 65535]`. -/
theorem psi_ctrl_f32_frame (F : f32_repr) (d : dm_defs) (motor_id : Nat) (pos vel cur : ℚ)
    (hv0 : 0 ≤ vel * 100) (hv1 : vel * 100 ≤ 65535)
    (hc0 : 0 ≤ cur * 10000) (hc1 : cur * 10000 ≤ 65535) :
    psi_ctrl_f32 F d motor_id pos vel cur
        = some [{ id := (motor_id + d.PSI_MODE) % 65536,
                  data := [F.bits pos % 256, F.bits pos / 256 % 256, F.bits pos / 65536 % 256,
                           F.bits pos / 16777216 % 256,
                           ⌊f32_round (vel * 100)⌋.toNat % 256,
                           ⌊f32_round (vel * 100)⌋.toNat / 256,
                           ⌊f32_round (cur * 10000)⌋.toNat % 256,
                           ⌊f32_round (cur * 10000)⌋.toNat / 256],
                  len := 8 }]
      ∧ (⌊f32_round (vel * 100)⌋ = ⌊vel * 100⌋ ∨ ⌊f32_round (vel * 100)⌋ = ⌊vel * 100⌋ + 1)
      ∧ (⌊f32_round (cur * 10000)⌋ = ⌊cur * 10000⌋
          ∨ ⌊f32_round (cur * 10000)⌋ = ⌊cur * 10000⌋ + 1) := by
  -- A product in `[0, 65535]` converts to `uint16_t` as the floor of its
  -- binary32 rounding, which is the floor of the exact product or one more.
  have u16_cast_f32_round : ∀ {q : ℚ} (h0 : 0 ≤ q) (h1 : q ≤ 65535),
      (f32_of q).bind c_u16_cast_f32 = some ⌊f32_round q⌋.toNat
      ∧ 0 ≤ ⌊f32_round q⌋ ∧ ⌊f32_round q⌋ ≤ 65535
      ∧ (⌊f32_round q⌋ = ⌊q⌋ ∨ ⌊f32_round q⌋ = ⌊q⌋ + 1) := by
    intro q h0 h1
    have hk0 : 0 ≤ ⌊q⌋ := Int.floor_nonneg.mpr h0
    have hk1 : ⌊q⌋ ≤ 65535 := by
      have : ⌊q⌋ ≤ ⌊(65535 : ℚ)⌋ := Int.floor_mono h1
      simpa using this
    have hfk : f32_round ((⌊q⌋ : Int) : ℚ) = ((⌊q⌋ : Int) : ℚ) :=
      is_f32_fix (is_f32_int (by rw [abs_lt]; constructor <;> omega))
    have hfk1 : f32_round (((⌊q⌋ + 1 : Int)) : ℚ) = (((⌊q⌋ + 1 : Int)) : ℚ) :=
      is_f32_fix (is_f32_int (by rw [abs_lt]; constructor <;> omega))
    have hf65 : f32_round (((65535 : Int)) : ℚ) = (((65535 : Int)) : ℚ) :=
      is_f32_fix (is_f32_int (by norm_num))
    have hlo : ((⌊q⌋ : Int) : ℚ) ≤ f32_round q := by
      have := f32_round_mono (Int.floor_le q)
      rwa [hfk] at this
    have hhi : f32_round q ≤ (((⌊q⌋ + 1 : Int)) : ℚ) := by
      have := f32_round_mono (le_of_lt (Int.lt_floor_add_one q))
      rw [← hfk1]
      exact_mod_cast this
    have hhi2 : f32_round q ≤ 65535 := by
      have := f32_round_mono (show q ≤ (((65535 : Int)) : ℚ) by exact_mod_cast h1)
      rw [hf65] at this
      exact_mod_cast this
    have hr0 : 0 ≤ f32_round q := f32_round_nonneg h0
    have hq127 : |q| ≤ (2 : ℚ) ^ (127 : Int) := by
      rw [abs_of_nonneg h0]
      refine le_trans h1 ?_
      norm_num
    have hfl0 : 0 ≤ ⌊f32_round q⌋ := Int.floor_nonneg.mpr hr0
    have hfl1 : ⌊f32_round q⌋ ≤ 65535 := by
      have : ⌊f32_round q⌋ ≤ ⌊(65535 : ℚ)⌋ := Int.floor_mono hhi2
      simpa using this
    refine ⟨?_, hfl0, hfl1, ?_⟩
    · rw [f32_of_some hq127]
      simp only [Option.some_bind]
      unfold c_u16_cast_f32
      rw [if_pos ⟨by linarith, by linarith⟩, c_int_cast_of_nonneg hr0]
    · have a1 : ⌊q⌋ ≤ ⌊f32_round q⌋ := Int.le_floor.mpr hlo
      have a2 : ⌊f32_round q⌋ ≤ ⌊q⌋ + 1 := by
        have : ⌊f32_round q⌋ ≤ ⌊(((⌊q⌋ + 1 : Int)) : ℚ)⌋ := Int.floor_mono hhi
        rwa [Int.floor_intCast] at this
      omega
  obtain ⟨ev, hv0', hv1', hv⟩ := u16_cast_f32_round hv0 hv1
  obtain ⟨ec, hc0', hc1', hc⟩ := u16_cast_f32_round hc0 hc1
  refine ⟨?_, hv, hc⟩
  have hvh : (⌊f32_round (vel * 100)⌋.toNat >>> 8) % 256
      = ⌊f32_round (vel * 100)⌋.toNat / 256 := by
    rw [Nat.shiftRight_eq_div_pow]; omega
  have hch : (⌊f32_round (cur * 10000)⌋.toNat >>> 8) % 256
      = ⌊f32_round (cur * 10000)⌋.toNat / 256 := by
    rw [Nat.shiftRight_eq_div_pow]; omega
  unfold psi_ctrl_f32 f32_mul
  rw [ev, ec]
  simp only [Option.some_bind, fdcanx_send_data, f32_bytes_div, hvh, hch]
  rfl

/-- C19 (position-speed-current scaling) in binary32 arithmetic: for `0 ≤
vel*100 ≤ 65535` and `0 ≤ cur*10000 ≤ 65535`, `psi_ctrl` sends one 8-byte
frame to `motor_id + PSI_MODE` (a `uint16_t` sum) with the little-endian
bytes of the 32-bit representation of pos in bytes 0..3, the low and high
byte of `nv` in bytes 4, 5 and of `nc` in bytes 6, 7, where `nv` is the
floor of the binary32 product `vel*100` and `nc` that of `cur*10000`; each
is the floor of the exact product or one more. -/
theorem C19_psi_scaling_binary32 (F : f32_repr) (d : dm_defs) (motor_id : Nat)
    (pos vel cur : ℚ)
    (hv0 : 0 ≤ vel * 100) (hv1 : vel * 100 ≤ 65535)
    (hc0 : 0 ≤ cur * 10000) (hc1 : cur * 10000 ≤ 65535) :
    psi_ctrl_f32 F d motor_id pos vel cur
        = some [{ id := (motor_id + d.PSI_MODE) % 65536,
                  data := [F.bits pos % 256, F.bits pos / 256 % 256, F.bits pos / 65536 % 256,
                           F.bits pos / 16777216 % 256,
                           ⌊f32_round (vel * 100)⌋.toNat % 256,
                           ⌊f32_round (vel * 100)⌋.toNat / 256,
                           ⌊f32_round (cur * 10000)⌋.toNat % 256,
                           ⌊f32_round (cur * 10000)⌋.toNat / 256],
                  len := 8 }]
      ∧ (⌊f32_round (vel * 100)⌋ = ⌊vel * 100⌋ ∨ ⌊f32_round (vel * 100)⌋ = ⌊vel * 100⌋ + 1)
      ∧ (⌊f32_round (cur * 10000)⌋ = ⌊cur * 10000⌋
          ∨ ⌊f32_round (cur * 10000)⌋ = ⌊cur * 10000⌋ + 1) :=
  psi_ctrl_f32_frame F d motor_id pos vel cur hv0 hv1 hc0 hc1

/-- C19 as written fails in binary32 arithmetic: for the binary32 value `vel =
671703/4096` (about 163.99) the exact product `vel*100` has floor 16398, yet
the frame carries 16399 (bytes `0x0F`, `0x40`); and for the binary32 value
`vel = 5368709/8192` (655.36 rounded to binary32) the exact product is below
65536 while the binary32 product is 65536, whose conversion to `uint16_t` is
undefined. -/
theorem C19_psi_rounding_counterexample :
    is_f32 (671703 / 4096) ∧ ⌊(671703 / 4096 : ℚ) * 100⌋ = 16398
      ∧ (∃ b0 b1 b2 b3 : Nat,
          psi_ctrl_f32 f32_table dm_sample 1 1 (671703 / 4096) (1 / 64)
            = some [{ id := (1 + dm_sample.PSI_MODE) % 65536,
                      data := [b0, b1, b2, b3, 16399 % 256, 16399 / 256, 156 % 256, 156 / 256],
                      len := 8 }])
      ∧ is_f32 (5368709 / 8192) ∧ (0 : ℚ) ≤ (5368709 / 8192 : ℚ) * 100
      ∧ (5368709 / 8192 : ℚ) * 100 < 65536
      ∧ psi_ctrl_f32 f32_table dm_sample 1 1 (5368709 / 8192) (1 / 64) = none := by
  have round_vel_16399 : f32_round ((671703 / 4096 : ℚ) * 100) = 16399 := by
    have h := f32_round_eval_tie (q := (671703 / 4096 : ℚ) * 100) (e := 14) (k := 8396288)
      (by norm_num [abs_of_nonneg]) (by norm_num [abs_of_nonneg]) (by norm_num) (by norm_num)
      (Or.inl (by norm_num))
    rw [h]
    norm_num
  have round_vel_65536 : f32_round ((5368709 / 8192 : ℚ) * 100) = 65536 := by
    have h := f32_round_eval (q := (5368709 / 8192 : ℚ) * 100) (e := 15) (k := 16777216)
      (by norm_num [abs_of_nonneg]) (by norm_num [abs_of_nonneg]) (by norm_num)
      (by norm_num [abs_lt])
    rw [h]
    norm_num
  have round_cur_156 : f32_round ((1 / 64 : ℚ) * 10000) = 625 / 4 := by
    rw [f32_round_fix (k := 625) (E := -2) (by norm_num) (by norm_num) (by norm_num)]
    norm_num
  refine ⟨⟨671703, -12, by norm_num, by norm_num, by norm_num, by norm_num⟩, ?_, ?_,
    ⟨5368709, -13, by norm_num, by norm_num, by norm_num, by norm_num⟩, by norm_num,
    by norm_num, ?_⟩
  · rw [Int.floor_eq_iff]
    constructor <;> norm_num
  · have h := (psi_ctrl_f32_frame f32_table dm_sample 1 1 (671703 / 4096) (1 / 64)
      (by norm_num) (by norm_num) (by norm_num) (by norm_num)).1
    rw [round_vel_16399, round_cur_156] at h
    have e1 : ⌊(16399 : ℚ)⌋ = 16399 := by
      rw [Int.floor_eq_iff]; constructor <;> norm_num
    have e2 : ⌊(625 / 4 : ℚ)⌋ = 156 := by
      rw [Int.floor_eq_iff]; constructor <;> norm_num
    rw [e1, e2] at h
    exact ⟨_, _, _, _, h⟩
  · unfold psi_ctrl_f32 f32_mul
    rw [f32_of_some (by rw [abs_of_nonneg] <;> norm_num), round_vel_65536]
    simp [c_u16_cast_f32]

theorem C19_psi_scaling_binary32_witness :
    psi_ctrl_f32 f32_table dm_sample 1 1 (671703 / 4096) (1 / 64)
        = some [{ id := (1 + dm_sample.PSI_MODE) % 65536,
                  data := [f32_table.bits 1 % 256, f32_table.bits 1 / 256 % 256,
                           f32_table.bits 1 / 65536 % 256, f32_table.bits 1 / 16777216 % 256,
                           ⌊f32_round ((671703 / 4096 : ℚ) * 100)⌋.toNat % 256,
                           ⌊f32_round ((671703 / 4096 : ℚ) * 100)⌋.toNat / 256,
                           ⌊f32_round ((1 / 64 : ℚ) * 10000)⌋.toNat % 256,
                           ⌊f32_round ((1 / 64 : ℚ) * 10000)⌋.toNat / 256],
                  len := 8 }]
      ∧ (⌊f32_round ((671703 / 4096 : ℚ) * 100)⌋ = ⌊(671703 / 4096 : ℚ) * 100⌋
          ∨ ⌊f32_round ((671703 / 4096 : ℚ) * 100)⌋ = ⌊(671703 / 4096 : ℚ) * 100⌋ + 1)
      ∧ (⌊f32_round ((1 / 64 : ℚ) * 10000)⌋ = ⌊(1 / 64 : ℚ) * 10000⌋
          ∨ ⌊f32_round ((1 / 64 : ℚ) * 10000)⌋ = ⌊(1 / 64 : ℚ) * 10000⌋ + 1) :=
  C19_psi_scaling_binary32 f32_table dm_sample 1 1 (671703 / 4096) (1 / 64)
    (by norm_num) (by norm_num) (by norm_num) (by norm_num)

/-- The decoded value is computed from its four roundings. -/
theorem dec_value_eval {n : Int} {x_min x_max : ℚ} {bits : Nat} {s m r y : ℚ}
    (hs : f32_round (x_max - x_min) = s) (hm : f32_round ((n : ℚ) * s) = m)
    (hr : f32_round (m / ((2 : ℚ) ^ bits - 1)) = r) (hy : f32_round (r + x_min) = y) :
    dec_value_f32 n x_min x_max bits = y := by
  unfold dec_value_f32
  rw [hs, hm, hr, hy]

/-- The binary32 decoding never falls below a binary32 lower limit. -/
theorem dec_value_ge_min {x_min x_max : ℚ} {bits : Nat} {n : Int}
    (fmin : is_f32 x_min) (hmm : x_min ≤ x_max) (hb : 1 ≤ bits) (hn0 : 0 ≤ n) :
    x_min ≤ dec_value_f32 n x_min x_max bits := by
  have hN := levels_ge_one hb
  have hnq : (0 : ℚ) ≤ (n : ℚ) := by exact_mod_cast hn0
  have hs : 0 ≤ f32_round (x_max - x_min) := f32_round_nonneg (by linarith)
  have hm : 0 ≤ f32_round ((n : ℚ) * f32_round (x_max - x_min)) :=
    f32_round_nonneg (mul_nonneg hnq hs)
  have hr : 0 ≤ f32_round (f32_round ((n : ℚ) * f32_round (x_max - x_min))
      / ((2 : ℚ) ^ bits - 1)) :=
    f32_round_nonneg (div_nonneg hm (by linarith))
  have := f32_round_mono (show x_min ≤ f32_round (f32_round ((n : ℚ) * f32_round (x_max - x_min))
      / ((2 : ℚ) ^ bits - 1)) + x_min by linarith)
  rw [is_f32_fix fmin] at this
  exact this

/-- The exact decoding of a code `0 ≤ n ≤ 2^bits - 1` lies in the range. -/
theorem dec_exact_in_range {x_min x_max : ℚ} {bits : Nat} {n : Int} (hmm : x_min < x_max)
    (hb : 1 ≤ bits) (hn0 : 0 ≤ n) (hnN : (n : ℚ) ≤ (2 : ℚ) ^ bits - 1) :
    x_min ≤ x_min + (n : ℚ) * (x_max - x_min) / ((2 : ℚ) ^ bits - 1)
      ∧ x_min + (n : ℚ) * (x_max - x_min) / ((2 : ℚ) ^ bits - 1) ≤ x_max := by
  have hN := levels_ge_one hb
  have hN0 : (0 : ℚ) < (2 : ℚ) ^ bits - 1 := by linarith only [hN]
  have hnq : (0 : ℚ) ≤ (n : ℚ) := by exact_mod_cast hn0
  have hSp : 0 < x_max - x_min := by linarith only [hmm]
  constructor
  · have : 0 ≤ (n : ℚ) * (x_max - x_min) / ((2 : ℚ) ^ bits - 1) :=
      div_nonneg (mul_nonneg hnq (le_of_lt hSp)) (le_of_lt hN0)
    linarith only [this]
  · have : (n : ℚ) * (x_max - x_min) / ((2 : ℚ) ^ bits - 1) ≤ x_max - x_min := by
      rw [div_le_iff₀ hN0]
      linarith only [mul_le_mul_of_nonneg_right hnN (le_of_lt hSp)]
    linarith only [this]

/-- The record `dm_motor_fbdata` leaves in binary32 arithmetic for limits of
magnitude at most `2^100`: every decoded quantity is finite. -/
theorem fbdata_f32_eq (motor : motor_t) (b0 b1 b2 b3 b4 b5 b6 b7 : Nat)
    (h1 : b1 < 256) (h2 : b2 < 256) (h3 : b3 < 256) (h4 : b4 < 256) (h5 : b5 < 256)
    (bP : |motor.tmp.PMAX| ≤ (2 : ℚ) ^ (100 : Int))
    (bV : |motor.tmp.VMAX| ≤ (2 : ℚ) ^ (100 : Int))
    (bT : |motor.tmp.TMAX| ≤ (2 : ℚ) ^ (100 : Int)) :
    ∃ m : motor_t, dm_motor_fbdata_f32 motor [b0, b1, b2, b3, b4, b5, b6, b7] = some m
      ∧ m.para.pos
          = dec_value_f32 (((b1 <<< 8) ||| b2 : Nat) : Int) (-motor.tmp.PMAX) motor.tmp.PMAX 16
      ∧ m.para.vel
          = dec_value_f32 (((b3 <<< 4) ||| (b4 >>> 4) : Nat) : Int)
              (-motor.tmp.VMAX) motor.tmp.VMAX 12
      ∧ m.para.tor
          = dec_value_f32 ((((b4 &&& 0xF) <<< 8) ||| b5 : Nat) : Int)
              (-motor.tmp.TMAX) motor.tmp.TMAX 12 := by
  obtain ⟨rp, rv, rt⟩ := fb_raw_bounds b1 b2 b3 b4 b5 h1 h2 h3 h4 h5
  have ep := @uint_to_float_f32_eq (-motor.tmp.PMAX) motor.tmp.PMAX 16
    (((b1 <<< 8) ||| b2 : Nat) : Int)
    (by rwa [abs_neg]) bP (by norm_num) (by norm_num) (by exact_mod_cast Nat.zero_le _)
    (by
      have : ((((b1 <<< 8) ||| b2 : Nat) : Int) : ℚ) ≤ ((65535 : Nat) : ℚ) := by
        exact_mod_cast (by omega : ((b1 <<< 8) ||| b2) ≤ 65535)
      norm_num at this ⊢
      exact this)
  have ev := @uint_to_float_f32_eq (-motor.tmp.VMAX) motor.tmp.VMAX 12
    (((b3 <<< 4) ||| (b4 >>> 4) : Nat) : Int)
    (by rwa [abs_neg]) bV (by norm_num) (by norm_num) (by exact_mod_cast Nat.zero_le _)
    (by
      have : ((((b3 <<< 4) ||| (b4 >>> 4) : Nat) : Int) : ℚ) ≤ ((4095 : Nat) : ℚ) := by
        exact_mod_cast (by omega : ((b3 <<< 4) ||| (b4 >>> 4)) ≤ 4095)
      norm_num at this ⊢
      exact this)
  have et := @uint_to_float_f32_eq (-motor.tmp.TMAX) motor.tmp.TMAX 12
    ((((b4 &&& 0xF) <<< 8) ||| b5 : Nat) : Int)
    (by rwa [abs_neg]) bT (by norm_num) (by norm_num) (by exact_mod_cast Nat.zero_le _)
    (by
      have : (((((b4 &&& 0xF) <<< 8) ||| b5 : Nat) : Int) : ℚ) ≤ ((4095 : Nat) : ℚ) := by
        exact_mod_cast (by omega : (((b4 &&& 0xF) <<< 8) ||| b5) ≤ 4095)
      norm_num at this ⊢
      exact this)
  unfold dm_motor_fbdata_f32
  simp only [List.getD_cons_zero, List.getD_cons_succ]
  rw [ep, ev, et]
  exact ⟨_, rfl, rfl, rfl, rfl⟩

/-- C26 (decoded feedback against the limits) in binary32 arithmetic: for an
8-byte frame and a motor whose limits PMAX, VMAX, TMAX are binary32 values
in `(0, 2^100]`, `dm_motor_fbdata` stores finite decoded values with `-PMAX
≤ pos`, `-VMAX ≤ vel`, `-TMAX ≤ tor`, each above its limit `L` by at most `L
/ 2^20 + 2^-149`. -/
theorem C26_feedback_limits_binary32 (motor : motor_t) (b0 b1 b2 b3 b4 b5 b6 b7 : Nat)
    (h1 : b1 < 256) (h2 : b2 < 256) (h3 : b3 < 256) (h4 : b4 < 256) (h5 : b5 < 256)
    (fP : is_f32 motor.tmp.PMAX) (fV : is_f32 motor.tmp.VMAX) (fT : is_f32 motor.tmp.TMAX)
    (hP : 0 < motor.tmp.PMAX) (hV : 0 < motor.tmp.VMAX) (hT : 0 < motor.tmp.TMAX)
    (bP : motor.tmp.PMAX ≤ (2 : ℚ) ^ (100 : Int)) (bV : motor.tmp.VMAX ≤ (2 : ℚ) ^ (100 : Int))
    (bT : motor.tmp.TMAX ≤ (2 : ℚ) ^ (100 : Int)) :
    ∃ m : motor_t, dm_motor_fbdata_f32 motor [b0, b1, b2, b3, b4, b5, b6, b7] = some m
      ∧ (-motor.tmp.PMAX ≤ m.para.pos
          ∧ m.para.pos ≤ motor.tmp.PMAX + motor.tmp.PMAX / 1048576 + (2 : ℚ) ^ (-149 : Int))
      ∧ (-motor.tmp.VMAX ≤ m.para.vel
          ∧ m.para.vel ≤ motor.tmp.VMAX + motor.tmp.VMAX / 1048576 + (2 : ℚ) ^ (-149 : Int))
      ∧ (-motor.tmp.TMAX ≤ m.para.tor
          ∧ m.para.tor ≤ motor.tmp.TMAX + motor.tmp.TMAX / 1048576 + (2 : ℚ) ^ (-149 : Int)) := by
  -- Decoding over a symmetric range `[-L, L]` in binary32: never below `-L`,
  -- and above `L` by at most `L / 2^20 + 2^-149`.
  have dec_sym_bounds : ∀ {L : ℚ} {bits : Nat} {n : Int} (fL : is_f32 L) (hL : 0 < L) (hb : 1 ≤ bits) (hn0 : 0 ≤ n) (hnN : (n : ℚ) ≤ (2 : ℚ) ^ bits - 1),
      -L ≤ dec_value_f32 n (-L) L bits
      ∧ dec_value_f32 n (-L) L bits ≤ L + L / 1048576 + (2 : ℚ) ^ (-149 : Int) := by
    intro L bits n fL hL hb hn0 hnN
    have hLL : -L < L := by linarith only [hL]
    refine ⟨dec_value_ge_min (is_f32_neg fL) (le_of_lt hLL) hb hn0, ?_⟩
    have h := dec_value_err (is_f32_grid (is_f32_neg fL)) (is_f32_grid fL) hLL hb hn0 hnN
    obtain ⟨hY0, hY1⟩ := dec_exact_in_range hLL hb hn0 hnN
    have hYa : |-L + (n : ℚ) * (L - -L) / ((2 : ℚ) ^ bits - 1)| ≤ L := abs_le.mpr ⟨hY0, hY1⟩
    rw [abs_le] at h
    have h2 := h.2
    generalize dec_value_f32 n (-L) L bits = y at h2 ⊢
    generalize -L + (n : ℚ) * (L - -L) / ((2 : ℚ) ^ bits - 1) = Y at h2 hY1 hYa
    generalize (2 : ℚ) ^ (-149 : Int) = η at h2 ⊢
    linarith only [h2, hY1, hYa, hL]
  obtain ⟨rp, rv, rt⟩ := fb_raw_bounds b1 b2 b3 b4 b5 h1 h2 h3 h4 h5
  obtain ⟨m, hm, ep, ev, et⟩ := fbdata_f32_eq motor b0 b1 b2 b3 b4 b5 b6 b7 h1 h2 h3 h4 h5
    (by rwa [abs_of_pos hP]) (by rwa [abs_of_pos hV]) (by rwa [abs_of_pos hT])
  refine ⟨m, hm, ?_, ?_, ?_⟩
  · rw [ep]
    refine dec_sym_bounds fP hP (by norm_num) (by exact_mod_cast Nat.zero_le _) ?_
    have : ((((b1 <<< 8) ||| b2 : Nat) : Int) : ℚ) ≤ ((65535 : Nat) : ℚ) := by
      exact_mod_cast (by omega : ((b1 <<< 8) ||| b2) ≤ 65535)
    norm_num at this ⊢
    exact this
  · rw [ev]
    refine dec_sym_bounds fV hV (by norm_num) (by exact_mod_cast Nat.zero_le _) ?_
    have : ((((b3 <<< 4) ||| (b4 >>> 4) : Nat) : Int) : ℚ) ≤ ((4095 : Nat) : ℚ) := by
      exact_mod_cast (by omega : ((b3 <<< 4) ||| (b4 >>> 4)) ≤ 4095)
    norm_num at this ⊢
    exact this
  · rw [et]
    refine dec_sym_bounds fT hT (by norm_num) (by exact_mod_cast Nat.zero_le _) ?_
    have : (((((b4 &&& 0xF) <<< 8) ||| b5 : Nat) : Int) : ℚ) ≤ ((4095 : Nat) : ℚ) := by
      exact_mod_cast (by omega : (((b4 &&& 0xF) <<< 8) ||| b5) ≤ 4095)
    norm_num at this ⊢
    exact this

theorem sample_limits :
    (dm_motor_init dm_sample).tmp.PMAX = 25 / 2 ∧ (dm_motor_init dm_sample).tmp.VMAX = 30
      ∧ (dm_motor_init dm_sample).tmp.TMAX = 10 := by
  refine ⟨?_, ?_, ?_⟩ <;> norm_num [dm_motor_init]

theorem C26_feedback_limits_binary32_witness :
    ∃ m : motor_t,
      dm_motor_fbdata_f32 (dm_motor_init dm_sample) [0x11, 0xFF, 0xFF, 0x00, 0x0F, 0xFF, 40, 35]
        = some m
      ∧ (-(dm_motor_init dm_sample).tmp.PMAX ≤ m.para.pos
          ∧ m.para.pos ≤ (dm_motor_init dm_sample).tmp.PMAX
              + (dm_motor_init dm_sample).tmp.PMAX / 1048576 + (2 : ℚ) ^ (-149 : Int))
      ∧ (-(dm_motor_init dm_sample).tmp.VMAX ≤ m.para.vel
          ∧ m.para.vel ≤ (dm_motor_init dm_sample).tmp.VMAX
              + (dm_motor_init dm_sample).tmp.VMAX / 1048576 + (2 : ℚ) ^ (-149 : Int))
      ∧ (-(dm_motor_init dm_sample).tmp.TMAX ≤ m.para.tor
          ∧ m.para.tor ≤ (dm_motor_init dm_sample).tmp.TMAX
              + (dm_motor_init dm_sample).tmp.TMAX / 1048576 + (2 : ℚ) ^ (-149 : Int)) :=
  C26_feedback_limits_binary32 (dm_motor_init dm_sample) 0x11 0xFF 0xFF 0x00 0x0F 0xFF 40 35
    (by decide) (by decide) (by decide) (by decide) (by decide)
    ⟨25, -1, by norm_num, by norm_num, by norm_num, by rw [sample_limits.1]; norm_num⟩
    ⟨15, 1, by norm_num, by norm_num, by norm_num, by rw [sample_limits.2.1]; norm_num⟩
    ⟨5, 1, by norm_num, by norm_num, by norm_num, by rw [sample_limits.2.2]; norm_num⟩
    (by rw [sample_limits.1]; norm_num) (by rw [sample_limits.2.1]; norm_num)
    (by rw [sample_limits.2.2]; norm_num) (by rw [sample_limits.1]; norm_num)
    (by rw [sample_limits.2.1]; norm_num) (by rw [sample_limits.2.2]; norm_num)

/-- Raw position 65535 over the limit `257/8` (32.125) decodes in binary32 to
`4210689/131072`, one unit in the last place above the limit. -/
theorem dec_pmax_value : dec_value_f32 65535 (-(257 / 8)) (257 / 8) 16 = (4210689 / 131072) :=
  dec_value_eval (s := (257 / 4)) (m := 4210624) (r := (8421377 / 131072))
    (by
      rw [f32_round_fix (k := 8421376) (E := -17) (by norm_num) (by norm_num) (by norm_num)]
      norm_num)
    (by
      rw [f32_round_eval_tie (e := 22) (k := 8421248)
        (by norm_num [abs_of_nonneg, abs_of_neg]) (by norm_num [abs_of_nonneg, abs_of_neg])
        (by norm_num) (by norm_num) (Or.inl (by norm_num))]
      norm_num)
    (by
      rw [f32_round_eval (e := 6) (k := 8421377)
        (by norm_num [abs_of_nonneg, abs_of_neg]) (by norm_num [abs_of_nonneg, abs_of_neg])
        (by norm_num) (by norm_num [abs_lt])]
      norm_num)
    (by
      rw [f32_round_fix (k := 8421378) (E := -18) (by norm_num) (by norm_num) (by norm_num)]
      norm_num)

/-- C26 as written fails in binary32 arithmetic: with the binary32 limit `PMAX =
257/8` (32.125) a frame whose raw position is `0xFFFF` leaves the decoded
position `4210689/131072` (about 32.1250076), above PMAX. -/
theorem C26_limit_exceeded_counterexample :
    is_f32 (motor_with_pmax dm_sample (257 / 8)).tmp.PMAX
      ∧ ∃ m : motor_t,
          dm_motor_fbdata_f32 (motor_with_pmax dm_sample (257 / 8))
              [0x11, 0xFF, 0xFF, 0x00, 0x0F, 0xFF, 40, 35] = some m
          ∧ m.para.pos = 4210689 / 131072
          ∧ (motor_with_pmax dm_sample (257 / 8)).tmp.PMAX < m.para.pos := by
  have eP : (motor_with_pmax dm_sample (257 / 8)).tmp.PMAX = 257 / 8 := rfl
  have eV : (motor_with_pmax dm_sample (257 / 8)).tmp.VMAX = 30 := by
    norm_num [motor_with_pmax, dm_motor_init]
  have eT : (motor_with_pmax dm_sample (257 / 8)).tmp.TMAX = 10 := by
    norm_num [motor_with_pmax, dm_motor_init]
  refine ⟨⟨257, -3, by norm_num, by norm_num, by norm_num, by rw [eP]; norm_num⟩, ?_⟩
  obtain ⟨m, hm, ep, _, _⟩ := fbdata_f32_eq (motor_with_pmax dm_sample (257 / 8))
    0x11 0xFF 0xFF 0x00 0x0F 0xFF 40 35 (by decide) (by decide) (by decide) (by decide)
    (by decide) (by rw [eP]; norm_num [abs_of_nonneg]) (by rw [eV]; norm_num [abs_of_nonneg])
    (by rw [eT]; norm_num [abs_of_nonneg])
  have hraw : (((0xFF <<< 8) ||| 0xFF : Nat) : Int) = 65535 := by decide
  rw [eP, hraw, dec_pmax_value] at ep
  exact ⟨m, hm, ep, by rw [eP, ep]; norm_num⟩

/-- The outcome of `float_to_uint` in binary32 when no intermediate result
overflows and the rounded quotient is within `2^30` in magnitude: the
truncation of the rounded quotient. -/
theorem float_to_uint_f32_some {x x_min x_max : ℚ} {bits : Nat}
    (hx : |x| ≤ (2 : ℚ) ^ (101 : Int)) (hmin : |x_min| ≤ (2 : ℚ) ^ (100 : Int))
    (hmax : |x_max| ≤ (2 : ℚ) ^ (100 : Int))
    (hs : f32_round (x_max - x_min) ≠ 0) (hb : bits ≤ 16)
    (hq : |enc_scaled_f32 x x_min x_max bits| ≤ (2 : ℚ) ^ (30 : Int)) :
    float_to_uint_f32 x x_min x_max bits
      = some (c_int_cast (enc_scaled_f32 x x_min x_max bits)) := by
  rw [float_to_uint_f32_eq hx hmin hmax hs hb]
  unfold enc_scaled_f32 at hq ⊢
  rw [f32_of_round_some (le_trans hq (by norm_num))]
  simp only [Option.some_bind]
  unfold c_int_cast_f32
  rw [abs_le] at hq
  rw [if_pos]
  constructor
  · have : -(2 : ℚ) ^ 31 - 1 < -(2 : ℚ) ^ (30 : Int) := by norm_num
    linarith [hq.1]
  · have : (2 : ℚ) ^ (30 : Int) < (2 : ℚ) ^ 31 := by norm_num
    linarith [hq.2]

/-- The rounded quotient is computed from its four roundings. -/
theorem enc_scaled_eval {x x_min x_max : ℚ} {bits : Nat} {s t p q : ℚ}
    (hs : f32_round (x_max - x_min) = s) (ht : f32_round (x - x_min) = t)
    (hp : f32_round (t * ((2 : ℚ) ^ bits - 1)) = p) (hq : f32_round (p / s) = q) :
    enc_scaled_f32 x x_min x_max bits = q := by
  unfold enc_scaled_f32
  rw [hs, ht, hp, hq]

/-- Magnitude hypotheses in the form the preceding lemmas take. -/
theorem abs_le_of_range {x lo hi : ℚ} {B : ℚ} (h1 : lo ≤ x) (h2 : x ≤ hi) (hlo : -B ≤ lo)
    (hhi : hi ≤ B) : |x| ≤ B :=
  abs_le.mpr ⟨by linarith, by linarith⟩

/-- In-range input in binary32: the rounded quotient is non-negative and
within `1/16` of the exact scaled value, which lies in `[0, 2^bits - 1]`. -/
theorem enc_scaled_in_range {x x_min x_max : ℚ} {bits : Nat}
    (hx : ∃ j : Int, x = (j : ℚ) * (2 : ℚ) ^ (-149 : Int))
    (hmin : ∃ j : Int, x_min = (j : ℚ) * (2 : ℚ) ^ (-149 : Int))
    (hmax : ∃ j : Int, x_max = (j : ℚ) * (2 : ℚ) ^ (-149 : Int))
    (hmm : x_min < x_max) (hb : 1 ≤ bits) (hb16 : bits ≤ 16)
    (h1 : x_min ≤ x) (h2 : x ≤ x_max) :
    0 ≤ enc_scaled_f32 x x_min x_max bits
      ∧ |enc_scaled_f32 x x_min x_max bits
          - (x - x_min) * ((2 : ℚ) ^ bits - 1) / (x_max - x_min)| < 1 / 16
      ∧ 0 ≤ (x - x_min) * ((2 : ℚ) ^ bits - 1) / (x_max - x_min)
      ∧ (x - x_min) * ((2 : ℚ) ^ bits - 1) / (x_max - x_min) ≤ (2 : ℚ) ^ bits - 1 := by
  have hN := levels_ge_one hb
  have hN16 := levels_le hb16
  have hS : 0 < x_max - x_min := by linarith only [hmm]
  obtain ⟨hs0, _⟩ := span_f32 hmin hmax hmm
  have hv0 : 0 ≤ (x - x_min) * ((2 : ℚ) ^ bits - 1) / (x_max - x_min) :=
    div_nonneg (mul_nonneg (by linarith only [h1]) (by linarith only [hN])) (le_of_lt hS)
  have hv1 : (x - x_min) * ((2 : ℚ) ^ bits - 1) / (x_max - x_min) ≤ (2 : ℚ) ^ bits - 1 := by
    rw [div_le_iff₀ hS]
    linarith only [mul_le_mul_of_nonneg_right (by linarith only [h2] : x - x_min ≤ x_max - x_min)
      (by linarith only [hN] : (0 : ℚ) ≤ (2 : ℚ) ^ bits - 1)]
  have he := enc_scaled_err hx hmin hmax hmm hb
  rw [abs_of_nonneg hv0] at he
  have hη : (2 : ℚ) ^ (-150 : Int) < 1 / 1024 := by norm_num
  refine ⟨?_, ?_, hv0, hv1⟩
  · unfold enc_scaled_f32
    exact f32_round_nonneg (div_nonneg (f32_round_nonneg (mul_nonneg
      (f32_round_nonneg (by linarith only [h1])) (by linarith only [hN]))) (le_of_lt hs0))
  · refine lt_of_le_of_lt he ?_
    linarith only [hv1, hN16, hη]

/-- The floor of a value within `1/16` of an integer `n` is `n` or `n - 1`. -/
theorem floor_near_int {q : ℚ} {n : Int} (h : |q - (n : ℚ)| < 1 / 16) :
    ⌊q⌋ = n ∨ ⌊q⌋ = n - 1 := by
  rw [abs_lt] at h
  have a1 := Int.floor_le q
  have a2 := Int.lt_floor_add_one q
  have c1 : ((⌊q⌋ : Int) : ℚ) < ((n + 1 : Int) : ℚ) := by
    push_cast
    linarith [h.1, h.2]
  have c2 : ((n - 2 : Int) : ℚ) < ((⌊q⌋ : Int) : ℚ) := by
    push_cast
    linarith [h.1, h.2]
  have d1 : ⌊q⌋ < n + 1 := by exact_mod_cast c1
  have d2 : n - 2 < ⌊q⌋ := by exact_mod_cast c2
  omega

/-- In-range encoding in binary32: defined, in `[0, 2^bits - 1]`, and within
one of the floor of the exact scaled value. -/
theorem enc_f32_in_range {x x_min x_max : ℚ} {bits : Nat}
    (fx : is_f32 x) (fmin : is_f32 x_min) (fmax : is_f32 x_max)
    (hmm : x_min < x_max) (blo : -(2 : ℚ) ^ (100 : Int) ≤ x_min)
    (bhi : x_max ≤ (2 : ℚ) ^ (100 : Int)) (hb : 1 ≤ bits) (hb16 : bits ≤ 16)
    (h1 : x_min ≤ x) (h2 : x ≤ x_max) :
    float_to_uint_f32 x x_min x_max bits = some ⌊enc_scaled_f32 x x_min x_max bits⌋
      ∧ 0 ≤ ⌊enc_scaled_f32 x x_min x_max bits⌋
      ∧ ⌊enc_scaled_f32 x x_min x_max bits⌋ ≤ (2 : Int) ^ bits - 1
      ∧ |enc_scaled_f32 x x_min x_max bits
          - (x - x_min) * ((2 : ℚ) ^ bits - 1) / (x_max - x_min)| < 1 / 16 := by
  obtain ⟨hq0, hqv, hv0, hv1⟩ := enc_scaled_in_range (is_f32_grid fx) (is_f32_grid fmin)
    (is_f32_grid fmax) hmm hb hb16 h1 h2
  obtain ⟨hs0, _⟩ := span_f32 (is_f32_grid fmin) (is_f32_grid fmax) hmm
  have hN16 := levels_le hb16
  have e101 : (2 : ℚ) ^ (100 : Int) ≤ (2 : ℚ) ^ (101 : Int) :=
    zpow_le_zpow_right₀ (by norm_num) (by norm_num)
  have hqN : enc_scaled_f32 x x_min x_max bits < (2 : ℚ) ^ bits - 1 + 1 := by
    rw [abs_lt] at hqv
    linarith [hqv.2]
  have hq30 : |enc_scaled_f32 x x_min x_max bits| ≤ (2 : ℚ) ^ (30 : Int) := by
    rw [abs_of_nonneg hq0]
    have : (65536 : ℚ) ≤ (2 : ℚ) ^ (30 : Int) := by norm_num
    linarith
  refine ⟨?_, Int.floor_nonneg.mpr hq0, ?_, hqv⟩
  · rw [float_to_uint_f32_some
      (le_trans (abs_le_of_range h1 h2 blo bhi) e101)
      (abs_le_of_range le_rfl (le_of_lt hmm) blo bhi)
      (abs_le_of_range (le_of_lt hmm) le_rfl blo bhi) (ne_of_gt hs0) hb16 hq30,
      c_int_cast_of_nonneg hq0]
  · have : ⌊enc_scaled_f32 x x_min x_max bits⌋ < (2 : Int) ^ bits - 1 + 1 := by
      rw [Int.floor_lt]
      push_cast
      exact hqN
    omega

/-- Binary32 encoding of any multiple of `2^-149` whose exact scaled value is within
`2^29` in magnitude: defined, the truncation of the rounded quotient, which is
within `2^-21` relative plus `2^-150` of the exact scaled value. -/
theorem enc_f32_general {x x_min x_max : ℚ} {bits : Nat}
    (gx : ∃ j : Int, x = (j : ℚ) * (2 : ℚ) ^ (-149 : Int))
    (fmin : is_f32 x_min) (fmax : is_f32 x_max)
    (hmm : x_min < x_max) (blo : -(2 : ℚ) ^ (100 : Int) ≤ x_min)
    (bhi : x_max ≤ (2 : ℚ) ^ (100 : Int)) (hx : |x| ≤ (2 : ℚ) ^ (101 : Int))
    (hb : 1 ≤ bits) (hb16 : bits ≤ 16)
    (hv : |(x - x_min) * ((2 : ℚ) ^ bits - 1) / (x_max - x_min)| ≤ (2 : ℚ) ^ (29 : Int)) :
    float_to_uint_f32 x x_min x_max bits
        = some (c_int_cast (enc_scaled_f32 x x_min x_max bits))
      ∧ |enc_scaled_f32 x x_min x_max bits
          - (x - x_min) * ((2 : ℚ) ^ bits - 1) / (x_max - x_min)|
        ≤ 1 / 2097152 * |(x - x_min) * ((2 : ℚ) ^ bits - 1) / (x_max - x_min)|
          + (2 : ℚ) ^ (-150 : Int) := by
  have he := enc_scaled_err gx (is_f32_grid fmin) (is_f32_grid fmax) hmm hb
  obtain ⟨hs0, _⟩ := span_f32 (is_f32_grid fmin) (is_f32_grid fmax) hmm
  refine ⟨?_, he⟩
  apply float_to_uint_f32_some hx
    (abs_le_of_range le_rfl (le_of_lt hmm) blo bhi)
    (abs_le_of_range (le_of_lt hmm) le_rfl blo bhi) (ne_of_gt hs0) hb16
  have h1 := abs_sub_abs_le_abs_sub (enc_scaled_f32 x x_min x_max bits)
    ((x - x_min) * ((2 : ℚ) ^ bits - 1) / (x_max - x_min))
  have e30 : (2 : ℚ) ^ (30 : Int) = 2 * (2 : ℚ) ^ (29 : Int) := by norm_num
  have e29 : (1 : ℚ) ≤ (2 : ℚ) ^ (29 : Int) := by norm_num
  have hη : (2 : ℚ) ^ (-150 : Int) < 1 / 1024 := by norm_num
  rw [e30]
  linarith

/-- C22 (out-of-range input) in binary32 arithmetic: for binary32 limits `x_min
< x_max` within `±2^100`, `bits` in 1..16 and a binary32 `x` whose exact
scaled value `(x - x_min) * (2^bits - 1) / (x_max - x_min)` is within `2^29`
in magnitude, `float_to_uint` returns an integer `n`; with `step = (x_max -
x_min) / (2^bits - 1)`, `n < 0` when `x` is at least `17/16` of a step under
`x_min`, `n > 2^bits - 1` when `x` is at least `17/16` of a step over
`x_max`, `n = 0` when `x` is under `x_min` by at most `15/16` of a step, and
`n` is `2^bits - 1` or `2^bits - 2` when `x` is over `x_max` by at most
`15/16` of a step. -/
theorem C22_out_of_band_binary32 (x x_min x_max : ℚ) (bits : Nat)
    (fx : is_f32 x) (fmin : is_f32 x_min) (fmax : is_f32 x_max)
    (hmm : x_min < x_max) (blo : -(2 : ℚ) ^ (100 : Int) ≤ x_min)
    (bhi : x_max ≤ (2 : ℚ) ^ (100 : Int)) (hx : |x| ≤ (2 : ℚ) ^ (101 : Int))
    (hb : 1 ≤ bits) (hb16 : bits ≤ 16)
    (hv : |(x - x_min) * ((2 : ℚ) ^ bits - 1) / (x_max - x_min)| ≤ (2 : ℚ) ^ (29 : Int)) :
    ∃ n : Int, float_to_uint_f32 x x_min x_max bits = some n
      ∧ (x ≤ x_min - 17 / 16 * ((x_max - x_min) / ((2 : ℚ) ^ bits - 1)) → n < 0)
      ∧ (x_max + 17 / 16 * ((x_max - x_min) / ((2 : ℚ) ^ bits - 1)) ≤ x
          → (2 : Int) ^ bits - 1 < n)
      ∧ (x_min - 15 / 16 * ((x_max - x_min) / ((2 : ℚ) ^ bits - 1)) ≤ x → x < x_min → n = 0)
      ∧ (x_max < x → x ≤ x_max + 15 / 16 * ((x_max - x_min) / ((2 : ℚ) ^ bits - 1))
          → n = (2 : Int) ^ bits - 1 ∨ n = (2 : Int) ^ bits - 2) := by
  obtain ⟨e, he⟩ := enc_f32_general (is_f32_grid fx) fmin fmax hmm blo bhi hx hb hb16 hv
  have hN := levels_ge_one hb
  have hN16 := levels_le hb16
  have hS : 0 < x_max - x_min := by linarith only [hmm]
  have hη : (2 : ℚ) ^ (-150 : Int) < 1 / 1024 := by norm_num
  have hη0 := two_zpow_pos (-150)
  have hmax : x_max = x_min + ((2 : ℚ) ^ bits - 1) * ((x_max - x_min) / ((2 : ℚ) ^ bits - 1)) := by
    field_simp
  have hNc : (((2 : Int) ^ bits - 1 : Int) : ℚ) = (2 : ℚ) ^ bits - 1 := by push_cast; ring
  refine ⟨_, e, ?_, ?_, ?_, ?_⟩ <;> clear e blo bhi hx hv fx fmin fmax <;>
    generalize (2 : ℚ) ^ (-150 : Int) = η at he hη hη0
  · intro h
    have hvz : (x - x_min) * ((2 : ℚ) ^ bits - 1) / (x_max - x_min) ≤ -(17 / 16) :=
      (scaled_le_iff hb hmm _).mpr (by linarith only [h])
    have hv0 : (x - x_min) * ((2 : ℚ) ^ bits - 1) / (x_max - x_min) ≤ 0 := by linarith only [hvz]
    rw [abs_of_nonpos hv0, abs_le] at he
    have hq : enc_scaled_f32 x x_min x_max bits ≤ ((-1 : Int) : ℚ) := by
      push_cast
      linarith only [he.2, hvz, hη]
    rw [c_int_cast_of_nonpos (le_trans hq (by norm_num))]
    have := Int.ceil_le.mpr hq
    omega
  · intro h
    have hvz : (2 : ℚ) ^ bits - 1 + 17 / 16 ≤ (x - x_min) * ((2 : ℚ) ^ bits - 1) / (x_max - x_min) :=
      (le_scaled_iff hb hmm _).mpr (by
        rw [add_mul, ← add_assoc, ← hmax]
        exact h)
    have hv0 : 0 ≤ (x - x_min) * ((2 : ℚ) ^ bits - 1) / (x_max - x_min) := by linarith only [hvz, hN]
    rw [abs_of_nonneg hv0, abs_le] at he
    have hq : (((2 : Int) ^ bits - 1 + 1 : Int) : ℚ) ≤ enc_scaled_f32 x x_min x_max bits := by
      push_cast
      linarith only [he.1, hvz, hη, hN16]
    rw [c_int_cast_of_nonneg (le_trans (by push_cast; linarith only [hN]) hq)]
    have := Int.le_floor.mpr hq
    omega
  · intro h1 h2
    have hvz : -(15 / 16) ≤ (x - x_min) * ((2 : ℚ) ^ bits - 1) / (x_max - x_min) :=
      (le_scaled_iff hb hmm _).mpr (by linarith only [h1])
    have hv0 : (x - x_min) * ((2 : ℚ) ^ bits - 1) / (x_max - x_min) ≤ 0 :=
      div_nonpos_of_nonpos_of_nonneg (mul_nonpos_of_nonpos_of_nonneg (by linarith only [h2]) (by linarith only [hN]))
        (le_of_lt hS)
    rw [abs_of_nonpos hv0, abs_le] at he
    exact c_int_cast_small (by linarith only [he.1, hvz, hη]) (by linarith only [he.2, hv0, hη])
  · intro h1 h2
    have hvz : (x - x_min) * ((2 : ℚ) ^ bits - 1) / (x_max - x_min) ≤ (2 : ℚ) ^ bits - 1 + 15 / 16 :=
      (scaled_le_iff hb hmm _).mpr (by
        rw [add_mul, ← add_assoc, ← hmax]
        exact h2)
    have hvN : (2 : ℚ) ^ bits - 1 ≤ (x - x_min) * ((2 : ℚ) ^ bits - 1) / (x_max - x_min) :=
      (le_scaled_iff hb hmm _).mpr (by rw [← hmax]; exact le_of_lt h1)
    have hv0 : 0 ≤ (x - x_min) * ((2 : ℚ) ^ bits - 1) / (x_max - x_min) := by linarith only [hvN, hN]
    rw [abs_of_nonneg hv0, abs_le] at he
    have hq1 : enc_scaled_f32 x x_min x_max bits < (((2 : Int) ^ bits - 1 + 1 : Int) : ℚ) := by
      push_cast
      linarith only [he.2, hvz, hη, hN16]
    have hq2 : (((2 : Int) ^ bits - 2 : Int) : ℚ) ≤ enc_scaled_f32 x x_min x_max bits := by
      push_cast
      linarith only [he.1, hvN, hvz, hη, hN16]
    rw [c_int_cast_of_nonneg (le_trans (by push_cast; linarith only [hN]) hq2)]
    have a1 := Int.floor_lt.mpr hq1
    have a2 := Int.le_floor.mpr hq2
    omega

theorem C22_out_of_band_binary32_witness :
    ∃ n : Int, float_to_uint_f32 13 (-(25 / 2)) (25 / 2) 16 = some n
      ∧ ((13 : ℚ) ≤ -(25 / 2) - 17 / 16 * ((25 / 2 - -(25 / 2)) / ((2 : ℚ) ^ 16 - 1)) → n < 0)
      ∧ (25 / 2 + 17 / 16 * ((25 / 2 - -(25 / 2)) / ((2 : ℚ) ^ 16 - 1)) ≤ (13 : ℚ)
          → (2 : Int) ^ 16 - 1 < n)
      ∧ (-(25 / 2) - 15 / 16 * ((25 / 2 - -(25 / 2)) / ((2 : ℚ) ^ 16 - 1)) ≤ (13 : ℚ)
          → (13 : ℚ) < -(25 / 2) → n = 0)
      ∧ (25 / 2 < (13 : ℚ)
          → (13 : ℚ) ≤ 25 / 2 + 15 / 16 * ((25 / 2 - -(25 / 2)) / ((2 : ℚ) ^ 16 - 1))
          → n = (2 : Int) ^ 16 - 1 ∨ n = (2 : Int) ^ 16 - 2) :=
  C22_out_of_band_binary32 13 (-(25 / 2)) (25 / 2) 16
    ⟨13, 0, by norm_num, by norm_num, by norm_num, by norm_num⟩
    ⟨-25, -1, by norm_num, by norm_num, by norm_num, by norm_num⟩
    ⟨25, -1, by norm_num, by norm_num, by norm_num, by norm_num⟩
    (by norm_num) (by norm_num) (by norm_num) (by norm_num [abs_of_nonneg]) (by norm_num)
    (by norm_num) (by norm_num [abs_of_nonneg])

/-- C22 as written fails in binary32 arithmetic: over `[-12.5, 12.5]` with 16
bits the binary32 values `-13107201/1048576` (the next one under `x_min`)
and `6553601/524288` (two units in the last place over `x_max`) are outside
the range, yet `float_to_uint` returns 0 and 65535, both inside `[0, 2^16 -
1]`. -/
theorem C22_in_band_counterexample :
    is_f32 (-(13107201 / 1048576)) ∧ (-(13107201 / 1048576) : ℚ) < -(25 / 2)
      ∧ float_to_uint_f32 (-(13107201 / 1048576)) (-(25 / 2)) (25 / 2) 16 = some 0
      ∧ is_f32 (6553601 / 524288) ∧ (25 / 2 : ℚ) < 6553601 / 524288
      ∧ float_to_uint_f32 (6553601 / 524288) (-(25 / 2)) (25 / 2) 16 = some 65535
      ∧ (0 : Int) ≤ 65535 ∧ (65535 : Int) ≤ 2 ^ 16 - 1 := by
  have enc_below_scaled : enc_scaled_f32 (-(13107201 / 1048576)) (-(25 / 2)) (25 / 2) 16 = (-(5368627 / 2147483648)) := by
    exact enc_scaled_eval (s := 25) (t := (-(1 / 1048576))) (p := (-(65535 / 1048576)))
      (by
        rw [f32_round_fix (k := 13107200) (E := -19) (by norm_num) (by norm_num) (by norm_num)]
        norm_num)
      (by
        rw [f32_round_fix (k := -8388608) (E := -43) (by norm_num) (by norm_num) (by norm_num)]
        norm_num)
      (by
        rw [f32_round_fix (k := -16776960) (E := -28) (by norm_num) (by norm_num) (by norm_num)]
        norm_num)
      (by
        rw [f32_round_eval (e := -9) (k := -10737254)
          (by norm_num [abs_of_nonneg, abs_of_neg]) (by norm_num [abs_of_nonneg, abs_of_neg])
          (by norm_num) (by norm_num [abs_lt])]
        norm_num)
  have enc_above_scaled : enc_scaled_f32 (6553601 / 524288) (-(25 / 2)) (25 / 2) 16 = (16776961 / 256) := by
    exact enc_scaled_eval (s := 25) (t := (13107201 / 524288)) (p := (13107001 / 8))
      (by
        rw [f32_round_fix (k := 13107200) (E := -19) (by norm_num) (by norm_num) (by norm_num)]
        norm_num)
      (by
        rw [f32_round_fix (k := 13107201) (E := -19) (by norm_num) (by norm_num) (by norm_num)]
        norm_num)
      (by
        rw [f32_round_eval (e := 20) (k := 13107001)
          (by norm_num [abs_of_nonneg, abs_of_neg]) (by norm_num [abs_of_nonneg, abs_of_neg])
          (by norm_num) (by norm_num [abs_lt])]
        norm_num)
      (by
        rw [f32_round_eval (e := 15) (k := 16776961)
          (by norm_num [abs_of_nonneg, abs_of_neg]) (by norm_num [abs_of_nonneg, abs_of_neg])
          (by norm_num) (by norm_num [abs_lt])]
        norm_num)
  have f1 : is_f32 (-(13107201 / 1048576)) :=
    ⟨-13107201, -20, by norm_num, by norm_num, by norm_num, by norm_num⟩
  have f2 : is_f32 (-(25 / 2)) := ⟨-25, -1, by norm_num, by norm_num, by norm_num, by norm_num⟩
  have f3 : is_f32 (25 / 2) := ⟨25, -1, by norm_num, by norm_num, by norm_num, by norm_num⟩
  have f4 : is_f32 (6553601 / 524288) :=
    ⟨6553601, -19, by norm_num, by norm_num, by norm_num, by norm_num⟩
  refine ⟨f1, by norm_num, ?_, f4, by norm_num, ?_, by norm_num, by norm_num⟩
  · rw [(enc_f32_general (is_f32_grid f1) f2 f3 (by norm_num) (by norm_num) (by norm_num)
      (by norm_num [abs_of_nonneg]) (by norm_num) (by norm_num)
      (by norm_num [abs_of_nonneg])).1, enc_below_scaled]
    rw [c_int_cast_small (by norm_num) (by norm_num)]
  · rw [(enc_f32_general (is_f32_grid f4) f2 f3 (by norm_num) (by norm_num) (by norm_num)
      (by norm_num [abs_of_nonneg]) (by norm_num) (by norm_num)
      (by norm_num [abs_of_nonneg])).1, enc_above_scaled]
    rw [c_int_cast_of_nonneg (by norm_num)]
    have e : ⌊((16776961 / 256) : ℚ)⌋ = 65535 := by
      rw [Int.floor_eq_iff]
      constructor <;> norm_num
    rw [e]

/-- Within one step over `x_max` the binary32 roundings decide: over
`[-12.5, 12.5]` with 16 bits the binary32 value `819225/65536` (about
12.50038147) is less than one step over `x_max`, and its encoding is 65536,
outside `[0, 2^16 - 1]`. -/
theorem enc_step_boundary_example :
    is_f32 (819225 / 65536)
      ∧ (819225 / 65536 : ℚ) < 25 / 2 + (25 / 2 - -(25 / 2)) / ((2 : ℚ) ^ 16 - 1)
      ∧ float_to_uint_f32 (819225 / 65536) (-(25 / 2)) (25 / 2) 16 = some 65536 := by
  have enc_step_scaled : enc_scaled_f32 (819225 / 65536) (-(25 / 2)) (25 / 2) 16 = 65536 := by
    exact enc_scaled_eval (s := 25) (t := (1638425 / 65536)) (p := 1638400)
      (by
        rw [f32_round_fix (k := 13107200) (E := -19) (by norm_num) (by norm_num) (by norm_num)]
        norm_num)
      (by
        rw [f32_round_fix (k := 13107400) (E := -19) (by norm_num) (by norm_num) (by norm_num)]
        norm_num)
      (by
        rw [f32_round_eval (e := 20) (k := 13107200)
          (by norm_num [abs_of_nonneg, abs_of_neg]) (by norm_num [abs_of_nonneg, abs_of_neg])
          (by norm_num) (by norm_num [abs_lt])]
        norm_num)
      (by
        rw [f32_round_fix (k := 8388608) (E := -7) (by norm_num) (by norm_num) (by norm_num)]
        norm_num)
  have f1 : is_f32 (819225 / 65536) :=
    ⟨819225, -16, by norm_num, by norm_num, by norm_num, by norm_num⟩
  have f2 : is_f32 (-(25 / 2)) := ⟨-25, -1, by norm_num, by norm_num, by norm_num, by norm_num⟩
  have f3 : is_f32 (25 / 2) := ⟨25, -1, by norm_num, by norm_num, by norm_num, by norm_num⟩
  refine ⟨f1, by norm_num, ?_⟩
  rw [(enc_f32_general (is_f32_grid f1) f2 f3 (by norm_num) (by norm_num) (by norm_num)
    (by norm_num [abs_of_nonneg]) (by norm_num) (by norm_num)
    (by norm_num [abs_of_nonneg])).1, enc_step_scaled]
  rw [c_int_cast_of_nonneg (by norm_num)]
  have e : ⌊(65536 : ℚ)⌋ = 65536 := by
    rw [Int.floor_eq_iff]
    constructor <;> norm_num
  rw [e]

/-- Far outside the range the conversion to `int` is undefined: over
`[-12.5, 12.5]` with 16 bits the input `1048576` has the binary32 quotient
`2748769792`, which is not below `2^31`. -/
theorem enc_int_overflow_example :
    float_to_uint_f32 1048576 (-(25 / 2)) (25 / 2) 16 = none := by
  have enc_big_scaled : enc_scaled_f32 1048576 (-(25 / 2)) (25 / 2) 16 = 2748769792 := by
    exact enc_scaled_eval (s := 25) (t := (2097177 / 2)) (p := 68719247360)
      (by
        rw [f32_round_fix (k := 13107200) (E := -19) (by norm_num) (by norm_num) (by norm_num)]
        norm_num)
      (by
        rw [f32_round_fix (k := 8388708) (E := -3) (by norm_num) (by norm_num) (by norm_num)]
        norm_num)
      (by
        rw [f32_round_eval (e := 35) (k := 16777160)
          (by norm_num [abs_of_nonneg, abs_of_neg]) (by norm_num [abs_of_nonneg, abs_of_neg])
          (by norm_num) (by norm_num [abs_lt])]
        norm_num)
      (by
        rw [f32_round_eval (e := 31) (k := 10737382)
          (by norm_num [abs_of_nonneg, abs_of_neg]) (by norm_num [abs_of_nonneg, abs_of_neg])
          (by norm_num) (by norm_num [abs_lt])]
        norm_num)
  have f2 : is_f32 (-(25 / 2)) := ⟨-25, -1, by norm_num, by norm_num, by norm_num, by norm_num⟩
  have f3 : is_f32 (25 / 2) := ⟨25, -1, by norm_num, by norm_num, by norm_num, by norm_num⟩
  have hs := (span_f32 (is_f32_grid f2) (is_f32_grid f3) (by norm_num)).1
  have hq : f32_round (f32_round (f32_round ((1048576 : ℚ) - -(25 / 2)) * ((2 : ℚ) ^ 16 - 1))
      / f32_round (25 / 2 - -(25 / 2))) = 2748769792 := enc_big_scaled
  rw [float_to_uint_f32_eq (by norm_num [abs_of_nonneg]) (by norm_num [abs_of_nonneg])
    (by norm_num [abs_of_nonneg]) (ne_of_gt hs) (by norm_num),
    f32_of_round_some (by rw [hq]; norm_num [abs_of_nonneg]), hq]
  simp only [Option.some_bind]
  unfold c_int_cast_f32
  rw [if_neg (by norm_num)]

/-- Over a binary32 range that contains zero and spans at least `2^-100`, the
binary32 decoding of a code `0 ≤ n ≤ 2^bits - 1` is within `7 * 2^-24` of the
span of the exact decoding. -/
theorem dec_value_near {x_min x_max : ℚ} {bits : Nat} {n : Int}
    (fmin : is_f32 x_min) (fmax : is_f32 x_max) (h0 : x_min ≤ 0) (h1 : 0 ≤ x_max)
    (hmm : x_min < x_max) (hS : (2 : ℚ) ^ (-100 : Int) ≤ x_max - x_min) (hb : 1 ≤ bits)
    (hn0 : 0 ≤ n) (hnN : (n : ℚ) ≤ (2 : ℚ) ^ bits - 1) :
    |dec_value_f32 n x_min x_max bits
        - (x_min + (n : ℚ) * (x_max - x_min) / ((2 : ℚ) ^ bits - 1))|
      ≤ 7 / 16777216 * (x_max - x_min) := by
  have hSp : 0 < x_max - x_min := by linarith only [hmm]
  have hd := dec_value_err (is_f32_grid fmin) (is_f32_grid fmax) hmm hb hn0 hnN
  obtain ⟨hY0, hY1⟩ := dec_exact_in_range hmm hb hn0 hnN
  have hYa : |x_min + (n : ℚ) * (x_max - x_min) / ((2 : ℚ) ^ bits - 1)| ≤ x_max - x_min :=
    abs_le.mpr ⟨by linarith only [hY0, h1], by linarith only [hY1, h0]⟩
  have e149 : (2 : ℚ) ^ (-149 : Int) = (2 : ℚ) ^ (-100 : Int) / 562949953421312 := by norm_num
  refine le_trans hd ?_
  rw [e149]
  generalize (2 : ℚ) ^ (-100 : Int) = c at hS ⊢
  linarith only [hYa, hS, hSp]

/-- C21 (decode, then encode) in binary32 arithmetic: over binary32 limits
`x_min ≤ 0 ≤ x_max` within `±2^100` that span at least `2^-100`, for `bits`
in 1..16 and every code `0 ≤ n ≤ 2^bits - 1`, `uint_to_float` yields a
finite value `y ≥ x_min` that `float_to_uint` maps back to `n` or to `n -
1`; code 0 decodes to `x_min` exactly, and code `2^bits - 1` decodes to
within `(x_max - x_min) / 2^21` of `x_max`. -/
theorem C21_decode_encode_binary32 (x_min x_max : ℚ) (bits : Nat) (n : Int)
    (fmin : is_f32 x_min) (fmax : is_f32 x_max) (h0 : x_min ≤ 0) (h1 : 0 ≤ x_max)
    (hmm : x_min < x_max) (blo : -(2 : ℚ) ^ (100 : Int) ≤ x_min)
    (bhi : x_max ≤ (2 : ℚ) ^ (100 : Int))
    (hS : (2 : ℚ) ^ (-100 : Int) ≤ x_max - x_min) (hb : 1 ≤ bits) (hb16 : bits ≤ 16)
    (hn0 : 0 ≤ n) (hnN : n ≤ (2 : Int) ^ bits - 1) :
    (∃ y : ℚ, uint_to_float_f32 n x_min x_max bits = some y ∧ x_min ≤ y
        ∧ (float_to_uint_f32 y x_min x_max bits = some n
            ∨ (1 ≤ n ∧ float_to_uint_f32 y x_min x_max bits = some (n - 1))))
      ∧ uint_to_float_f32 0 x_min x_max bits = some x_min
      ∧ (∃ z : ℚ, uint_to_float_f32 ((2 : Int) ^ bits - 1) x_min x_max bits = some z
          ∧ |z - x_max| ≤ (x_max - x_min) / 2097152) := by
  -- Decoding a code `0 ≤ n ≤ 2^bits - 1` and encoding the result again, in
  -- binary32 over a range that contains zero and spans at least `2^-100`: the
  -- rounded quotient of the second step is within `1/16` of `n`.
  have dec_enc_f32 : ∀ {x_min x_max : ℚ} {bits : Nat} {n : Int} (fmin : is_f32 x_min) (fmax : is_f32 x_max) (h0 : x_min ≤ 0) (h1 : 0 ≤ x_max) (hmm : x_min < x_max) (blo : -(2 : ℚ) ^ (100 : Int) ≤ x_min) (bhi : x_max ≤ (2 : ℚ) ^ (100 : Int)) (hS : (2 : ℚ) ^ (-100 : Int) ≤ x_max - x_min) (hb : 1 ≤ bits) (hb16 : bits ≤ 16) (hn0 : 0 ≤ n) (hnN : (n : ℚ) ≤ (2 : ℚ) ^ bits - 1),
      float_to_uint_f32 (dec_value_f32 n x_min x_max bits) x_min x_max bits
        = some ⌊enc_scaled_f32 (dec_value_f32 n x_min x_max bits) x_min x_max bits⌋
      ∧ 0 ≤ enc_scaled_f32 (dec_value_f32 n x_min x_max bits) x_min x_max bits
      ∧ |enc_scaled_f32 (dec_value_f32 n x_min x_max bits) x_min x_max bits - (n : ℚ)|
          < 1 / 16 := by
    intro x_min x_max bits n fmin fmax h0 h1 hmm blo bhi hS hb hb16 hn0 hnN
    -- Input at or above `x_min` gives a non-negative rounded quotient.
    have enc_scaled_nonneg : ∀ {x x_min x_max : ℚ} {bits : Nat} (hmm : x_min ≤ x_max) (hx : x_min ≤ x),
        0 ≤ enc_scaled_f32 x x_min x_max bits := by
      intro x x_min x_max bits hmm hx
      have hN : (0 : ℚ) ≤ (2 : ℚ) ^ bits - 1 := by
        have : (1 : ℚ) ≤ (2 : ℚ) ^ bits := one_le_pow₀ (by norm_num)
        linarith
      unfold enc_scaled_f32
      exact f32_round_nonneg (div_nonneg (f32_round_nonneg (mul_nonneg
        (f32_round_nonneg (by linarith)) hN)) (f32_round_nonneg (by linarith)))
    have hN := levels_ge_one hb
    have hN16 := levels_le hb16
    have hN0 : (0 : ℚ) < (2 : ℚ) ^ bits - 1 := by linarith only [hN]
    have hnq : (0 : ℚ) ≤ (n : ℚ) := by exact_mod_cast hn0
    have hSp : 0 < x_max - x_min := by linarith only [hmm]
    have hδ := dec_value_near fmin fmax h0 h1 hmm hS hb hn0 hnN
    have hymin : x_min ≤ dec_value_f32 n x_min x_max bits :=
      dec_value_ge_min fmin (le_of_lt hmm) hb hn0
    have gy : ∃ j : Int, dec_value_f32 n x_min x_max bits = (j : ℚ) * (2 : ℚ) ^ (-149 : Int) := by
      unfold dec_value_f32
      exact f32_round_grid _
    have hq0 : 0 ≤ enc_scaled_f32 (dec_value_f32 n x_min x_max bits) x_min x_max bits :=
      enc_scaled_nonneg (le_of_lt hmm) hymin
    obtain ⟨hY0, hY1⟩ := dec_exact_in_range hmm hb hn0 hnN
    have e100 : (2 : ℚ) ^ (100 : Int) = 1267650600228229401496703205376 := by norm_num
    have e101 : (2 : ℚ) ^ (101 : Int) = 2535301200456458802993406410752 := by norm_num
    have e29 : (2 : ℚ) ^ (29 : Int) = 536870912 := by norm_num
    have hη : (2 : ℚ) ^ (-150 : Int) < 1 / 1024 := by norm_num
    -- the exact scaled value of the decoded value against `n`
    have hvn : (dec_value_f32 n x_min x_max bits - x_min) * ((2 : ℚ) ^ bits - 1) / (x_max - x_min)
        - (n : ℚ)
        = (dec_value_f32 n x_min x_max bits
            - (x_min + (n : ℚ) * (x_max - x_min) / ((2 : ℚ) ^ bits - 1)))
          * ((2 : ℚ) ^ bits - 1) / (x_max - x_min) := by
      field_simp
      ring
    have hv : |(dec_value_f32 n x_min x_max bits - x_min) * ((2 : ℚ) ^ bits - 1) / (x_max - x_min)
        - (n : ℚ)| ≤ 1 / 36 := by
      rw [hvn, abs_div, abs_mul, abs_of_pos hSp, abs_of_pos hN0, div_le_iff₀ hSp]
      have := mul_le_mul_of_nonneg_right hδ (le_of_lt hN0)
      have h2 : (x_max - x_min) * ((2 : ℚ) ^ bits - 1) ≤ (x_max - x_min) * 65535 :=
        mul_le_mul_of_nonneg_left hN16 (le_of_lt hSp)
      linarith only [this, h2, hSp]
    have hya : |dec_value_f32 n x_min x_max bits| ≤ (2 : ℚ) ^ (101 : Int) := by
      rw [abs_le] at hδ ⊢
      rw [e101]
      rw [e100] at blo bhi
      constructor <;> linarith only [hδ.1, hδ.2, hY0, hY1, blo, bhi]
    have hva : |(dec_value_f32 n x_min x_max bits - x_min) * ((2 : ℚ) ^ bits - 1)
        / (x_max - x_min)| ≤ 65536 := by
      rw [abs_le] at hv ⊢
      constructor <;> linarith only [hv.1, hv.2, hnq, hnN, hN16]
    obtain ⟨e, he⟩ := enc_f32_general gy fmin fmax hmm blo bhi hya hb hb16
      (le_trans hva (by rw [e29]; norm_num))
    refine ⟨?_, hq0, ?_⟩
    · rw [e, c_int_cast_of_nonneg hq0]
    · rw [abs_le] at hv he
      rw [abs_lt]
      generalize (2 : ℚ) ^ (-150 : Int) = η at he hη
      constructor <;> linarith only [hv.1, hv.2, he.1, he.2, hva, hη]
  -- Code 0 decodes to the binary32 lower limit exactly.
  have dec_value_zero : ∀ {x_min x_max : ℚ} {bits : Nat} (fmin : is_f32 x_min),
      dec_value_f32 0 x_min x_max bits = x_min := by
    intro x_min x_max bits fmin
    unfold dec_value_f32
    simp only [Int.cast_zero, zero_mul, f32_round_zero, zero_div, zero_add]
    exact is_f32_fix fmin
  have hN := levels_ge_one hb
  have hSp : 0 < x_max - x_min := by linarith
  have hNc : (((2 : Int) ^ bits - 1 : Int) : ℚ) = (2 : ℚ) ^ bits - 1 := by push_cast; ring
  have hnq : (n : ℚ) ≤ (2 : ℚ) ^ bits - 1 := by
    rw [← hNc]
    exact_mod_cast hnN
  have hN0 : (0 : Int) ≤ (2 : Int) ^ bits - 1 := by
    have : (1 : Int) ≤ (2 : Int) ^ bits := one_le_pow₀ (by norm_num)
    omega
  have amin : |x_min| ≤ (2 : ℚ) ^ (100 : Int) := abs_le_of_range le_rfl (le_of_lt hmm) blo bhi
  have amax : |x_max| ≤ (2 : ℚ) ^ (100 : Int) := abs_le_of_range (le_of_lt hmm) le_rfl blo bhi
  refine ⟨⟨_, uint_to_float_f32_eq amin amax hb hb16 hn0 hnq,
    dec_value_ge_min fmin (le_of_lt hmm) hb hn0, ?_⟩, ?_, ⟨_, uint_to_float_f32_eq amin amax hb
      hb16 hN0 (le_of_eq hNc), ?_⟩⟩
  · obtain ⟨e, hq0, hq⟩ := dec_enc_f32 fmin fmax h0 h1 hmm blo bhi hS hb hb16 hn0 hnq
    rw [e]
    have hf0 : 0 ≤ ⌊enc_scaled_f32 (dec_value_f32 n x_min x_max bits) x_min x_max bits⌋ :=
      Int.floor_nonneg.mpr hq0
    rcases floor_near_int hq with h | h
    · exact Or.inl (by rw [h])
    · exact Or.inr ⟨by omega, by rw [h]⟩
  · rw [uint_to_float_f32_eq amin amax hb hb16 le_rfl (by push_cast; linarith),
      dec_value_zero fmin]
  · have h := dec_value_near fmin fmax h0 h1 hmm hS hb hN0 (le_of_eq hNc)
    have ev : x_min + (((2 : Int) ^ bits - 1 : Int) : ℚ) * (x_max - x_min) / ((2 : ℚ) ^ bits - 1)
        = x_max := by
      rw [hNc]
      field_simp
    rw [ev] at h
    refine le_trans h ?_
    linarith

theorem C21_decode_encode_binary32_witness :
    (∃ y : ℚ, uint_to_float_f32 1 (-(25 / 2)) (25 / 2) 16 = some y ∧ -(25 / 2) ≤ y
        ∧ (float_to_uint_f32 y (-(25 / 2)) (25 / 2) 16 = some 1
            ∨ ((1 : Int) ≤ 1 ∧ float_to_uint_f32 y (-(25 / 2)) (25 / 2) 16 = some (1 - 1))))
      ∧ uint_to_float_f32 0 (-(25 / 2)) (25 / 2) 16 = some (-(25 / 2))
      ∧ (∃ z : ℚ, uint_to_float_f32 ((2 : Int) ^ 16 - 1) (-(25 / 2)) (25 / 2) 16 = some z
          ∧ |z - 25 / 2| ≤ (25 / 2 - -(25 / 2)) / 2097152) :=
  C21_decode_encode_binary32 (-(25 / 2)) (25 / 2) 16 1
    ⟨-25, -1, by norm_num, by norm_num, by norm_num, by norm_num⟩
    ⟨25, -1, by norm_num, by norm_num, by norm_num, by norm_num⟩
    (by norm_num) (by norm_num) (by norm_num) (by norm_num) (by norm_num) (by norm_num)
    (by norm_num) (by norm_num) (by norm_num) (by norm_num)

/-- C21 as written fails in binary32 arithmetic: over `[-12.5, 12.5]` with 16
bits code 1 decodes in binary32 to `-819175/65536`, which encodes to 0, not
1; and over `[-32.125, 32.125]` code `2^16 - 1` decodes to `4210689/131072`,
not to the upper limit `257/8`. -/
theorem C21_inverse_counterexample :
    uint_to_float_f32 1 (-(25 / 2)) (25 / 2) 16 = some (-(819175 / 65536))
      ∧ float_to_uint_f32 (-(819175 / 65536)) (-(25 / 2)) (25 / 2) 16 = some 0
      ∧ uint_to_float_f32 (2 ^ 16 - 1) (-(257 / 8)) (257 / 8) 16 = some (4210689 / 131072)
      ∧ (4210689 / 131072 : ℚ) ≠ 257 / 8 := by
  have dec_one_value : dec_value_f32 1 (-(25 / 2)) (25 / 2) 16 = (-(819175 / 65536)) := by
    exact dec_value_eval (s := 25) (m := 25) (r := (1638425 / 4294967296))
      (by
        rw [f32_round_fix (k := 13107200) (E := -19) (by norm_num) (by norm_num) (by norm_num)]
        norm_num)
      (by
        rw [f32_round_fix (k := 13107200) (E := -19) (by norm_num) (by norm_num) (by norm_num)]
        norm_num)
      (by
        rw [f32_round_eval (e := -12) (k := 13107400)
          (by norm_num [abs_of_nonneg, abs_of_neg]) (by norm_num [abs_of_nonneg, abs_of_neg])
          (by norm_num) (by norm_num [abs_lt])]
        norm_num)
      (by
        rw [f32_round_eval (e := 3) (k := -13106800)
          (by norm_num [abs_of_nonneg, abs_of_neg]) (by norm_num [abs_of_nonneg, abs_of_neg])
          (by norm_num) (by norm_num [abs_lt])]
        norm_num)
  have enc_dec_one_scaled : enc_scaled_f32 (-(819175 / 65536)) (-(25 / 2)) (25 / 2) 16 = (65535 / 65536) := by
    exact enc_scaled_eval (s := 25) (t := (25 / 65536)) (p := (1638375 / 65536))
      (by
        rw [f32_round_fix (k := 13107200) (E := -19) (by norm_num) (by norm_num) (by norm_num)]
        norm_num)
      (by
        rw [f32_round_fix (k := 13107200) (E := -35) (by norm_num) (by norm_num) (by norm_num)]
        norm_num)
      (by
        rw [f32_round_fix (k := 13107000) (E := -19) (by norm_num) (by norm_num) (by norm_num)]
        norm_num)
      (by
        rw [f32_round_fix (k := 16776960) (E := -24) (by norm_num) (by norm_num) (by norm_num)]
        norm_num)
  have f2 : is_f32 (-(25 / 2)) := ⟨-25, -1, by norm_num, by norm_num, by norm_num, by norm_num⟩
  have f3 : is_f32 (25 / 2) := ⟨25, -1, by norm_num, by norm_num, by norm_num, by norm_num⟩
  have fy : is_f32 (-(819175 / 65536)) :=
    ⟨-819175, -16, by norm_num, by norm_num, by norm_num, by norm_num⟩
  refine ⟨?_, ?_, ?_, by norm_num⟩
  · rw [uint_to_float_f32_eq (by norm_num [abs_of_nonneg]) (by norm_num [abs_of_nonneg])
      (by norm_num) (by norm_num) (by norm_num) (by norm_num), dec_one_value]
  · rw [(enc_f32_general (is_f32_grid fy) f2 f3 (by norm_num) (by norm_num) (by norm_num)
      (by norm_num [abs_of_nonneg]) (by norm_num) (by norm_num)
      (by norm_num [abs_of_nonneg])).1, enc_dec_one_scaled]
    rw [c_int_cast_small (by norm_num) (by norm_num)]
  · have e : ((2 : Int) ^ 16 - 1) = 65535 := by norm_num
    rw [e, uint_to_float_f32_eq (by norm_num [abs_of_nonneg]) (by norm_num [abs_of_nonneg])
      (by norm_num) (by norm_num) (by norm_num) (by norm_num), dec_pmax_value]

/-- C1 (codec round trip) in binary32 arithmetic: for binary32 limits `x_min <
x_max` within `±2^100`, `bits` in 1..16 and a binary32 `x` with `x_min ≤ x ≤
x_max`, `float_to_uint` returns a code `n`, `uint_to_float` decodes it to a
finite `y`, and `|y - x| ≤ (x_max - x_min) / (2^bits - 1) + max(|x_min|,
|x_max|) / 2^19 + 2^-149`. -/
theorem C1_round_trip_binary32 (x x_min x_max : ℚ) (bits : Nat)
    (fx : is_f32 x) (fmin : is_f32 x_min) (fmax : is_f32 x_max)
    (hmm : x_min < x_max) (blo : -(2 : ℚ) ^ (100 : Int) ≤ x_min)
    (bhi : x_max ≤ (2 : ℚ) ^ (100 : Int)) (hb : 1 ≤ bits) (hb16 : bits ≤ 16)
    (h1 : x_min ≤ x) (h2 : x ≤ x_max) :
    ∃ n : Int, ∃ y : ℚ, float_to_uint_f32 x x_min x_max bits = some n
      ∧ uint_to_float_f32 n x_min x_max bits = some y
      ∧ |y - x| ≤ (x_max - x_min) / ((2 : ℚ) ^ bits - 1) + max |x_min| |x_max| / 524288
          + (2 : ℚ) ^ (-149 : Int) := by
  -- Round trip in binary32: encoding a binary32 `x` in `[x_min, x_max]` and
  -- decoding the code gives a finite value within one step plus
  -- `max(|x_min|, |x_max|) / 2^19 + 2^-149` of `x`.
  have enc_dec_f32 : ∀ {x x_min x_max : ℚ} {bits : Nat} (fx : is_f32 x) (fmin : is_f32 x_min) (fmax : is_f32 x_max) (hmm : x_min < x_max) (blo : -(2 : ℚ) ^ (100 : Int) ≤ x_min) (bhi : x_max ≤ (2 : ℚ) ^ (100 : Int)) (hb : 1 ≤ bits) (hb16 : bits ≤ 16) (h1 : x_min ≤ x) (h2 : x ≤ x_max),
      ∃ n : Int, ∃ y : ℚ, float_to_uint_f32 x x_min x_max bits = some n
      ∧ uint_to_float_f32 n x_min x_max bits = some y
      ∧ |y - x| ≤ (x_max - x_min) / ((2 : ℚ) ^ bits - 1) + max |x_min| |x_max| / 524288
          + (2 : ℚ) ^ (-149 : Int) := by
    intro x x_min x_max bits fx fmin fmax hmm blo bhi hb hb16 h1 h2
    obtain ⟨e, hn0, hnN, _⟩ := enc_f32_in_range fx fmin fmax hmm blo bhi hb hb16 h1 h2
    obtain ⟨hq0, _, hv0, hv1⟩ := enc_scaled_in_range (is_f32_grid fx) (is_f32_grid fmin)
      (is_f32_grid fmax) hmm hb hb16 h1 h2
    have he := enc_scaled_err (is_f32_grid fx) (is_f32_grid fmin) (is_f32_grid fmax) hmm hb
    have hN := levels_ge_one hb
    have hN16 := levels_le hb16
    have hSp : 0 < x_max - x_min := by linarith
    have hNc : (((2 : Int) ^ bits - 1 : Int) : ℚ) = (2 : ℚ) ^ bits - 1 := by push_cast; ring
    have hnq0 : (0 : ℚ) ≤ ((⌊enc_scaled_f32 x x_min x_max bits⌋ : Int) : ℚ) := by
      exact_mod_cast hn0
    have hnqN : ((⌊enc_scaled_f32 x x_min x_max bits⌋ : Int) : ℚ) ≤ (2 : ℚ) ^ bits - 1 := by
      rw [← hNc]
      exact_mod_cast hnN
    have amin : |x_min| ≤ (2 : ℚ) ^ (100 : Int) := abs_le_of_range le_rfl (le_of_lt hmm) blo bhi
    have amax : |x_max| ≤ (2 : ℚ) ^ (100 : Int) := abs_le_of_range (le_of_lt hmm) le_rfl blo bhi
    have hd := dec_value_err (is_f32_grid fmin) (is_f32_grid fmax) hmm hb hn0 hnqN
    refine ⟨_, _, e, uint_to_float_f32_eq amin amax hb hb16 hn0 hnqN, ?_⟩
    clear e amin amax blo bhi fx fmin fmax hn0 hnN hNc
    have fl1 := Int.floor_le (enc_scaled_f32 x x_min x_max bits)
    have fl2 := Int.lt_floor_add_one (enc_scaled_f32 x x_min x_max bits)
    rw [abs_of_nonneg hv0] at he
    have hM1 : |x_min| ≤ max |x_min| |x_max| := le_max_left _ _
    have hM2 : |x_max| ≤ max |x_min| |x_max| := le_max_right _ _
    have hst0 : 0 < (x_max - x_min) / ((2 : ℚ) ^ bits - 1) := div_pos hSp (by linarith)
    have hstS : (x_max - x_min) / ((2 : ℚ) ^ bits - 1) ≤ x_max - x_min :=
      div_le_self (le_of_lt hSp) hN
    have vst : (x - x_min) * ((2 : ℚ) ^ bits - 1) / (x_max - x_min)
        * ((x_max - x_min) / ((2 : ℚ) ^ bits - 1)) = x - x_min := by
      field_simp
    have hNst : ((2 : ℚ) ^ bits - 1) * ((x_max - x_min) / ((2 : ℚ) ^ bits - 1))
        = x_max - x_min := by
      field_simp
    have hY : x_min + ((⌊enc_scaled_f32 x x_min x_max bits⌋ : Int) : ℚ) * (x_max - x_min)
        / ((2 : ℚ) ^ bits - 1)
        = x_min + ((⌊enc_scaled_f32 x x_min x_max bits⌋ : Int) : ℚ)
            * ((x_max - x_min) / ((2 : ℚ) ^ bits - 1)) := by
      rw [mul_div_assoc]
    rw [hY] at hd
    have hη : (2 : ℚ) ^ (-150 : Int) ≤ 1 / 16777216 := by norm_num
    have hη0 := two_zpow_pos (-150)
    have e149 : (2 : ℚ) ^ (-149 : Int) = 2 * (2 : ℚ) ^ (-150 : Int) := by norm_num
    rw [e149] at hd ⊢
    generalize dec_value_f32 ⌊enc_scaled_f32 x x_min x_max bits⌋ x_min x_max bits = y at hd ⊢
    generalize ((⌊enc_scaled_f32 x x_min x_max bits⌋ : Int) : ℚ) = k at hnq0 hnqN fl1 fl2 hd
    generalize enc_scaled_f32 x x_min x_max bits = q at hq0 he fl1 fl2
    generalize (x - x_min) * ((2 : ℚ) ^ bits - 1) / (x_max - x_min) = v at hv0 hv1 he vst
    generalize (x_max - x_min) / ((2 : ℚ) ^ bits - 1) = st at hst0 hstS vst hNst hd ⊢
    generalize (2 : ℚ) ^ bits - 1 = N at hN hN16 hnqN hv1 hNst
    generalize (2 : ℚ) ^ (-150 : Int) = η at hη hη0 he hd ⊢
    generalize max |x_min| |x_max| = M at hM1 hM2 ⊢
    rw [abs_le] at hM1 hM2 he
    have hkst0 : 0 ≤ k * st := mul_nonneg hnq0 (le_of_lt hst0)
    have hkstN : k * st ≤ N * st := mul_le_mul_of_nonneg_right hnqN (le_of_lt hst0)
    have hYa : |x_min + k * st| ≤ M := abs_le.mpr ⟨by linarith only [hM1.1, hkst0], by linarith only [hkstN, hNst, hM2.2]⟩
    have hk1 : (v - 1 - (1 / 2097152 * v + η)) * st ≤ k * st :=
      mul_le_mul_of_nonneg_right (by linarith only [he.1, fl2]) (le_of_lt hst0)
    have hk2 : k * st ≤ (v + (1 / 2097152 * v + η)) * st :=
      mul_le_mul_of_nonneg_right (by linarith only [he.2, fl1]) (le_of_lt hst0)
    have x1 : (v - 1 - (1 / 2097152 * v + η)) * st
        = (x - x_min) - st - 1 / 2097152 * (x - x_min) - η * st := by
      rw [← vst]
      ring
    have x2 : (v + (1 / 2097152 * v + η)) * st
        = (x - x_min) + 1 / 2097152 * (x - x_min) + η * st := by
      rw [← vst]
      ring
    rw [x1] at hk1
    rw [x2] at hk2
    have hηst : η * st ≤ 1 / 16777216 * (x_max - x_min) := by
      have a1 : η * st ≤ η * (x_max - x_min) := mul_le_mul_of_nonneg_left hstS (le_of_lt hη0)
      have a2 : η * (x_max - x_min) ≤ 1 / 16777216 * (x_max - x_min) :=
        mul_le_mul_of_nonneg_right hη (le_of_lt hSp)
      linarith only [a1, a2]
    have hηst0 : 0 ≤ η * st := mul_nonneg (le_of_lt hη0) (le_of_lt hst0)
    rw [abs_le] at hd ⊢
    generalize k * st = kst at hd hk1 hk2 hkst0 hkstN hYa
    generalize η * st = ηst at hk1 hk2 hηst hηst0
    constructor
    · linarith only [hd.1, hYa, hk1, hηst, hηst0, hM1.1, hM2.2, h1, h2, hst0]
    · linarith only [hd.2, hYa, hk2, hηst, hηst0, hM1.1, hM2.2, h1, h2, hst0]
  exact enc_dec_f32 fx fmin fmax hmm blo bhi hb hb16 h1 h2

theorem C1_round_trip_binary32_witness :
    ∃ n : Int, ∃ y : ℚ, float_to_uint_f32 (5 / 2) (-(25 / 2)) (25 / 2) 16 = some n
      ∧ uint_to_float_f32 n (-(25 / 2)) (25 / 2) 16 = some y
      ∧ |y - 5 / 2| ≤ (25 / 2 - -(25 / 2)) / ((2 : ℚ) ^ 16 - 1)
          + max |(-(25 / 2) : ℚ)| |(25 / 2 : ℚ)| / 524288 + (2 : ℚ) ^ (-149 : Int) :=
  C1_round_trip_binary32 (5 / 2) (-(25 / 2)) (25 / 2) 16
    ⟨5, -1, by norm_num, by norm_num, by norm_num, by norm_num⟩
    ⟨-25, -1, by norm_num, by norm_num, by norm_num, by norm_num⟩
    ⟨25, -1, by norm_num, by norm_num, by norm_num, by norm_num⟩
    (by norm_num) (by norm_num) (by norm_num) (by norm_num) (by norm_num) (by norm_num)
    (by norm_num)

/-- C1 as written fails in binary32 arithmetic: over `[-30, 30]` with 12 bits
the binary32 value `x = -15682549/524288` (about -29.9121) is encoded as 5
and code 5 decodes to `-15690231/524288`; the round-trip error `3841/262144`
exceeds the step `60/4095`. -/
theorem C1_round_trip_counterexample :
    is_f32 (-(15682549 / 524288)) ∧ (-30 : ℚ) ≤ -(15682549 / 524288)
      ∧ (-(15682549 / 524288) : ℚ) ≤ 30
      ∧ float_to_uint_f32 (-(15682549 / 524288)) (-30) 30 12 = some 5
      ∧ uint_to_float_f32 5 (-30) 30 12 = some (-(15690231 / 524288))
      ∧ (30 - -30) / ((2 : ℚ) ^ 12 - 1)
          < |(-(15690231 / 524288) : ℚ) - -(15682549 / 524288)| := by
  have rt_enc_scaled : enc_scaled_f32 (-(15682549 / 524288)) (-30) 30 12 = (12582843 / 2097152) := by
    exact enc_scaled_eval (s := 60) (t := (46091 / 524288)) (p := (11796415 / 32768))
      (by
        rw [f32_round_fix (k := 15728640) (E := -18) (by norm_num) (by norm_num) (by norm_num)]
        norm_num)
      (by
        rw [f32_round_fix (k := 11799296) (E := -27) (by norm_num) (by norm_num) (by norm_num)]
        norm_num)
      (by
        rw [f32_round_eval (e := 8) (k := 11796415)
          (by norm_num [abs_of_nonneg, abs_of_neg]) (by norm_num [abs_of_nonneg, abs_of_neg])
          (by norm_num) (by norm_num [abs_lt])]
        norm_num)
      (by
        rw [f32_round_eval (e := 2) (k := 12582843)
          (by norm_num [abs_of_nonneg, abs_of_neg]) (by norm_num [abs_of_nonneg, abs_of_neg])
          (by norm_num) (by norm_num [abs_lt])]
        norm_num)
  have rt_dec_value : dec_value_f32 5 (-30) 30 12 = (-(15690231 / 524288)) := by
    exact dec_value_eval (s := 60) (m := 300) (r := (9832801 / 134217728))
      (by
        rw [f32_round_fix (k := 15728640) (E := -18) (by norm_num) (by norm_num) (by norm_num)]
        norm_num)
      (by
        rw [f32_round_fix (k := 9830400) (E := -15) (by norm_num) (by norm_num) (by norm_num)]
        norm_num)
      (by
        rw [f32_round_eval (e := -4) (k := 9832801)
          (by norm_num [abs_of_nonneg, abs_of_neg]) (by norm_num [abs_of_nonneg, abs_of_neg])
          (by norm_num) (by norm_num [abs_lt])]
        norm_num)
      (by
        rw [f32_round_eval (e := 4) (k := -15690231)
          (by norm_num [abs_of_nonneg, abs_of_neg]) (by norm_num [abs_of_nonneg, abs_of_neg])
          (by norm_num) (by norm_num [abs_lt])]
        norm_num)
  have f1 : is_f32 (-(15682549 / 524288)) :=
    ⟨-15682549, -19, by norm_num, by norm_num, by norm_num, by norm_num⟩
  have f2 : is_f32 (-30) := ⟨-30, 0, by norm_num, by norm_num, by norm_num, by norm_num⟩
  have f3 : is_f32 30 := ⟨30, 0, by norm_num, by norm_num, by norm_num, by norm_num⟩
  refine ⟨f1, by norm_num, by norm_num, ?_, ?_, ?_⟩
  · rw [(enc_f32_in_range f1 f2 f3 (by norm_num) (by norm_num) (by norm_num) (by norm_num)
      (by norm_num) (by norm_num) (by norm_num)).1, rt_enc_scaled]
    have e : ⌊(12582843 / 2097152 : ℚ)⌋ = 5 := by
      rw [Int.floor_eq_iff]
      constructor <;> norm_num
    rw [e]
  · rw [uint_to_float_f32_eq (by norm_num [abs_of_nonneg]) (by norm_num [abs_of_nonneg])
      (by norm_num) (by norm_num) (by norm_num) (by norm_num), rt_dec_value]
  · rw [abs_of_nonpos (by norm_num)]
    norm_num

end DM
